import Mathlib

/-!
RTK inline FDK: a shallow embedding of `rtkinlinefdk.cxx`.

The development models the two threads of `applications/rtkinlinefdk/rtkinlinefdk.cxx`:

* `AcquisitionCallback` publishes one projection at a time in the shared `ThreadInfoStruct`;
* `InlineThreadCallback` polls the shared record and drives the FDK filter.

It also models `main` of `applications/rtkfdk/rtkfdk.cxx` as a sequence of actions, and the
checking functions of the tests: `CheckGeometries` (`rtkelektatest.cxx`, `rtkvariantest.cxx`),
`CheckImageQuality` of `rtkrampfiltertest.cxx` and of `rtkforwardprojectiontest.cxx`, and the
accumulation loops of the other `CheckImageQuality` functions.

Conventions.

* Finite `double` and `float` values are rationals (every finite one is a rational). The inline
  application only compares them. `CheckGeometries` and `CheckImageQuality` of
  `rtkrampfiltertest.cxx` compute with them, which is modelled in IEEE 754 arithmetic: every
  operation rounds its exact result to nearest, ties to even, in the format of its type
  (`float` for a difference of two `float` pixels, `double` elsewhere), and yields an infinity
  on overflow and not a number for `0./0`; expressions are evaluated in the format of their
  type, without excess precision. The library function `log10` is a parameter. The accumulation
  loops of the other `CheckImageQuality` functions are in exact arithmetic, where a value that is
  not a number is `none`.
* `unsigned int` counters are naturals; the file-name index of `AcquisitionCallback` and the
  divisor `npix` of the ramp filter test, where 32-bit wrap-around changes the outcome, are
  written with an explicit `% 2^32`.
* Every critical section is one atomic step: the shared record is only touched under the mutex.
* The ITK pipeline execution `feldkamp->Update()` is a parameter `fdk` of the model; it receives
  whatever the pipeline can see (local geometry, file names, detector offsets, extraction index)
  and input 0 of the filter.  ITK exceptions, and the exit they trigger through
  `TRY_AND_EXIT_ON_ITK_EXCEPTION`, are outside the model.
-/

namespace RTK

/-! ## Geometry -/

/-- The nine scalars of one projection, in the argument order of `AddProjection`. -/
structure ProjectionRecord where
  sid : ℚ
  sdd : ℚ
  gantryAngle : ℚ
  projOffsetX : ℚ
  projOffsetY : ℚ
  outOfPlaneAngle : ℚ
  inPlaneAngle : ℚ
  sourceOffsetX : ℚ
  sourceOffsetY : ℚ
deriving DecidableEq, Repr

/-- The `ThreeDCircularProjectionGeometry` object: an append-only sequence of projection records.
One matrix is derived per record, so `GetMatrices().size()` is the length of the sequence. -/
abbrev Geometry := List ProjectionRecord

/-- The `geometry->AddProjection(...)` call: appends one record. -/
def AddProjection (geometry : Geometry) (r : ProjectionRecord) : Geometry :=
  geometry ++ [r]

/-- The `geometry->GetProjectionOffsetsX()` accessor. -/
def GetProjectionOffsetsX (geometry : Geometry) : List ℚ :=
  geometry.map ProjectionRecord.projOffsetX

/-! ## `computeOffsetsFromGeometry` -/

/-- The value `itk::NumericTraits<double>::max()`, the largest finite double. -/
def NumericTraits_double_max : ℚ := 2 ^ 1024 - 2 ^ 971

/-- The value `itk::NumericTraits<double>::min()`, the smallest positive normalised double. -/
def NumericTraits_double_min : ℚ := 1 / 2 ^ 1022

/-- The vnl helper `vnl_math_min(x, y)`, which is `(x < y) ? x : y`. -/
def vnl_math_min (x y : ℚ) : ℚ := if x < y then x else y

/-- The vnl helper `vnl_math_max(x, y)`, which is `(x > y) ? x : y`. -/
def vnl_math_max (x y : ℚ) : ℚ := if x > y then x else y

/-- The loop of `computeOffsetsFromGeometry` over a list of offsets, from running values
`(min, max)`. -/
def computeOffsetsLoop : List ℚ → ℚ × ℚ → ℚ × ℚ
  | [], mm => mm
  | x :: xs, mm => computeOffsetsLoop xs (vnl_math_min mm.1 x, vnl_math_max mm.2 x)

/-- The function `computeOffsetsFromGeometry`: the pair `(*minOffset, *maxOffset)` it stores. -/
def computeOffsetsFromGeometry (geometry : Geometry) : ℚ × ℚ :=
  computeOffsetsLoop (GetProjectionOffsetsX geometry)
    (NumericTraits_double_max, NumericTraits_double_min)

/-! ## Shared record and the acquisition thread -/

/-- The shared `ThreadInfoStruct` (the mutex and the command-line record are kept apart). -/
structure ThreadInfoStruct where
  stop : Bool
  nproj : Nat
  sid : ℚ
  sdd : ℚ
  gantryAngle : ℚ
  projOffsetX : ℚ
  projOffsetY : ℚ
  outOfPlaneAngle : ℚ
  inPlaneAngle : ℚ
  sourceOffsetX : ℚ
  sourceOffsetY : ℚ
  minimumOffsetX : ℚ
  maximumOffsetX : ℚ
  fileName : String
deriving DecidableEq, Repr

/-- The initialisation of `main`: `nproj` and the two offsets are set, every other field is
left uninitialised (`garbage` stands for whatever the stack held). -/
def mainThreadInfo (garbage : ThreadInfoStruct) : ThreadInfoStruct :=
  { garbage with nproj := 0, minimumOffsetX := 0, maximumOffsetX := 0 }

/-- What `AcquisitionCallback` reads before its loop: the geometry file and the file names matched
by the regular expression. -/
structure Acquisition where
  geometry : Geometry
  names : List String
deriving DecidableEq, Repr

/-- The integer helper `vnl_math_min` on `unsigned int`. -/
def vnl_math_min_uint (x y : Nat) : Nat := if x < y then x else y

/-- The index `vnl_math_min( i, (unsigned int)names->GetFileNames().size()-1 )` for `m` file
names, in 32-bit unsigned arithmetic. -/
def fileNameIndex (i m : Nat) : Nat :=
  vnl_math_min_uint i ((m % 2 ^ 32 + (2 ^ 32 - 1)) % 2 ^ 32)

/-- One critical section of the loop of `AcquisitionCallback`, for loop counter `i`: the shared
record it leaves. `none` stands for an out-of-range vector access. -/
def AcquisitionPublish (acq : Acquisition) (i : Nat) : Option ThreadInfoStruct :=
  match acq.geometry[i]?, acq.names[fileNameIndex i acq.names.length]? with
  | some r, some name =>
    some
      { sdd := r.sdd
        sid := r.sid
        gantryAngle := r.gantryAngle
        sourceOffsetX := r.sourceOffsetX
        sourceOffsetY := r.sourceOffsetY
        projOffsetX := r.projOffsetX
        projOffsetY := r.projOffsetY
        inPlaneAngle := r.inPlaneAngle
        outOfPlaneAngle := r.outOfPlaneAngle
        minimumOffsetX := (computeOffsetsFromGeometry acq.geometry).1
        maximumOffsetX := (computeOffsetsFromGeometry acq.geometry).2
        fileName := name
        nproj := i + 1
        stop := (i == acq.geometry.length - 1) }
  | _, _ => none

/-! ## The reconstruction thread -/

/-- Process exit status. -/
inductive ExitCode where
  | EXIT_SUCCESS
  | EXIT_FAILURE
deriving DecidableEq, Repr

/-- The part of the command line and of the build configuration that `InlineThreadCallback`
branches on. -/
structure Config where
  hardware_arg : String
  CUDA_FOUND : Bool
  OPENCL_FOUND : Bool
deriving DecidableEq, Repr

/-- Everything the pipeline upstream of the FDK filter sees when `Update()` runs. -/
structure FDKRequest where
  geometry : Geometry
  fileNames : List String
  minimumOffsetX : ℚ
  maximumOffsetX : ℚ
  extractIndex : Nat
deriving DecidableEq, Repr

/-- Observable actions of the reconstruction thread. -/
inductive Event (V : Type) where
  | Lock
  | Unlock
  | Update (req : FDKRequest) (input0 output : V)
  | Write (input : Option V)
  | Exit (code : ExitCode)
deriving DecidableEq, Repr

/-- Local state of `InlineThreadCallback` across loop iterations: its geometry, its file-name
list and the image currently connected as input 0 of the FDK filter. -/
structure InlineState (V : Type) where
  geometry : Geometry
  fileNames : List String
  input0 : V
deriving DecidableEq, Repr

/-- Result of a piece of `InlineThreadCallback`: the state, the actions performed and the exit
status when the process was terminated. -/
structure StepResult (V : Type) where
  state : InlineState V
  events : List (Event V)
  exited : Option ExitCode
deriving DecidableEq, Repr

/-- Whether one of the three `feldkamp...->Update()` branches is taken for this configuration. -/
def backendSelected (cfg : Config) : Bool :=
  cfg.hardware_arg == "cpu"
    || (cfg.CUDA_FOUND && cfg.hardware_arg == "cuda")
    || (cfg.OPENCL_FOUND && cfg.hardware_arg == "opencl")

/-- The set-up of `InlineThreadCallback` before its loop: the filter is wired to the constant
image source, unless the requested backend was not compiled in. -/
def InlineThreadCallbackSetup {V : Type} (cfg : Config) (constantImage : V) : StepResult V :=
  let st : InlineState V := { geometry := [], fileNames := [], input0 := constantImage }
  if cfg.hardware_arg == "cpu" then
    ⟨st, [Event.Lock, Event.Unlock], none⟩
  else if cfg.hardware_arg == "cuda" then
    if cfg.CUDA_FOUND then ⟨st, [Event.Lock, Event.Unlock], none⟩
    else ⟨st, [Event.Lock, Event.Exit ExitCode.EXIT_FAILURE], some ExitCode.EXIT_FAILURE⟩
  else if cfg.hardware_arg == "opencl" then
    if cfg.OPENCL_FOUND then ⟨st, [Event.Lock, Event.Unlock], none⟩
    else ⟨st, [Event.Lock, Event.Exit ExitCode.EXIT_FAILURE], some ExitCode.EXIT_FAILURE⟩
  else
    ⟨st, [Event.Lock, Event.Unlock], none⟩

/-- The block `Update(); pimg = GetOutput(); pimg->DisconnectPipeline(); SetInput(pimg)` of the
selected backend: the filter runs on its current input 0 and its output becomes the new input 0.
No block runs when no backend matches. -/
def FeldkampUpdateReseed {V : Type} (cfg : Config) (fdk : FDKRequest → V → V)
    (req : FDKRequest) (st : InlineState V) : InlineState V × List (Event V) :=
  if backendSelected cfg then
    ({ st with input0 := fdk req st.input0 }, [Event.Update req st.input0 (fdk req st.input0)])
  else
    (st, [])

/-- The block `Update(); writer->SetInput(GetOutput())` of the selected backend: the image handed
to the writer, if any. -/
def FeldkampUpdateToWriter {V : Type} (cfg : Config) (fdk : FDKRequest → V → V)
    (req : FDKRequest) (st : InlineState V) : Option V × List (Event V) :=
  if backendSelected cfg then
    (some (fdk req st.input0), [Event.Update req st.input0 (fdk req st.input0)])
  else
    (none, [])

/-- The record that `InlineThreadCallback` passes to `AddProjection`. -/
def sharedRecord (threadInfo : ThreadInfoStruct) : ProjectionRecord :=
  { sid := threadInfo.sid
    sdd := threadInfo.sdd
    gantryAngle := threadInfo.gantryAngle
    projOffsetX := threadInfo.projOffsetX
    projOffsetY := threadInfo.projOffsetY
    outOfPlaneAngle := threadInfo.outOfPlaneAngle
    inPlaneAngle := threadInfo.inPlaneAngle
    sourceOffsetX := threadInfo.sourceOffsetX
    sourceOffsetY := threadInfo.sourceOffsetY }

/-- The file-name update of the loop: the published name is pushed when it is not empty and
differs from the last name of the list. -/
def pushFileName (fileNames : List String) (fileName : String) : List String :=
  if fileName != "" && (fileNames.length == 0 || fileNames.getLast? != some fileName) then
    fileNames ++ [fileName]
  else
    fileNames

/-- One iteration of the `for(;;)` loop of `InlineThreadCallback`, run against the shared record
as it stands while the mutex is held. -/
def InlineThreadCallbackIteration {V : Type} (cfg : Config) (fdk : FDKRequest → V → V)
    (threadInfo : ThreadInfoStruct) (st : InlineState V) : StepResult V :=
  if st.geometry.length < threadInfo.nproj then
    let fileNames := pushFileName st.fileNames threadInfo.fileName
    let geometry := AddProjection st.geometry (sharedRecord threadInfo)
    let st1 : InlineState V := { st with geometry := geometry, fileNames := fileNames }
    if geometry.length != threadInfo.nproj then
      ⟨st1, [Event.Lock, Event.Exit ExitCode.EXIT_FAILURE], some ExitCode.EXIT_FAILURE⟩
    else if geometry.length < 3 then
      ⟨st1, [Event.Lock, Event.Unlock], none⟩
    else
      let req : FDKRequest :=
        { geometry := geometry
          fileNames := fileNames
          minimumOffsetX := threadInfo.minimumOffsetX
          maximumOffsetX := threadInfo.maximumOffsetX
          extractIndex := geometry.length - 2 }
      let r1 := FeldkampUpdateReseed cfg fdk req st1
      if threadInfo.stop then
        let r2 := FeldkampUpdateReseed cfg fdk { req with extractIndex := 0 } r1.1
        let r3 := FeldkampUpdateToWriter cfg fdk { req with extractIndex := geometry.length - 1 } r2.1
        ⟨r2.1,
          [Event.Lock] ++ r1.2 ++ r2.2 ++ r3.2
            ++ [Event.Write r3.1, Event.Exit ExitCode.EXIT_SUCCESS],
          some ExitCode.EXIT_SUCCESS⟩
      else
        ⟨r1.1, [Event.Lock] ++ r1.2 ++ [Event.Unlock], none⟩
  else
    ⟨st, [Event.Lock, Event.Unlock], none⟩

/-! ## The two threads together -/

/-- A scheduling decision: which thread enters its next critical section. -/
inductive Action where
  | publish
  | consume
deriving DecidableEq, Repr

/-- State of the running program: the shared record, the loop counter of the acquisition thread,
the local state of the reconstruction thread and what it did so far. `fault` records an
out-of-range access of the acquisition thread. -/
structure InlineSystem (V : Type) where
  threadInfo : ThreadInfoStruct
  i : Nat
  consumer : InlineState V
  trace : List (Event V)
  exited : Option ExitCode
  fault : Bool
deriving DecidableEq, Repr

/-- The program once both threads have finished their set-up. -/
def InlineSystem.init {V : Type} (cfg : Config) (constantImage : V)
    (garbage : ThreadInfoStruct) : InlineSystem V :=
  let s : StepResult V := InlineThreadCallbackSetup cfg constantImage
  { threadInfo := mainThreadInfo garbage
    i := 0
    consumer := s.state
    trace := s.events
    exited := s.exited
    fault := false }

/-- One scheduling step. A terminated or faulted program does nothing; the acquisition thread
does nothing once its loop is over. -/
def InlineSystem.step {V : Type} (acq : Acquisition) (cfg : Config) (fdk : FDKRequest → V → V)
    (s : InlineSystem V) : Action → InlineSystem V
  | Action.publish =>
    if s.exited.isSome || s.fault then s
    else if s.i < acq.geometry.length then
      match AcquisitionPublish acq s.i with
      | some threadInfo => { s with threadInfo := threadInfo, i := s.i + 1 }
      | none => { s with fault := true }
    else s
  | Action.consume =>
    if s.exited.isSome || s.fault then s
    else
      let r := InlineThreadCallbackIteration cfg fdk s.threadInfo s.consumer
      { s with consumer := r.state, trace := s.trace ++ r.events, exited := r.exited }

/-- Runs a schedule. -/
def InlineSystem.run {V : Type} (acq : Acquisition) (cfg : Config) (fdk : FDKRequest → V → V)
    (s : InlineSystem V) (schedule : List Action) : InlineSystem V :=
  schedule.foldl (InlineSystem.step acq cfg fdk) s

/-- The schedule in which the reconstruction thread takes one step after each of `n`
publications. -/
def lockstepSchedule : Nat → List Action
  | 0 => []
  | n + 1 => Action.publish :: Action.consume :: lockstepSchedule n

/-! ## Observations on traces -/

/-- The extraction indices of the `Update` actions of a trace, in order. -/
def updateIndices {V : Type} : List (Event V) → List Nat
  | [] => []
  | Event.Update req _ _ :: es => req.extractIndex :: updateIndices es
  | _ :: es => updateIndices es

/-- The images handed to the writer by the `Write` actions of a trace, in order. -/
def writtenVolumes {V : Type} : List (Event V) → List (Option V)
  | [] => []
  | Event.Write v :: es => v :: writtenVolumes es
  | _ :: es => writtenVolumes es

/-- Whether the `Update` actions of a trace form a chain from `v`: each one takes as input 0 the
output of the one before it, the first one takes `v`. -/
def updatesChained {V : Type} [DecidableEq V] : V → List (Event V) → Bool
  | _, [] => true
  | v, Event.Update _ input0 output :: es => decide (input0 = v) && updatesChained output es
  | v, _ :: es => updatesChained v es

/-- The output of the last `Update` action of a trace, `v` when there is none. -/
def lastOutput {V : Type} : V → List (Event V) → V
  | v, [] => v
  | _, Event.Update _ _ output :: es => lastOutput output es
  | v, _ :: es => lastOutput v es

/-- Batch FDK as the spec words it: starting from the constant volume, the contribution of every
projection index `0, 1, ..., n-1` is accumulated into the same volume. -/
def batchReconstruct {V : Type} [Add V] (constantImage : V) (contribution : Nat → V)
    (n : Nat) : V :=
  (List.range n).foldl (fun v i => v + contribution i) constantImage

/-! ## Auxiliary definitions for the proofs -/

/-- The request that the loop hands to the pipeline after appending the published record. -/
def stepRequest {V : Type} (threadInfo : ThreadInfoStruct) (st : InlineState V)
    (extractIndex : Nat) : FDKRequest :=
  { geometry := AddProjection st.geometry (sharedRecord threadInfo)
    fileNames := pushFileName st.fileNames threadInfo.fileName
    minimumOffsetX := threadInfo.minimumOffsetX
    maximumOffsetX := threadInfo.maximumOffsetX
    extractIndex := extractIndex }

/-- The local state right after the published record was appended. -/
def appended {V : Type} (threadInfo : ThreadInfoStruct) (st : InlineState V) : InlineState V :=
  { geometry := AddProjection st.geometry (sharedRecord threadInfo)
    fileNames := pushFileName st.fileNames threadInfo.fileName
    input0 := st.input0 }

/-- The chain invariant of a program state. -/
def ChainInv {V : Type} [DecidableEq V] (constantImage : V) (s : InlineSystem V) : Prop :=
  updatesChained constantImage s.trace = true
    ∧ (s.exited = none → lastOutput constantImage s.trace = s.consumer.input0)

/-- State of the program after `k` rounds of the lockstep schedule, before the last one. -/
def LockstepInv {V : Type} [AddCommMonoid V] (constantImage : V) (contribution : Nat → V) (k : Nat)
    (s : InlineSystem V) : Prop :=
  s.i = k ∧ s.consumer.geometry.length = k ∧ s.threadInfo.nproj = k ∧ s.exited = none
    ∧ s.fault = false ∧ writtenVolumes s.trace = []
    ∧ s.consumer.input0 = constantImage + ∑ j in Finset.range (k - 2), contribution (j + 1)

/-- State of the program after `k` rounds of the lockstep schedule while fewer than three
records have been received. -/
def WaitingInv {V : Type} (acq : Acquisition) (k : Nat) (s : InlineSystem V) : Prop :=
  s.i = k ∧ s.consumer.geometry.length = k ∧ s.threadInfo.nproj = k ∧ s.exited = none
    ∧ s.fault = false ∧ writtenVolumes s.trace = [] ∧ updateIndices s.trace = []
    ∧ (k = acq.geometry.length → 0 < k → s.threadInfo.stop = true)

/-! ## Example data -/

/-- A projection record with the given X offset of the detector. -/
def exampleRecord (projOffsetX : ℚ) : ProjectionRecord :=
  { sid := 1000, sdd := 1536, gantryAngle := 0, projOffsetX := projOffsetX, projOffsetY := 0,
    outOfPlaneAngle := 0, inPlaneAngle := 0, sourceOffsetX := 0, sourceOffsetY := 0 }

/-- The cpu backend, nothing else compiled in. -/
def exampleConfig : Config := { hardware_arg := "cpu", CUDA_FOUND := false, OPENCL_FOUND := false }

/-- A reconstruction update on natural numbers: it adds `2 ^ index` to its input, so that the sum
shows which indices were processed and how often. -/
def exampleFdk (req : FDKRequest) (v : Nat) : Nat := v + 2 ^ req.extractIndex

/-- A shared record with the given published count and stop flag. -/
def exampleShared (nproj : Nat) (stop : Bool) : ThreadInfoStruct :=
  { stop := stop, nproj := nproj, sid := 1000, sdd := 1536, gantryAngle := 0, projOffsetX := 0,
    projOffsetY := 0, outOfPlaneAngle := 0, inPlaneAngle := 0, sourceOffsetX := 0,
    sourceOffsetY := 0, minimumOffsetX := 0, maximumOffsetX := 0, fileName := "proj.his" }

/-- An acquisition of four projections. -/
def exampleAcquisition : Acquisition :=
  { geometry := [exampleRecord 0, exampleRecord (-5), exampleRecord 3, exampleRecord 1]
    names := ["proj.his"] }

/-- An acquisition of one projection. -/
def exampleShortAcquisition : Acquisition :=
  { geometry := [exampleRecord 0], names := ["proj.his"] }

/-- A local state of the reconstruction thread holding `g` records and input 0 equal to `v`. -/
def exampleState (g : Nat) (v : Nat) : InlineState Nat :=
  { geometry := List.replicate g (exampleRecord 0), fileNames := ["proj.his"], input0 := v }

/-! ## Lock discipline of the reconstruction thread -/

/-- Whether the reconstruction thread holds the mutex after a trace, given whether it held it
before. -/
def lockHeldAfter {V : Type} : Bool → List (Event V) → Bool
  | held, [] => held
  | _, Event.Lock :: es => lockHeldAfter true es
  | _, Event.Unlock :: es => lockHeldAfter false es
  | held, _ :: es => lockHeldAfter held es

/-- Whether every `Update` of a trace is executed while the mutex is held. -/
def updatesUnderLock {V : Type} : Bool → List (Event V) → Bool
  | _, [] => true
  | _, Event.Lock :: es => updatesUnderLock true es
  | _, Event.Unlock :: es => updatesUnderLock false es
  | held, Event.Update _ _ _ :: es => held && updatesUnderLock held es
  | held, _ :: es => updatesUnderLock held es

/-- Whether every `Update` of a trace is executed while the mutex is released. -/
def updatesOutsideLock {V : Type} : Bool → List (Event V) → Bool
  | _, [] => true
  | _, Event.Lock :: es => updatesOutsideLock true es
  | _, Event.Unlock :: es => updatesOutsideLock false es
  | held, Event.Update _ _ _ :: es => !held && updatesOutsideLock held es
  | held, _ :: es => updatesOutsideLock held es

/-- The pairs `(minimumOffsetX, maximumOffsetX)` handed to `ddf->SetOffsets` for the `Update`
actions of a trace, in order. -/
def updateOffsets {V : Type} : List (Event V) → List (ℚ × ℚ)
  | [] => []
  | Event.Update req _ _ :: es => (req.minimumOffsetX, req.maximumOffsetX) :: updateOffsets es
  | _ :: es => updateOffsets es

/-! ## Actions of the acquisition thread -/

/-- The fields of `ThreadInfoStruct` that `AcquisitionCallback` assigns in its loop. -/
inductive SharedField where
  | sdd
  | sid
  | gantryAngle
  | sourceOffsetX
  | sourceOffsetY
  | projOffsetX
  | projOffsetY
  | inPlaneAngle
  | outOfPlaneAngle
  | minimumOffsetX
  | maximumOffsetX
  | fileName
  | nproj
  | stop
deriving DecidableEq, Repr

/-- Observable actions of `AcquisitionCallback` (printing left out): the mutex operations, the
configuration of the file-name generator, a call of `names->GetFileNames()`, the reading of the
geometry file, `computeOffsetsFromGeometry`, the assignment of a shared field in loop iteration
`i`, and `itksys::SystemTools::Delay`. -/
inductive AcqEvent where
  | Lock
  | Unlock
  | SetUpFileNames
  | GetFileNames
  | ReadGeometry
  | ComputeOffsets
  | Write (field : SharedField) (i : Nat)
  | Delay (ms : Nat)
deriving DecidableEq, Repr

/-- The part of `AcquisitionCallback` before its loop (lines 97 to 127). -/
def AcquisitionCallbackSetUp (verbose_flag : Bool) : List AcqEvent :=
  [AcqEvent.Lock, AcqEvent.SetUpFileNames]
    ++ (if verbose_flag then [AcqEvent.GetFileNames] else [])
    ++ [AcqEvent.ReadGeometry, AcqEvent.ComputeOffsets, AcqEvent.Unlock]

/-- Iteration `i` of the loop of `AcquisitionCallback` (lines 134 to 154). -/
def AcquisitionCallbackBody (i : Nat) : List AcqEvent :=
  [AcqEvent.Lock,
    AcqEvent.Write SharedField.sdd i,
    AcqEvent.Write SharedField.sid i,
    AcqEvent.Write SharedField.gantryAngle i,
    AcqEvent.Write SharedField.sourceOffsetX i,
    AcqEvent.Write SharedField.sourceOffsetY i,
    AcqEvent.Write SharedField.projOffsetX i,
    AcqEvent.Write SharedField.projOffsetY i,
    AcqEvent.Write SharedField.inPlaneAngle i,
    AcqEvent.Write SharedField.outOfPlaneAngle i,
    AcqEvent.Write SharedField.minimumOffsetX i,
    AcqEvent.Write SharedField.maximumOffsetX i,
    AcqEvent.GetFileNames,
    AcqEvent.GetFileNames,
    AcqEvent.Write SharedField.fileName i,
    AcqEvent.Write SharedField.nproj i,
    AcqEvent.Write SharedField.stop i,
    AcqEvent.Unlock,
    AcqEvent.Delay 200]

/-- The loop of `AcquisitionCallback` from counter `i`, for `k` more iterations. -/
def AcquisitionCallbackLoop : Nat → Nat → List AcqEvent
  | _, 0 => []
  | i, k + 1 => AcquisitionCallbackBody i ++ AcquisitionCallbackLoop (i + 1) k

/-- The actions of `AcquisitionCallback` for a geometry of `nproj` projections. -/
def AcquisitionCallbackTrace (verbose_flag : Bool) (nproj : Nat) : List AcqEvent :=
  AcquisitionCallbackSetUp verbose_flag ++ AcquisitionCallbackLoop 0 nproj

/-- The actions of a trace that are executed while the mutex is held (the mutex operations
themselves left out), given whether it is held at the start. -/
def heldEvents : Bool → List AcqEvent → List AcqEvent
  | _, [] => []
  | _, AcqEvent.Lock :: es => heldEvents true es
  | _, AcqEvent.Unlock :: es => heldEvents false es
  | held, e :: es => if held then e :: heldEvents held es else heldEvents held es

/-- The actions of a trace that are executed while the mutex is released. -/
def freeEvents : Bool → List AcqEvent → List AcqEvent
  | _, [] => []
  | _, AcqEvent.Lock :: es => freeEvents true es
  | _, AcqEvent.Unlock :: es => freeEvents false es
  | held, e :: es => if held then freeEvents held es else e :: freeEvents held es

/-- Whether the mutex operations of a trace alternate: `Lock` only when released, `Unlock` only
when held. -/
def lockBalanced : Bool → List AcqEvent → Bool
  | _, [] => true
  | held, AcqEvent.Lock :: es => !held && lockBalanced true es
  | held, AcqEvent.Unlock :: es => held && lockBalanced false es
  | held, _ :: es => lockBalanced held es

/-- Whether the mutex is held after a trace of the acquisition thread. -/
def acqLockHeldAfter : Bool → List AcqEvent → Bool
  | held, [] => held
  | _, AcqEvent.Lock :: es => acqLockHeldAfter true es
  | _, AcqEvent.Unlock :: es => acqLockHeldAfter false es
  | held, _ :: es => acqLockHeldAfter held es

/-- Whether an action assigns a shared field. -/
def AcqEvent.isWrite : AcqEvent → Bool
  | AcqEvent.Write _ _ => true
  | _ => false

/-- Whether an action is the delay. -/
def AcqEvent.isDelay : AcqEvent → Bool
  | AcqEvent.Delay _ => true
  | _ => false

/-! ## `rtkfdk`: the batch application -/

/-- The three FDK filters of `rtkfdk`. -/
inductive Backend where
  | cpu
  | cuda
  | opencl
deriving DecidableEq, Repr

/-- The command-line values and build options that `main` of `rtkfdk.cxx` branches on. -/
structure RtkfdkArgs where
  hardware_arg : String
  lowmem_flag : Bool
  signal_given : Bool
  dvf_given : Bool
  CUDA_FOUND : Bool
  OPENCL_FOUND : Bool
deriving DecidableEq, Repr

/-- Observable actions of `main` of `rtkfdk.cxx` (printing left out): the expansion of the file
names, `reader->GenerateOutputInformation()`, `reader->Update()`, the reading of the geometry
file, `SET_FELDKAMP_OPTIONS` on a filter, the motion-compensation settings,
`streamerBP->SetInput(pfeldkamp)` and `writer->Update()`, which runs the reconstruction and
writes the output. -/
inductive FdkEvent where
  | GetFileNames
  | ReadProjectionInformation
  | ReadProjections
  | ReadGeometry
  | SetFeldkampOptions (backend : Backend)
  | SetMotionCompensation
  | StreamerSetInput (pfeldkamp : Option Backend)
  | WriterUpdate
deriving DecidableEq, Repr

/-- What `main` of `rtkfdk.cxx` did: its actions, the pointer `pfeldkamp` (`none` for `NULL`,
otherwise the filter whose output it is) and the value returned. -/
structure RtkfdkResult where
  events : List FdkEvent
  pfeldkamp : Option Backend
  status : ExitCode
deriving DecidableEq, Repr

/-- Lines 55 to 95 of `rtkfdk.cxx`: everything `main` does before the filters are created. -/
def rtkfdkReadInputs (args : RtkfdkArgs) : List FdkEvent :=
  [FdkEvent.GetFileNames, FdkEvent.ReadProjectionInformation]
    ++ (if !args.lowmem_flag then [FdkEvent.ReadProjections] else [])
    ++ [FdkEvent.ReadGeometry]

/-- Lines 190 to 226 of `rtkfdk.cxx`: streaming, writing and the return. -/
def rtkfdkWrite (events : List FdkEvent) (pfeldkamp : Option Backend) : RtkfdkResult :=
  { events := events ++ [FdkEvent.StreamerSetInput pfeldkamp, FdkEvent.WriterUpdate]
    pfeldkamp := pfeldkamp
    status := ExitCode.EXIT_SUCCESS }

/-- The function `main` of `rtkfdk.cxx`. -/
def rtkfdkMain (args : RtkfdkArgs) : RtkfdkResult :=
  let inputs := rtkfdkReadInputs args
  if args.hardware_arg == "cpu" then
    rtkfdkWrite
      (inputs ++ [FdkEvent.SetFeldkampOptions Backend.cpu]
        ++ (if args.signal_given && args.dvf_given then [FdkEvent.SetMotionCompensation] else []))
      (some Backend.cpu)
  else if args.hardware_arg == "cuda" then
    if args.CUDA_FOUND then
      rtkfdkWrite (inputs ++ [FdkEvent.SetFeldkampOptions Backend.cuda]) (some Backend.cuda)
    else
      { events := inputs, pfeldkamp := none, status := ExitCode.EXIT_FAILURE }
  else if args.hardware_arg == "opencl" then
    if args.OPENCL_FOUND then
      rtkfdkWrite (inputs ++ [FdkEvent.SetFeldkampOptions Backend.opencl]) (some Backend.opencl)
    else
      { events := inputs, pfeldkamp := none, status := ExitCode.EXIT_FAILURE }
  else
    rtkfdkWrite inputs none

/-! ## IEEE 754 binary arithmetic -/

/-- The integer nearest to a rational, the even one of the two when the rational lies half-way
between two integers. -/
def roundHalfEven (m : ℚ) : ℤ :=
  if m - ⌊m⌋ < 1 / 2 then ⌊m⌋
  else if 1 / 2 < m - ⌊m⌋ then ⌊m⌋ + 1
  else if ⌊m⌋ % 2 = 0 then ⌊m⌋
  else ⌊m⌋ + 1

/-- Rounding to nearest, ties to even, in a binary format with `precision` significand bits and
least normal exponent `emin`, the exponent being unbounded above: with `2^k ≤ |x| < 2^(k+1)`, the
result is the nearest multiple of the unit in the last place `2^(max k emin - (precision - 1))`
(below `2^emin` the numbers are subnormal and the unit does not shrink any more). -/
def roundNearestEven (precision : ℕ) (emin : ℤ) (x : ℚ) : ℚ :=
  if x = 0 then 0
  else
    (if x < 0 then -1 else 1)
      * roundHalfEven (|x| / 2 ^ (max (Int.log 2 |x|) emin - ((precision : ℤ) - 1)))
      * 2 ^ (max (Int.log 2 |x|) emin - ((precision : ℤ) - 1))

/-- A binary floating-point format: the number of significand bits and the range of the
exponent of the normal numbers. -/
structure BinaryFormat where
  precision : ℕ
  emin : ℤ
  emax : ℤ
deriving DecidableEq, Repr

/-- The format of `float`. -/
def binary32 : BinaryFormat := { precision := 24, emin := -126, emax := 127 }

/-- The format of `double`. -/
def binary64 : BinaryFormat := { precision := 53, emin := -1022, emax := 1023 }

/-- A `float` or `double` value: a finite number (the two zeros are one number: no operation
that the programs perform tells them apart), an infinity, or not a number. A `float`
converts to `double` without change. -/
inductive FloatingPoint where
  | finite (value : ℚ)
  | infinity (negative : Bool)
  | nan
deriving DecidableEq, Repr

/-- The value a format gives to an exact result: the result rounded to nearest, ties to even, or
an infinity when the rounded result lies beyond the largest finite number of the format. -/
def BinaryFormat.round (f : BinaryFormat) (x : ℚ) : FloatingPoint :=
  if 2 ^ (f.emax + 1) ≤ |roundNearestEven f.precision f.emin x| then
    FloatingPoint.infinity (decide (x < 0))
  else
    FloatingPoint.finite (roundNearestEven f.precision f.emin x)

/-- A literal of type `double` in the source: the double nearest to the decimal number. -/
def doubleLiteral (x : ℚ) : ℚ :=
  roundNearestEven binary64.precision binary64.emin x

/-- The functions `std::fabs` and `vcl_abs`. -/
def FloatingPoint.abs : FloatingPoint → FloatingPoint
  | FloatingPoint.finite a => FloatingPoint.finite |a|
  | FloatingPoint.infinity _ => FloatingPoint.infinity false
  | FloatingPoint.nan => FloatingPoint.nan

/-- The sum `x + y` computed in format `f`. -/
def FloatingPoint.add (f : BinaryFormat) : FloatingPoint → FloatingPoint → FloatingPoint
  | FloatingPoint.finite a, FloatingPoint.finite b => f.round (a + b)
  | FloatingPoint.finite _, FloatingPoint.infinity t => FloatingPoint.infinity t
  | FloatingPoint.infinity s, FloatingPoint.finite _ => FloatingPoint.infinity s
  | FloatingPoint.infinity s, FloatingPoint.infinity t =>
    if s = t then FloatingPoint.infinity s else FloatingPoint.nan
  | FloatingPoint.nan, _ => FloatingPoint.nan
  | _, FloatingPoint.nan => FloatingPoint.nan

/-- The difference `x - y` computed in format `f`. -/
def FloatingPoint.sub (f : BinaryFormat) : FloatingPoint → FloatingPoint → FloatingPoint
  | FloatingPoint.finite a, FloatingPoint.finite b => f.round (a - b)
  | FloatingPoint.finite _, FloatingPoint.infinity t => FloatingPoint.infinity (!t)
  | FloatingPoint.infinity s, FloatingPoint.finite _ => FloatingPoint.infinity s
  | FloatingPoint.infinity s, FloatingPoint.infinity t =>
    if s = t then FloatingPoint.nan else FloatingPoint.infinity s
  | FloatingPoint.nan, _ => FloatingPoint.nan
  | _, FloatingPoint.nan => FloatingPoint.nan

/-- The product `x * y` computed in format `f`. -/
def FloatingPoint.mul (f : BinaryFormat) : FloatingPoint → FloatingPoint → FloatingPoint
  | FloatingPoint.finite a, FloatingPoint.finite b => f.round (a * b)
  | FloatingPoint.finite a, FloatingPoint.infinity t =>
    if a = 0 then FloatingPoint.nan else FloatingPoint.infinity (xor (decide (a < 0)) t)
  | FloatingPoint.infinity s, FloatingPoint.finite b =>
    if b = 0 then FloatingPoint.nan else FloatingPoint.infinity (xor s (decide (b < 0)))
  | FloatingPoint.infinity s, FloatingPoint.infinity t => FloatingPoint.infinity (xor s t)
  | FloatingPoint.nan, _ => FloatingPoint.nan
  | _, FloatingPoint.nan => FloatingPoint.nan

/-- The quotient `x / n` computed in `double`, for `n` an `unsigned int` (which converts to
`double` without change): `0./0` is not a number. -/
def FloatingPoint.divideByUnsigned (x : FloatingPoint) (n : Nat) : FloatingPoint :=
  match x with
  | FloatingPoint.finite a =>
    if n = 0 then
      if a = 0 then FloatingPoint.nan else FloatingPoint.infinity (decide (a < 0))
    else binary64.round (a / n)
  | FloatingPoint.infinity s => FloatingPoint.infinity s
  | FloatingPoint.nan => FloatingPoint.nan

/-- The call `vcl_pow(x, 2.)` on a `double`: the square, correctly rounded. The argument is a
converted `float` wherever the programs call it, and the exact square of a finite `float` is a
`double`, so that no rounding takes place there. -/
def FloatingPoint.square : FloatingPoint → FloatingPoint
  | FloatingPoint.finite a => binary64.round (a ^ 2)
  | FloatingPoint.infinity _ => FloatingPoint.infinity false
  | FloatingPoint.nan => FloatingPoint.nan

/-- The library function `log10` on a `double`, from its values `log10` on the positive finite
numbers, which are a parameter. -/
def FloatingPoint.log10 (log10 : ℚ → ℚ) : FloatingPoint → FloatingPoint
  | FloatingPoint.finite a =>
    if a < 0 then FloatingPoint.nan
    else if a = 0 then FloatingPoint.infinity true
    else binary64.round (log10 a)
  | FloatingPoint.infinity s => if s then FloatingPoint.nan else FloatingPoint.infinity false
  | FloatingPoint.nan => FloatingPoint.nan

/-- The comparison `x > threshold` with a finite threshold: false when `x` is not a number. -/
def FloatingPoint.greaterThan (x : FloatingPoint) (threshold : ℚ) : Bool :=
  match x with
  | FloatingPoint.finite a => decide (threshold < a)
  | FloatingPoint.infinity s => !s
  | FloatingPoint.nan => false

/-- The comparison `x < threshold` with a finite threshold: false when `x` is not a number. -/
def FloatingPoint.lessThan (x : FloatingPoint) (threshold : ℚ) : Bool :=
  match x with
  | FloatingPoint.finite a => decide (a < threshold)
  | FloatingPoint.infinity s => s
  | FloatingPoint.nan => false

/-! ## `rtkelektatest`, `rtkvariantest`: comparison of geometries -/

/-- The tolerance `e` of `CheckGeometries`: the value of the literal `1e-10`, which is the double
nearest to `10^-10`. -/
def CheckGeometries.e : ℚ := 7737125245533627 / 2 ^ 86

/-- The test `e < std::fabs(x - y)` of `CheckGeometries` on two doubles: the difference is
computed in `double`. -/
def CheckGeometries.exceeds (x y : ℚ) : Bool :=
  (FloatingPoint.abs
    (FloatingPoint.sub binary64 (FloatingPoint.finite x) (FloatingPoint.finite y))).greaterThan
    CheckGeometries.e

/-- The condition of the `if` in the loop of `CheckGeometries`, on the records of one projection
index. -/
def CheckGeometries.unvalid (r1 r2 : ProjectionRecord) : Bool :=
  CheckGeometries.exceeds r1.gantryAngle r2.gantryAngle
    || CheckGeometries.exceeds r1.outOfPlaneAngle r2.outOfPlaneAngle
    || CheckGeometries.exceeds r1.inPlaneAngle r2.inPlaneAngle
    || CheckGeometries.exceeds r1.sid r2.sid
    || CheckGeometries.exceeds r1.sourceOffsetX r2.sourceOffsetX
    || CheckGeometries.exceeds r1.sourceOffsetY r2.sourceOffsetY
    || CheckGeometries.exceeds r1.sdd r2.sdd
    || CheckGeometries.exceeds r1.projOffsetX r2.projOffsetX
    || CheckGeometries.exceeds r1.projOffsetY r2.projOffsetY

/-- The loop of `CheckGeometries` over the projection indices, on what is left of the two
geometries. -/
def CheckGeometries.loop : Geometry → Geometry → Option ExitCode
  | r1 :: g1, r2 :: g2 =>
    if CheckGeometries.unvalid r1 r2 then some ExitCode.EXIT_FAILURE
    else CheckGeometries.loop g1 g2
  | _, _ => none

/-- The function `CheckGeometries` of `rtkelektatest.cxx` and `rtkvariantest.cxx` (the two copies
are identical): `some EXIT_FAILURE` when it exits, `none` when it returns. -/
def CheckGeometries (g1 g2 : Geometry) : Option ExitCode :=
  if g2.length != g1.length then some ExitCode.EXIT_FAILURE
  else CheckGeometries.loop g1 g2

/-! ## `rtkrampfiltertest`: comparison of images -/

/-- The running values `TestError`, `EnerError` (both `double`) and `npix` of `CheckImageQuality`
in `rtkrampfiltertest.cxx`. -/
structure FloatingSums where
  TestError : FloatingPoint
  EnerError : FloatingPoint
  npix : Nat
deriving DecidableEq, Repr

/-- The body of the loop of `CheckImageQuality` in `rtkrampfiltertest.cxx`, for one pixel: the
pair is `(testVal, refVal)`, two finite values of the pixel type `float`. The difference
`refVal - testVal` is computed in `float`; its absolute value and the square of its conversion to
`double` are added to the sums in `double`. -/
def rtkrampfiltertest.accumulate (refLowerThreshold refUpperThreshold : ℚ) (sums : FloatingSums)
    (pixel : ℚ × ℚ) : FloatingSums :=
  if pixel.1 ≠ pixel.2 ∧ (pixel.2 ≥ refLowerThreshold ∧ pixel.2 ≤ refUpperThreshold) then
    { TestError :=
        FloatingPoint.add binary64 sums.TestError
          (FloatingPoint.abs
            (FloatingPoint.sub binary32 (FloatingPoint.finite pixel.2)
              (FloatingPoint.finite pixel.1)))
      EnerError :=
        FloatingPoint.add binary64 sums.EnerError
          (FloatingPoint.square
            (FloatingPoint.sub binary32 (FloatingPoint.finite pixel.2)
              (FloatingPoint.finite pixel.1)))
      npix := sums.npix + 1 }
  else
    sums

/-- The loop of `CheckImageQuality` in `rtkrampfiltertest.cxx`: the two iterators walk regions of
equal size together, so the images are given as the list of the pairs `(testVal, refVal)`. -/
def rtkrampfiltertest.sums (refLowerThreshold refUpperThreshold : ℚ)
    (pixels : List (ℚ × ℚ)) : FloatingSums :=
  pixels.foldl (rtkrampfiltertest.accumulate refLowerThreshold refUpperThreshold)
    { TestError := FloatingPoint.finite 0, EnerError := FloatingPoint.finite 0, npix := 0 }

/-- The value `ErrorPerPixel` of `CheckImageQuality` in `rtkrampfiltertest.cxx`; the counter
`npix` is an `unsigned int` of 32 bits. -/
def rtkrampfiltertest.ErrorPerPixel (refLowerThreshold refUpperThreshold : ℚ)
    (pixels : List (ℚ × ℚ)) : FloatingPoint :=
  FloatingPoint.divideByUnsigned
    (rtkrampfiltertest.sums refLowerThreshold refUpperThreshold pixels).TestError
    ((rtkrampfiltertest.sums refLowerThreshold refUpperThreshold pixels).npix % 2 ^ 32)

/-- The value `MSE` of `CheckImageQuality` in `rtkrampfiltertest.cxx`. -/
def rtkrampfiltertest.MSE (refLowerThreshold refUpperThreshold : ℚ)
    (pixels : List (ℚ × ℚ)) : FloatingPoint :=
  FloatingPoint.divideByUnsigned
    (rtkrampfiltertest.sums refLowerThreshold refUpperThreshold pixels).EnerError
    ((rtkrampfiltertest.sums refLowerThreshold refUpperThreshold pixels).npix % 2 ^ 32)

/-- The value `PSNR = 20*log10(2.0) - 10*log10(MSE)` of `CheckImageQuality` in
`rtkrampfiltertest.cxx`, computed in `double`; the values of the library function `log10` are a
parameter. -/
def rtkrampfiltertest.PSNR (log10 : ℚ → ℚ) (refLowerThreshold refUpperThreshold : ℚ)
    (pixels : List (ℚ × ℚ)) : FloatingPoint :=
  FloatingPoint.sub binary64
    (FloatingPoint.mul binary64 (FloatingPoint.finite 20)
      (FloatingPoint.log10 log10 (FloatingPoint.finite 2)))
    (FloatingPoint.mul binary64 (FloatingPoint.finite 10)
      (FloatingPoint.log10 log10
        (rtkrampfiltertest.MSE refLowerThreshold refUpperThreshold pixels)))

/-- The function `CheckImageQuality` of `rtkrampfiltertest.cxx`, as compiled without
`FAST_TESTS_NO_CHECKS`: `some EXIT_FAILURE` when it exits, `none` when it returns. -/
def rtkrampfiltertest.CheckImageQuality (log10 : ℚ → ℚ) (pixels : List (ℚ × ℚ))
    (refLowerThreshold refUpperThreshold snrThreshold errorPerPixelThreshold : ℚ) :
    Option ExitCode :=
  if (rtkrampfiltertest.ErrorPerPixel refLowerThreshold refUpperThreshold
      pixels).greaterThan errorPerPixelThreshold then
    some ExitCode.EXIT_FAILURE
  else if (rtkrampfiltertest.PSNR log10 refLowerThreshold refUpperThreshold
      pixels).lessThan snrThreshold then
    some ExitCode.EXIT_FAILURE
  else
    none

/-- The three checks of `main` in `rtkrampfiltertest.cxx` (lines 227, 233 and 248), on the pixel
pairs `(testVal, refVal)` of the three reconstructions against the reference image: the Hann
window, the HannY window and the truncated projections. The reconstructions themselves are the
parameters; the first check that fails ends the process. -/
def rtkrampfiltertest.main (log10 : ℚ → ℚ) (hann hannY truncation : List (ℚ × ℚ)) : ExitCode :=
  match rtkrampfiltertest.CheckImageQuality log10 hann
      (doubleLiteral 1.05) (doubleLiteral 1.06) 40 (doubleLiteral 0.13) with
  | some status => status
  | none =>
    match rtkrampfiltertest.CheckImageQuality log10 hannY
        (doubleLiteral 1.05) (doubleLiteral 1.06) 40 (doubleLiteral 0.13) with
    | some status => status
    | none =>
      match rtkrampfiltertest.CheckImageQuality log10 truncation
          (doubleLiteral 1.015) (doubleLiteral 1.025) 26 (doubleLiteral 0.05) with
      | some status => status
      | none => ExitCode.EXIT_SUCCESS

/-! ## Sums and means in exact arithmetic -/

/-- The sum of the absolute differences and the sum of the squared differences over some pixels,
in exact arithmetic, and the number of these pixels. -/
structure QualitySums where
  TestError : ℚ
  EnerError : ℚ
  npix : Nat
deriving DecidableEq, Repr

/-- The division of a sum by `npix` in exact arithmetic. The sum is `0` whenever `npix` is `0`,
and `0./0` is not a number: `none`. -/
def divideByNpix (sum : ℚ) (npix : Nat) : Option ℚ :=
  if npix = 0 then none else some (sum / npix)

/-- The comparison `x > threshold` in exact arithmetic: false when `x` is not a number. -/
def greaterThan (x : Option ℚ) (threshold : ℚ) : Bool :=
  match x with
  | some v => decide (v > threshold)
  | none => false

/-- The comparison `x < threshold` in exact arithmetic: false when `x` is not a number. -/
def lessThan (x : Option ℚ) (threshold : ℚ) : Bool :=
  match x with
  | some v => decide (v < threshold)
  | none => false

/-- The sum of the absolute differences over the pixels whose reference value lies in
`[refLowerThreshold, refUpperThreshold]`, the sum of the squared differences over them, and their
number. -/
def inRangeSums (refLowerThreshold refUpperThreshold : ℚ) (pixels : List (ℚ × ℚ)) :
    QualitySums :=
  pixels.foldl
    (fun sums pixel =>
      if pixel.2 ≥ refLowerThreshold ∧ pixel.2 ≤ refUpperThreshold then
        { TestError := sums.TestError + |pixel.2 - pixel.1|
          EnerError := sums.EnerError + (pixel.2 - pixel.1) ^ 2
          npix := sums.npix + 1 }
      else sums)
    { TestError := 0, EnerError := 0, npix := 0 }

/-- The error per pixel as the specification words it: the mean absolute difference between
reconstruction and reference over all pixels whose reference value lies in
`[refLowerThreshold, refUpperThreshold]`. -/
def meanAbsoluteDifferenceInRange (refLowerThreshold refUpperThreshold : ℚ)
    (pixels : List (ℚ × ℚ)) : Option ℚ :=
  divideByNpix (inRangeSums refLowerThreshold refUpperThreshold pixels).TestError
    (inRangeSums refLowerThreshold refUpperThreshold pixels).npix

/-- The mean squared error as the specification words it: the mean squared difference over all
pixels whose reference value lies in `[refLowerThreshold, refUpperThreshold]`. -/
def meanSquaredDifferenceInRange (refLowerThreshold refUpperThreshold : ℚ)
    (pixels : List (ℚ × ℚ)) : Option ℚ :=
  divideByNpix (inRangeSums refLowerThreshold refUpperThreshold pixels).EnerError
    (inRangeSums refLowerThreshold refUpperThreshold pixels).npix

/-! ## More example data -/

/-- An acquisition of five projections whose detector offset jumps at the last one. -/
def exampleDriftAcquisition : Acquisition :=
  { geometry := [exampleRecord 1, exampleRecord 2, exampleRecord 3, exampleRecord 4,
      exampleRecord (-7)]
    names := ["proj.his"] }

/-- The cuda backend requested from a binary built without it. -/
def exampleCudaConfig : Config :=
  { hardware_arg := "cuda", CUDA_FOUND := false, OPENCL_FOUND := false }

/-- The command line `--hardware cuda` of `rtkfdk`, without `--lowmem`, on a binary built without
cuda. -/
def exampleRtkfdkArgs : RtkfdkArgs :=
  { hardware_arg := "cuda", lowmem_flag := false, signal_given := false, dvf_given := false,
    CUDA_FOUND := false, OPENCL_FOUND := false }

/-- Two pixels `(testVal, refVal)` with reference value `1`: the first is reconstructed exactly,
the second is off by `1`. -/
def examplePixels : List (ℚ × ℚ) := [(1, 1), (2, 1)]

/-- One pixel `(testVal, refVal)` of the floats `0.1f` and `0.3f`: their exact difference
`26843547 / 2^27` lies half-way between two floats. -/
def exampleRoundedPixels : List (ℚ × ℚ) := [(13421773 / 2 ^ 27, 5033165 / 2 ^ 24)]

/-- Two geometries of one projection whose detector offsets X are the doubles `1e-10` and
`-2^-140`. -/
def exampleCloseGeometries : Geometry × Geometry :=
  ([exampleRecord (7737125245533627 / 2 ^ 86)], [exampleRecord (-(1 / 2 ^ 140))])

/-! ## More auxiliary definitions for the proofs -/

/-- The offsets invariant of a program state: once something was published, the shared offsets
are those of the whole acquisition, and so are the offsets of every update so far. -/
def OffsetsInv {V : Type} (acq : Acquisition) (s : InlineSystem V) : Prop :=
  (s.threadInfo.nproj = 0
      ∨ (s.threadInfo.minimumOffsetX, s.threadInfo.maximumOffsetX)
          = computeOffsetsFromGeometry acq.geometry)
    ∧ ∀ p ∈ updateOffsets s.trace, p = computeOffsetsFromGeometry acq.geometry

/-- The lock invariant of a program state: every update so far ran under the mutex, and the
reconstruction thread does not hold the mutex between two iterations. -/
def LockInv {V : Type} (s : InlineSystem V) : Prop :=
  updatesUnderLock false s.trace = true
    ∧ (s.exited = none → lockHeldAfter false s.trace = false)

/-- The count invariant of a program state: the published count is the loop counter of the
acquisition thread, which never exceeds the number of projections. -/
def CountInv {V : Type} (acq : Acquisition) (s : InlineSystem V) : Prop :=
  s.threadInfo.nproj = s.i ∧ s.i ≤ acq.geometry.length

/-- The acceptance condition of `CheckGeometries` on the records of one projection index, in
exact terms: each of the nine fields differs by less than the tolerance `e` plus half a unit in
its last place, `2^-87`. -/
def fieldsWithinTolerance (r1 r2 : ProjectionRecord) : Prop :=
  |r1.gantryAngle - r2.gantryAngle| < CheckGeometries.e + 1 / 2 ^ 87
    ∧ |r1.outOfPlaneAngle - r2.outOfPlaneAngle| < CheckGeometries.e + 1 / 2 ^ 87
    ∧ |r1.inPlaneAngle - r2.inPlaneAngle| < CheckGeometries.e + 1 / 2 ^ 87
    ∧ |r1.sid - r2.sid| < CheckGeometries.e + 1 / 2 ^ 87
    ∧ |r1.sourceOffsetX - r2.sourceOffsetX| < CheckGeometries.e + 1 / 2 ^ 87
    ∧ |r1.sourceOffsetY - r2.sourceOffsetY| < CheckGeometries.e + 1 / 2 ^ 87
    ∧ |r1.sdd - r2.sdd| < CheckGeometries.e + 1 / 2 ^ 87
    ∧ |r1.projOffsetX - r2.projOffsetX| < CheckGeometries.e + 1 / 2 ^ 87
    ∧ |r1.projOffsetY - r2.projOffsetY| < CheckGeometries.e + 1 / 2 ^ 87

/-! ## Schedules and lock counts -/

/-- Whether the reconstruction thread takes at least one step between any two consecutive
publications of a schedule; `published` tells whether the action just before was a
publication. -/
def consumerKeepsUp : Bool → List Action → Bool
  | _, [] => true
  | published, Action.publish :: schedule => !published && consumerKeepsUp true schedule
  | _, Action.consume :: schedule => consumerKeepsUp false schedule

/-- Whether an action of the reconstruction thread is `Lock`. -/
def Event.isLock {V : Type} : Event V → Bool
  | Event.Lock => true
  | _ => false

/-- Whether an action of the reconstruction thread is `Unlock`. -/
def Event.isUnlock {V : Type} : Event V → Bool
  | Event.Unlock => true
  | _ => false

/-! ## The other tests: comparison of images -/

/-- The running values `TestError` and `EnerError` of the `CheckImageQuality` functions that do
not count pixels. -/
structure ErrorSums where
  TestError : ℚ
  EnerError : ℚ
deriving DecidableEq, Repr

/-- The loop of `CheckImageQuality` in `rtkelektatest.cxx`, `rtkvariantest.cxx`,
`rtkdrawgeometricphantomtest.cxx` and `rtkforwardprojectiontest.cxx` (the four loops are the
same): a pixel `(TestVal, RefVal)` is accumulated only if `TestVal != RefVal`. -/
def rtkelektatest.sums (pixels : List (ℚ × ℚ)) : ErrorSums :=
  pixels.foldl
    (fun sums pixel =>
      if pixel.1 ≠ pixel.2 then
        { TestError := sums.TestError + |pixel.2 - pixel.1|
          EnerError := sums.EnerError + (pixel.2 - pixel.1) ^ 2 }
      else sums)
    { TestError := 0, EnerError := 0 }

/-- The loop of `CheckImageQuality` in `rtkfovtest.cxx` and `rtkamsterdamshroudtest.cxx` (the two
loops are the same): every pixel `(TestVal, RefVal)` is accumulated. -/
def rtkfovtest.sums (pixels : List (ℚ × ℚ)) : ErrorSums :=
  pixels.foldl
    (fun sums pixel =>
      { TestError := sums.TestError + |pixel.2 - pixel.1|
        EnerError := sums.EnerError + (pixel.2 - pixel.1) ^ 2 })
    { TestError := 0, EnerError := 0 }

/-- The value `ErrorPerPixel` of `CheckImageQuality` in `rtkforwardprojectiontest.cxx`: the total
error over the number of pixels of the region. -/
def rtkforwardprojectiontest.ErrorPerPixel (pixels : List (ℚ × ℚ)) : Option ℚ :=
  divideByNpix (rtkelektatest.sums pixels).TestError pixels.length

/-- The value `MSE` of `CheckImageQuality` in `rtkforwardprojectiontest.cxx`. -/
def rtkforwardprojectiontest.MSE (pixels : List (ℚ × ℚ)) : Option ℚ :=
  divideByNpix (rtkelektatest.sums pixels).EnerError pixels.length

/-- The value `PSNR` of `CheckImageQuality` in `rtkforwardprojectiontest.cxx`; the library
function `log10` is a parameter. -/
def rtkforwardprojectiontest.PSNR (log10 : ℚ → ℚ) (pixels : List (ℚ × ℚ)) : Option ℚ :=
  (rtkforwardprojectiontest.MSE pixels).map (fun mse => 20 * log10 255 - 10 * log10 mse)

/-- The two messages that a `CheckImageQuality` function prints on `std::cerr`. -/
inductive QualityMessage where
  | errorPerPixelNotValid
  | psnrNotValid
deriving DecidableEq, Repr

/-- What a call of `CheckImageQuality` did: the messages printed on `std::cerr`, and the exit
status when it terminated the process (`none` when it returned). -/
structure QualityResult where
  messages : List QualityMessage
  exited : Option ExitCode
deriving DecidableEq, Repr

/-- The function `CheckImageQuality` of `rtkforwardprojectiontest.cxx`, as compiled without
`FAST_TESTS_NO_CHECKS`. In both `if` blocks the statement `exit( EXIT_FAILURE);` is commented
out (lines 66 and 72). -/
def rtkforwardprojectiontest.CheckImageQuality (log10 : ℚ → ℚ) (pixels : List (ℚ × ℚ)) :
    QualityResult :=
  { messages :=
      (if greaterThan (rtkforwardprojectiontest.ErrorPerPixel pixels) 1.28 then
          [QualityMessage.errorPerPixelNotValid] else [])
        ++ (if lessThan (rtkforwardprojectiontest.PSNR log10 pixels) 44 then
          [QualityMessage.psnrNotValid] else [])
    exited := none }

/-! ## Auxiliary definitions for the proofs on schedules and file names -/

/-- State of the program after `k` rounds of the lockstep schedule, before the last one: the
indices reconstructed so far are `1, ..., k - 2`. -/
def IndexInv {V : Type} (k : Nat) (s : InlineSystem V) : Prop :=
  s.i = k ∧ s.consumer.geometry.length = k ∧ s.threadInfo.nproj = k ∧ s.exited = none
    ∧ s.fault = false ∧ updateIndices s.trace = List.range' 1 (k - 2)

/-- The invariant of schedules in which the reconstruction thread keeps up: no exit with
failure; the published count is the local count, or one more right after a publication. -/
def KeepsUpInv {V : Type} (published : Bool) (s : InlineSystem V) : Prop :=
  s.exited ≠ some ExitCode.EXIT_FAILURE
    ∧ (s.threadInfo.nproj = s.consumer.geometry.length
      ∨ (published = true ∧ s.exited = none ∧ s.fault = false
        ∧ s.threadInfo.nproj = s.consumer.geometry.length + 1))

/-- The invariant of the file-name list of the reconstruction thread. -/
def FileNamesInv {V : Type} (s : InlineSystem V) : Prop :=
  "" ∉ s.consumer.fileNames
    ∧ List.Chain' (fun a b => a ≠ b) s.consumer.fileNames
    ∧ s.consumer.fileNames.length ≤ s.consumer.geometry.length
    ∧ (s.exited = none →
        s.consumer.geometry.length ≤ s.threadInfo.nproj
          ∧ (s.consumer.geometry.length = s.threadInfo.nproj →
              s.threadInfo.fileName = ""
                ∨ s.consumer.fileNames.getLast? = some s.threadInfo.fileName))

/-! ## Example data for schedules and images -/

/-- An acquisition of four projections from three files: the last file serves two projections. -/
def exampleFilesAcquisition : Acquisition :=
  { geometry := [exampleRecord 0, exampleRecord 0, exampleRecord 0, exampleRecord 0]
    names := ["a.his", "b.his", "c.his"] }

/-- A shared record as `main` leaves it: nothing published, the file name empty. -/
def exampleInitialShared : ThreadInfoStruct :=
  { exampleShared 0 false with fileName := "" }

/-- A schedule in which the reconstruction thread keeps up, with idle polls. -/
def exampleSchedule : List Action :=
  [Action.consume, Action.publish, Action.consume, Action.consume, Action.publish,
    Action.consume, Action.publish, Action.consume, Action.publish, Action.consume]

/-- Two pixels `(TestVal, RefVal)` that are off by `2` and by `3`. -/
def exampleFarPixels : List (ℚ × ℚ) := [(2, 0), (0, 3)]

/-! ## Properties of `computeOffsetsFromGeometry` -/

theorem computeOffsetsLoop_fst_le (xs : List ℚ) (mm : ℚ × ℚ) :
    (computeOffsetsLoop xs mm).1 ≤ mm.1 ∧ ∀ x ∈ xs, (computeOffsetsLoop xs mm).1 ≤ x := by
  induction xs generalizing mm with
  | nil => simp [computeOffsetsLoop]
  | cons y ys ih =>
    obtain ⟨h1, h2⟩ := ih (vnl_math_min mm.1 y, vnl_math_max mm.2 y)
    have hmin : vnl_math_min mm.1 y ≤ mm.1 ∧ vnl_math_min mm.1 y ≤ y := by
      unfold vnl_math_min
      split_ifs with h
      · exact ⟨le_refl _, le_of_lt h⟩
      · exact ⟨not_lt.mp h, le_refl _⟩
    simp only [computeOffsetsLoop]
    refine ⟨le_trans h1 hmin.1, ?_⟩
    intro x hx
    rcases List.mem_cons.mp hx with rfl | hx
    · exact le_trans h1 hmin.2
    · exact h2 x hx

theorem computeOffsetsLoop_fst_mem (xs : List ℚ) (mm : ℚ × ℚ) :
    (computeOffsetsLoop xs mm).1 = mm.1 ∨ (computeOffsetsLoop xs mm).1 ∈ xs := by
  induction xs generalizing mm with
  | nil => simp [computeOffsetsLoop]
  | cons y ys ih =>
    simp only [computeOffsetsLoop]
    rcases ih (vnl_math_min mm.1 y, vnl_math_max mm.2 y) with h | h
    · rw [h]
      show vnl_math_min mm.1 y = mm.1 ∨ vnl_math_min mm.1 y ∈ y :: ys
      unfold vnl_math_min
      split_ifs with hlt
      · exact Or.inl rfl
      · exact Or.inr (List.mem_cons_self _ _)
    · exact Or.inr (List.mem_cons_of_mem _ h)

/-- Claim C9. For a geometry with at least one projection whose X offsets are finite doubles,
`computeOffsetsFromGeometry` stores in `*minOffset` a value that is below or equal to every
projection X offset and is one of them. -/
theorem computeOffsetsFromGeometry_minOffset (geometry : Geometry) (hne : geometry ≠ [])
    (hfinite : ∀ x ∈ GetProjectionOffsetsX geometry, x ≤ NumericTraits_double_max) :
    (∀ x ∈ GetProjectionOffsetsX geometry, (computeOffsetsFromGeometry geometry).1 ≤ x)
      ∧ (computeOffsetsFromGeometry geometry).1 ∈ GetProjectionOffsetsX geometry := by
  have hle := computeOffsetsLoop_fst_le (GetProjectionOffsetsX geometry)
    (NumericTraits_double_max, NumericTraits_double_min)
  refine ⟨hle.2, ?_⟩
  rcases computeOffsetsLoop_fst_mem (GetProjectionOffsetsX geometry)
    (NumericTraits_double_max, NumericTraits_double_min) with h | h
  · cases geometry with
    | nil => exact absurd rfl hne
    | cons r rs =>
      have hmem : r.projOffsetX ∈ GetProjectionOffsetsX (r :: rs) := by
        simp [GetProjectionOffsetsX]
      have h1 := hle.2 _ hmem
      have h2 := hfinite _ hmem
      have heq : (computeOffsetsFromGeometry (r :: rs)).1 = r.projOffsetX := by
        apply le_antisymm h1
        show r.projOffsetX ≤ (computeOffsetsLoop (GetProjectionOffsetsX (r :: rs))
          (NumericTraits_double_max, NumericTraits_double_min)).1
        rw [h]
        exact h2
      rw [heq]
      exact hmem
  · exact h

theorem computeOffsetsFromGeometry_minOffset_witness :
    (∀ x ∈ GetProjectionOffsetsX [exampleRecord 3, exampleRecord (-5), exampleRecord 0],
        (computeOffsetsFromGeometry [exampleRecord 3, exampleRecord (-5), exampleRecord 0]).1 ≤ x)
      ∧ (computeOffsetsFromGeometry [exampleRecord 3, exampleRecord (-5), exampleRecord 0]).1
          ∈ GetProjectionOffsetsX [exampleRecord 3, exampleRecord (-5), exampleRecord 0] :=
  computeOffsetsFromGeometry_minOffset [exampleRecord 3, exampleRecord (-5), exampleRecord 0]
    (by simp)
    (by
      intro x hx
      have h0 : (0 : ℚ) ≤ 2 ^ 971 := by positivity
      have h1 : (2 : ℚ) ^ 1024 = 2 ^ 971 * 2 ^ 53 := by rw [← pow_add]
      have h2 : (3 : ℚ) ≤ NumericTraits_double_max := by
        unfold NumericTraits_double_max
        rw [h1]
        have h3 : (1 : ℚ) ≤ 2 ^ 971 := one_le_pow₀ (by norm_num)
        nlinarith
      simp [GetProjectionOffsetsX, exampleRecord] at hx
      rcases hx with rfl | rfl | rfl <;> linarith)

/-- Claim C10 (evaluation of the code). With one projection whose X offset is `0`, and with two
projections whose X offsets are `-5` and `-2`, `computeOffsetsFromGeometry` stores in `*maxOffset`
the initial value `NumericTraits<double>::min()`, which is positive, larger than every offset and
equal to none of them. -/
theorem computeOffsetsFromGeometry_maxOffset_nonpositive :
    (computeOffsetsFromGeometry [exampleRecord 0]).2 = NumericTraits_double_min
      ∧ (computeOffsetsFromGeometry [exampleRecord 0]).2 ∉ GetProjectionOffsetsX [exampleRecord 0]
      ∧ (computeOffsetsFromGeometry [exampleRecord (-5), exampleRecord (-2)]).2
          = NumericTraits_double_min
      ∧ (computeOffsetsFromGeometry [exampleRecord (-5), exampleRecord (-2)]).2
          ∉ GetProjectionOffsetsX [exampleRecord (-5), exampleRecord (-2)]
      ∧ (0 : ℚ) < NumericTraits_double_min := by
  have hpos : (0 : ℚ) < NumericTraits_double_min := by
    unfold NumericTraits_double_min
    positivity
  have h0 : vnl_math_max NumericTraits_double_min 0 = NumericTraits_double_min := by
    unfold vnl_math_max
    rw [if_pos hpos]
  have h5 : vnl_math_max NumericTraits_double_min (-5) = NumericTraits_double_min := by
    unfold vnl_math_max
    rw [if_pos (by linarith)]
  have h2 : vnl_math_max NumericTraits_double_min (-2) = NumericTraits_double_min := by
    unfold vnl_math_max
    rw [if_pos (by linarith)]
  have e0 : (computeOffsetsFromGeometry [exampleRecord 0]).2 = NumericTraits_double_min := by
    simp only [computeOffsetsFromGeometry, GetProjectionOffsetsX, exampleRecord, List.map,
      computeOffsetsLoop, h0]
  have e5 : (computeOffsetsFromGeometry [exampleRecord (-5), exampleRecord (-2)]).2
      = NumericTraits_double_min := by
    simp only [computeOffsetsFromGeometry, GetProjectionOffsetsX, exampleRecord, List.map,
      computeOffsetsLoop, h5, h2]
  refine ⟨e0, ?_, e5, ?_, hpos⟩
  · rw [e0]
    simp only [GetProjectionOffsetsX, exampleRecord, List.map, List.mem_singleton]
    exact ne_of_gt hpos
  · rw [e5]
    simp only [GetProjectionOffsetsX, exampleRecord, List.map, List.mem_cons, List.mem_singleton,
      List.not_mem_nil, or_false, not_or]
    exact ⟨by linarith, by linarith⟩

/-! ## Normal forms of one loop iteration -/

section step
variable {V : Type}

theorem AddProjection_length (geometry : Geometry) (r : ProjectionRecord) :
    (AddProjection geometry r).length = geometry.length + 1 := by
  simp [AddProjection]

theorem iteration_idle (cfg : Config) (fdk : FDKRequest → V → V)
    (threadInfo : ThreadInfoStruct) (st : InlineState V)
    (h : threadInfo.nproj ≤ st.geometry.length) :
    InlineThreadCallbackIteration cfg fdk threadInfo st
      = ⟨st, [Event.Lock, Event.Unlock], none⟩ := by
  simp [InlineThreadCallbackIteration, not_lt.mpr h]

theorem iteration_abort (cfg : Config) (fdk : FDKRequest → V → V)
    (threadInfo : ThreadInfoStruct) (st : InlineState V)
    (h : st.geometry.length < threadInfo.nproj)
    (hp : threadInfo.nproj ≠ st.geometry.length + 1) :
    InlineThreadCallbackIteration cfg fdk threadInfo st
      = ⟨appended threadInfo st, [Event.Lock, Event.Exit ExitCode.EXIT_FAILURE],
          some ExitCode.EXIT_FAILURE⟩ := by
  have hp' : ¬ st.geometry.length + 1 = threadInfo.nproj := fun e => hp e.symm
  simp [InlineThreadCallbackIteration, h, AddProjection_length, hp', appended]

theorem iteration_wait (cfg : Config) (fdk : FDKRequest → V → V)
    (threadInfo : ThreadInfoStruct) (st : InlineState V)
    (hp : threadInfo.nproj = st.geometry.length + 1) (h3 : st.geometry.length + 1 < 3) :
    InlineThreadCallbackIteration cfg fdk threadInfo st
      = ⟨appended threadInfo st, [Event.Lock, Event.Unlock], none⟩ := by
  simp [InlineThreadCallbackIteration, AddProjection_length, hp, h3, appended]

theorem iteration_ordinary (cfg : Config) (fdk : FDKRequest → V → V)
    (threadInfo : ThreadInfoStruct) (st : InlineState V)
    (hp : threadInfo.nproj = st.geometry.length + 1) (h3 : 3 ≤ st.geometry.length + 1)
    (hs : threadInfo.stop = false) (hsel : backendSelected cfg = true) :
    InlineThreadCallbackIteration cfg fdk threadInfo st
      = ⟨{ appended threadInfo st with
            input0 := fdk (stepRequest threadInfo st (st.geometry.length - 1)) st.input0 },
          [Event.Lock,
            Event.Update (stepRequest threadInfo st (st.geometry.length - 1)) st.input0
              (fdk (stepRequest threadInfo st (st.geometry.length - 1)) st.input0),
            Event.Unlock],
          none⟩ := by
  have h3' : ¬ st.geometry.length + 1 < 3 := not_lt.mpr h3
  simp [InlineThreadCallbackIteration, AddProjection_length, hp, h3', hs, hsel, appended,
    FeldkampUpdateReseed, stepRequest]

theorem iteration_ordinary_unselected (cfg : Config) (fdk : FDKRequest → V → V)
    (threadInfo : ThreadInfoStruct) (st : InlineState V)
    (hp : threadInfo.nproj = st.geometry.length + 1) (h3 : 3 ≤ st.geometry.length + 1)
    (hs : threadInfo.stop = false) (hsel : backendSelected cfg = false) :
    InlineThreadCallbackIteration cfg fdk threadInfo st
      = ⟨appended threadInfo st, [Event.Lock, Event.Unlock], none⟩ := by
  have h3' : ¬ st.geometry.length + 1 < 3 := not_lt.mpr h3
  simp [InlineThreadCallbackIteration, AddProjection_length, hp, h3', hs, hsel, appended,
    FeldkampUpdateReseed]

theorem iteration_last (cfg : Config) (fdk : FDKRequest → V → V)
    (threadInfo : ThreadInfoStruct) (st : InlineState V)
    (hp : threadInfo.nproj = st.geometry.length + 1) (h3 : 3 ≤ st.geometry.length + 1)
    (hs : threadInfo.stop = true) (hsel : backendSelected cfg = true) :
    InlineThreadCallbackIteration cfg fdk threadInfo st
      = ⟨{ appended threadInfo st with
            input0 := fdk (stepRequest threadInfo st 0)
              (fdk (stepRequest threadInfo st (st.geometry.length - 1)) st.input0) },
          [Event.Lock,
            Event.Update (stepRequest threadInfo st (st.geometry.length - 1)) st.input0
              (fdk (stepRequest threadInfo st (st.geometry.length - 1)) st.input0),
            Event.Update (stepRequest threadInfo st 0)
              (fdk (stepRequest threadInfo st (st.geometry.length - 1)) st.input0)
              (fdk (stepRequest threadInfo st 0)
                (fdk (stepRequest threadInfo st (st.geometry.length - 1)) st.input0)),
            Event.Update (stepRequest threadInfo st st.geometry.length)
              (fdk (stepRequest threadInfo st 0)
                (fdk (stepRequest threadInfo st (st.geometry.length - 1)) st.input0))
              (fdk (stepRequest threadInfo st st.geometry.length)
                (fdk (stepRequest threadInfo st 0)
                  (fdk (stepRequest threadInfo st (st.geometry.length - 1)) st.input0))),
            Event.Write (some (fdk (stepRequest threadInfo st st.geometry.length)
                (fdk (stepRequest threadInfo st 0)
                  (fdk (stepRequest threadInfo st (st.geometry.length - 1)) st.input0)))),
            Event.Exit ExitCode.EXIT_SUCCESS],
          some ExitCode.EXIT_SUCCESS⟩ := by
  have h3' : ¬ st.geometry.length + 1 < 3 := not_lt.mpr h3
  simp [InlineThreadCallbackIteration, AddProjection_length, hp, h3', hs, hsel, appended,
    FeldkampUpdateReseed, FeldkampUpdateToWriter, stepRequest]

theorem iteration_last_unselected (cfg : Config) (fdk : FDKRequest → V → V)
    (threadInfo : ThreadInfoStruct) (st : InlineState V)
    (hp : threadInfo.nproj = st.geometry.length + 1) (h3 : 3 ≤ st.geometry.length + 1)
    (hs : threadInfo.stop = true) (hsel : backendSelected cfg = false) :
    InlineThreadCallbackIteration cfg fdk threadInfo st
      = ⟨appended threadInfo st,
          [Event.Lock, Event.Write none, Event.Exit ExitCode.EXIT_SUCCESS],
          some ExitCode.EXIT_SUCCESS⟩ := by
  have h3' : ¬ st.geometry.length + 1 < 3 := not_lt.mpr h3
  simp [InlineThreadCallbackIteration, AddProjection_length, hp, h3', hs, hsel, appended,
    FeldkampUpdateReseed, FeldkampUpdateToWriter]

end step

/-! ## Properties of one loop iteration -/

section claims_step
variable {V : Type}

/-- Claim C2. In an iteration where the published count exceeds the local geometry count, exactly
one record is appended; the process exits with `EXIT_FAILURE` if and only if the published count is
not the local count plus one; on that exit the iteration did nothing but take the lock: no
reconstruction update, no write, input 0 untouched. -/
theorem InlineThreadCallbackIteration_missed (cfg : Config) (fdk : FDKRequest → V → V)
    (threadInfo : ThreadInfoStruct) (st : InlineState V)
    (h : st.geometry.length < threadInfo.nproj) :
    (InlineThreadCallbackIteration cfg fdk threadInfo st).state.geometry
        = st.geometry ++ [sharedRecord threadInfo]
      ∧ ((InlineThreadCallbackIteration cfg fdk threadInfo st).exited
            = some ExitCode.EXIT_FAILURE ↔ threadInfo.nproj ≠ st.geometry.length + 1)
      ∧ (threadInfo.nproj ≠ st.geometry.length + 1 →
          (InlineThreadCallbackIteration cfg fdk threadInfo st).events
              = [Event.Lock, Event.Exit ExitCode.EXIT_FAILURE]
            ∧ updateIndices (InlineThreadCallbackIteration cfg fdk threadInfo st).events = []
            ∧ writtenVolumes (InlineThreadCallbackIteration cfg fdk threadInfo st).events = []
            ∧ (InlineThreadCallbackIteration cfg fdk threadInfo st).state.input0 = st.input0) := by
  by_cases hp : threadInfo.nproj = st.geometry.length + 1
  · by_cases h3 : st.geometry.length + 1 < 3
    · rw [iteration_wait cfg fdk threadInfo st hp h3]
      simp [appended, AddProjection, hp]
    · have h3' : 3 ≤ st.geometry.length + 1 := not_lt.mp h3
      cases hs : threadInfo.stop <;> cases hsel : backendSelected cfg
      · rw [iteration_ordinary_unselected cfg fdk threadInfo st hp h3' hs hsel]
        simp [appended, AddProjection, hp]
      · rw [iteration_ordinary cfg fdk threadInfo st hp h3' hs hsel]
        simp [appended, AddProjection, hp]
      · rw [iteration_last_unselected cfg fdk threadInfo st hp h3' hs hsel]
        simp [appended, AddProjection, hp]
      · rw [iteration_last cfg fdk threadInfo st hp h3' hs hsel]
        simp [appended, AddProjection, hp]
  · rw [iteration_abort cfg fdk threadInfo st h hp]
    simp [appended, AddProjection, hp, updateIndices, writtenVolumes]

theorem InlineThreadCallbackIteration_missed_witness :
    (exampleState 1 0).geometry.length < (exampleShared 3 false).nproj
      ∧ (InlineThreadCallbackIteration exampleConfig exampleFdk (exampleShared 3 false)
            (exampleState 1 0)).exited = some ExitCode.EXIT_FAILURE
      ∧ (InlineThreadCallbackIteration exampleConfig exampleFdk (exampleShared 3 false)
            (exampleState 1 0)).state.geometry
          = (exampleState 1 0).geometry ++ [sharedRecord (exampleShared 3 false)] :=
  ⟨by decide,
    ((InlineThreadCallbackIteration_missed exampleConfig exampleFdk (exampleShared 3 false)
      (exampleState 1 0) (by decide)).2.1).mpr (by decide),
    (InlineThreadCallbackIteration_missed exampleConfig exampleFdk (exampleShared 3 false)
      (exampleState 1 0) (by decide)).1⟩

/-- Claim C3. In an iteration that appends a record and leaves the local geometry with fewer than
three records, no reconstruction update is run, input 0 of the filter is unchanged and nothing is
written; the iteration goes on to the next one exactly when no projection was missed, and then it
consists of taking the lock and releasing it. -/
theorem InlineThreadCallbackIteration_waiting (cfg : Config) (fdk : FDKRequest → V → V)
    (threadInfo : ThreadInfoStruct) (st : InlineState V)
    (h : st.geometry.length < threadInfo.nproj) (h3 : st.geometry.length + 1 < 3) :
    updateIndices (InlineThreadCallbackIteration cfg fdk threadInfo st).events = []
      ∧ (InlineThreadCallbackIteration cfg fdk threadInfo st).state.input0 = st.input0
      ∧ writtenVolumes (InlineThreadCallbackIteration cfg fdk threadInfo st).events = []
      ∧ ((InlineThreadCallbackIteration cfg fdk threadInfo st).exited = none
          ↔ threadInfo.nproj = st.geometry.length + 1)
      ∧ (threadInfo.nproj = st.geometry.length + 1 →
          (InlineThreadCallbackIteration cfg fdk threadInfo st).events
            = [Event.Lock, Event.Unlock]) := by
  by_cases hp : threadInfo.nproj = st.geometry.length + 1
  · rw [iteration_wait cfg fdk threadInfo st hp h3]
    simp [appended, hp, updateIndices, writtenVolumes]
  · rw [iteration_abort cfg fdk threadInfo st h hp]
    simp [appended, hp, updateIndices, writtenVolumes]

theorem InlineThreadCallbackIteration_waiting_witness :
    (exampleState 1 0).geometry.length < (exampleShared 2 false).nproj
      ∧ (exampleState 1 0).geometry.length + 1 < 3
      ∧ (InlineThreadCallbackIteration exampleConfig exampleFdk (exampleShared 2 false)
            (exampleState 1 0)).events = [Event.Lock, Event.Unlock]
      ∧ (InlineThreadCallbackIteration exampleConfig exampleFdk (exampleShared 2 false)
            (exampleState 1 0)).state.input0 = 0 :=
  ⟨by decide, by decide,
    (InlineThreadCallbackIteration_waiting exampleConfig exampleFdk (exampleShared 2 false)
      (exampleState 1 0) (by decide) (by decide)).2.2.2.2 (by decide),
    (InlineThreadCallbackIteration_waiting exampleConfig exampleFdk (exampleShared 2 false)
      (exampleState 1 0) (by decide) (by decide)).2.1⟩

/-- Claim C4 as stated fails. An iteration that brings the local count to `3` (no stop flag, cpu
backend) runs exactly one reconstruction update, for extraction index `1`: the latest index `2`
is not reconstructed in that iteration. -/
theorem InlineThreadCallbackIteration_latest_index_counterexample :
    ((exampleState 2 0).geometry.length + 1 = 3
      ∧ (exampleShared 3 false).nproj = 3
      ∧ backendSelected exampleConfig = true)
    ∧ updateIndices (InlineThreadCallbackIteration exampleConfig exampleFdk (exampleShared 3 false)
          (exampleState 2 0)).events = [1]
    ∧ ¬ (3 - 1 ∈ updateIndices (InlineThreadCallbackIteration exampleConfig exampleFdk
          (exampleShared 3 false) (exampleState 2 0)).events) := by
  decide

/-- Claim C4, amended. In an iteration that brings the local geometry count to `c ≥ 3` with a
selected backend, the ordinary incremental reconstruction is the first update of the iteration and
it is run for extraction index `c - 2`, the projection before the latest one; it is the only
update unless the stop flag is set, in which case updates for index `0` and index `c - 1`
follow. -/
theorem InlineThreadCallbackIteration_ordinary_index (cfg : Config) (fdk : FDKRequest → V → V)
    (threadInfo : ThreadInfoStruct) (st : InlineState V)
    (hp : threadInfo.nproj = st.geometry.length + 1) (h3 : 3 ≤ threadInfo.nproj)
    (hsel : backendSelected cfg = true) :
    (updateIndices (InlineThreadCallbackIteration cfg fdk threadInfo st).events).head?
        = some (threadInfo.nproj - 2)
      ∧ updateIndices (InlineThreadCallbackIteration cfg fdk threadInfo st).events
        = if threadInfo.stop then [threadInfo.nproj - 2, 0, threadInfo.nproj - 1]
          else [threadInfo.nproj - 2] := by
  have h3' : 3 ≤ st.geometry.length + 1 := hp ▸ h3
  cases hs : threadInfo.stop
  · rw [iteration_ordinary cfg fdk threadInfo st hp h3' hs hsel]
    simp [updateIndices, stepRequest, hp]
  · rw [iteration_last cfg fdk threadInfo st hp h3' hs hsel]
    simp [updateIndices, stepRequest, hp]

theorem InlineThreadCallbackIteration_ordinary_index_witness :
    (exampleShared 5 false).nproj = (exampleState 4 0).geometry.length + 1
      ∧ 3 ≤ (exampleShared 5 false).nproj
      ∧ backendSelected exampleConfig = true
      ∧ (updateIndices (InlineThreadCallbackIteration exampleConfig exampleFdk
            (exampleShared 5 false) (exampleState 4 0)).events).head? = some 3 :=
  ⟨by decide, by decide, by decide,
    (InlineThreadCallbackIteration_ordinary_index exampleConfig exampleFdk (exampleShared 5 false)
      (exampleState 4 0) (by decide) (by decide) (by decide)).1⟩

/-- Claim C5. An iteration that consumes the record flagged last and brings the local count to
`c ≥ 3` (selected backend) performs, in this order: the ordinary incremental update (index
`c - 2`), an update for index `0`, an update for index `c - 1`, one write of the output of that
last update, and the exit with `EXIT_SUCCESS`; each update takes the output of the previous one as
input 0. An iteration whose shared record is not flagged last writes nothing. -/
theorem InlineThreadCallbackIteration_last (cfg : Config) (fdk : FDKRequest → V → V)
    (threadInfo : ThreadInfoStruct) (st : InlineState V) :
    (threadInfo.nproj = st.geometry.length + 1 → 3 ≤ threadInfo.nproj →
      threadInfo.stop = true → backendSelected cfg = true →
        (InlineThreadCallbackIteration cfg fdk threadInfo st).events
            = [Event.Lock,
                Event.Update (stepRequest threadInfo st (threadInfo.nproj - 2)) st.input0
                  (fdk (stepRequest threadInfo st (threadInfo.nproj - 2)) st.input0),
                Event.Update (stepRequest threadInfo st 0)
                  (fdk (stepRequest threadInfo st (threadInfo.nproj - 2)) st.input0)
                  (fdk (stepRequest threadInfo st 0)
                    (fdk (stepRequest threadInfo st (threadInfo.nproj - 2)) st.input0)),
                Event.Update (stepRequest threadInfo st (threadInfo.nproj - 1))
                  (fdk (stepRequest threadInfo st 0)
                    (fdk (stepRequest threadInfo st (threadInfo.nproj - 2)) st.input0))
                  (fdk (stepRequest threadInfo st (threadInfo.nproj - 1))
                    (fdk (stepRequest threadInfo st 0)
                      (fdk (stepRequest threadInfo st (threadInfo.nproj - 2)) st.input0))),
                Event.Write (some (fdk (stepRequest threadInfo st (threadInfo.nproj - 1))
                    (fdk (stepRequest threadInfo st 0)
                      (fdk (stepRequest threadInfo st (threadInfo.nproj - 2)) st.input0)))),
                Event.Exit ExitCode.EXIT_SUCCESS]
          ∧ (InlineThreadCallbackIteration cfg fdk threadInfo st).exited
              = some ExitCode.EXIT_SUCCESS)
      ∧ (threadInfo.stop = false →
          writtenVolumes (InlineThreadCallbackIteration cfg fdk threadInfo st).events = []) := by
  constructor
  · intro hp h3 hs hsel
    have h3' : 3 ≤ st.geometry.length + 1 := hp ▸ h3
    rw [iteration_last cfg fdk threadInfo st hp h3' hs hsel]
    simp [hp]
  · intro hs
    by_cases h : st.geometry.length < threadInfo.nproj
    · by_cases hp : threadInfo.nproj = st.geometry.length + 1
      · by_cases h3 : st.geometry.length + 1 < 3
        · rw [iteration_wait cfg fdk threadInfo st hp h3]
          simp [writtenVolumes]
        · have h3' : 3 ≤ st.geometry.length + 1 := not_lt.mp h3
          cases hsel : backendSelected cfg
          · rw [iteration_ordinary_unselected cfg fdk threadInfo st hp h3' hs hsel]
            simp [writtenVolumes]
          · rw [iteration_ordinary cfg fdk threadInfo st hp h3' hs hsel]
            simp [writtenVolumes]
      · rw [iteration_abort cfg fdk threadInfo st h hp]
        simp [writtenVolumes]
    · rw [iteration_idle cfg fdk threadInfo st (not_lt.mp h)]
      simp [writtenVolumes]

theorem InlineThreadCallbackIteration_last_witness :
    ((exampleShared 4 true).nproj = (exampleState 3 2).geometry.length + 1
      ∧ 3 ≤ (exampleShared 4 true).nproj
      ∧ (exampleShared 4 true).stop = true
      ∧ backendSelected exampleConfig = true)
    ∧ updateIndices (InlineThreadCallbackIteration exampleConfig exampleFdk (exampleShared 4 true)
        (exampleState 3 2)).events = [2, 0, 3]
    ∧ writtenVolumes (InlineThreadCallbackIteration exampleConfig exampleFdk (exampleShared 4 true)
        (exampleState 3 2)).events = [some 15]
    ∧ (InlineThreadCallbackIteration exampleConfig exampleFdk (exampleShared 4 true)
        (exampleState 3 2)).exited = some ExitCode.EXIT_SUCCESS
    ∧ (exampleShared 4 false).stop = false
    ∧ writtenVolumes (InlineThreadCallbackIteration exampleConfig exampleFdk
        (exampleShared 4 false) (exampleState 3 2)).events = [] := by
  have h := InlineThreadCallbackIteration_last exampleConfig exampleFdk (exampleShared 4 true)
    (exampleState 3 2)
  have h1 := h.1 (by decide) (by decide) (by decide) (by decide)
  have h2 := (InlineThreadCallbackIteration_last exampleConfig exampleFdk (exampleShared 4 false)
    (exampleState 3 2)).2 (by decide)
  refine ⟨⟨by decide, by decide, by decide, by decide⟩, ?_, ?_, h1.2, by decide, h2⟩
  · rw [h1.1]; decide
  · rw [h1.1]; decide

/-- Claim C8. In an iteration where the published count has not advanced past the local geometry
count, the local geometry, the file-name list and input 0 of the filter are unchanged, no
reconstruction update is run, nothing is written, the process goes on, and the iteration consists
of taking the lock and releasing it. -/
theorem InlineThreadCallbackIteration_idle (cfg : Config) (fdk : FDKRequest → V → V)
    (threadInfo : ThreadInfoStruct) (st : InlineState V)
    (h : threadInfo.nproj ≤ st.geometry.length) :
    (InlineThreadCallbackIteration cfg fdk threadInfo st).state = st
      ∧ updateIndices (InlineThreadCallbackIteration cfg fdk threadInfo st).events = []
      ∧ writtenVolumes (InlineThreadCallbackIteration cfg fdk threadInfo st).events = []
      ∧ (InlineThreadCallbackIteration cfg fdk threadInfo st).exited = none
      ∧ (InlineThreadCallbackIteration cfg fdk threadInfo st).events
          = [Event.Lock, Event.Unlock] := by
  rw [iteration_idle cfg fdk threadInfo st h]
  simp [updateIndices, writtenVolumes]

theorem InlineThreadCallbackIteration_idle_witness :
    (exampleShared 4 false).nproj ≤ (exampleState 4 7).geometry.length
      ∧ (InlineThreadCallbackIteration exampleConfig exampleFdk (exampleShared 4 false)
          (exampleState 4 7)).state = exampleState 4 7
      ∧ (InlineThreadCallbackIteration exampleConfig exampleFdk (exampleShared 4 false)
          (exampleState 4 7)).events = [Event.Lock, Event.Unlock] :=
  ⟨by decide,
    (InlineThreadCallbackIteration_idle exampleConfig exampleFdk (exampleShared 4 false)
      (exampleState 4 7) (by decide)).1,
    (InlineThreadCallbackIteration_idle exampleConfig exampleFdk (exampleShared 4 false)
      (exampleState 4 7) (by decide)).2.2.2.2⟩

end claims_step

section system
variable {V : Type}

/-! ## Chains of updates -/

theorem updatesChained_append [DecidableEq V] (v : V) (t1 t2 : List (Event V)) :
    updatesChained v (t1 ++ t2)
      = (updatesChained v t1 && updatesChained (lastOutput v t1) t2) := by
  induction t1 generalizing v with
  | nil => simp [updatesChained, lastOutput]
  | cons e es ih =>
    cases e <;> simp [updatesChained, lastOutput, ih, Bool.and_assoc]

theorem lastOutput_append (v : V) (t1 t2 : List (Event V)) :
    lastOutput v (t1 ++ t2) = lastOutput (lastOutput v t1) t2 := by
  induction t1 generalizing v with
  | nil => simp [lastOutput]
  | cons e es ih =>
    cases e <;> simp [lastOutput, ih]

theorem writtenVolumes_append (t1 t2 : List (Event V)) :
    writtenVolumes (t1 ++ t2) = writtenVolumes t1 ++ writtenVolumes t2 := by
  induction t1 with
  | nil => simp [writtenVolumes]
  | cons e es ih =>
    cases e <;> simp [writtenVolumes, ih]

/-- Within one iteration the updates form a chain from the current input 0, and an iteration that
does not terminate the process leaves the output of its last update connected as input 0. -/
theorem iteration_chained [DecidableEq V] (cfg : Config) (fdk : FDKRequest → V → V)
    (threadInfo : ThreadInfoStruct) (st : InlineState V) :
    updatesChained st.input0 (InlineThreadCallbackIteration cfg fdk threadInfo st).events = true
      ∧ ((InlineThreadCallbackIteration cfg fdk threadInfo st).exited = none →
          lastOutput st.input0 (InlineThreadCallbackIteration cfg fdk threadInfo st).events
            = (InlineThreadCallbackIteration cfg fdk threadInfo st).state.input0) := by
  by_cases h : st.geometry.length < threadInfo.nproj
  · by_cases hp : threadInfo.nproj = st.geometry.length + 1
    · by_cases h3 : st.geometry.length + 1 < 3
      · rw [iteration_wait cfg fdk threadInfo st hp h3]
        simp [updatesChained, lastOutput, appended]
      · have h3' : 3 ≤ st.geometry.length + 1 := not_lt.mp h3
        cases hs : threadInfo.stop <;> cases hsel : backendSelected cfg
        · rw [iteration_ordinary_unselected cfg fdk threadInfo st hp h3' hs hsel]
          simp [updatesChained, lastOutput, appended]
        · rw [iteration_ordinary cfg fdk threadInfo st hp h3' hs hsel]
          simp [updatesChained, lastOutput, appended]
        · rw [iteration_last_unselected cfg fdk threadInfo st hp h3' hs hsel]
          simp [updatesChained, lastOutput, appended]
        · rw [iteration_last cfg fdk threadInfo st hp h3' hs hsel]
          simp [updatesChained, lastOutput, appended]
    · rw [iteration_abort cfg fdk threadInfo st h hp]
      simp [updatesChained, lastOutput, appended]
  · rw [iteration_idle cfg fdk threadInfo st (not_lt.mp h)]
    simp [updatesChained, lastOutput]

theorem ChainInv_init [DecidableEq V] (cfg : Config) (constantImage : V)
    (garbage : ThreadInfoStruct) :
    ChainInv constantImage (InlineSystem.init cfg constantImage garbage) := by
  unfold ChainInv InlineSystem.init InlineThreadCallbackSetup
  simp only
  split_ifs <;> simp [updatesChained, lastOutput]

theorem ChainInv_step [DecidableEq V] (acq : Acquisition) (cfg : Config)
    (fdk : FDKRequest → V → V) (constantImage : V) (s : InlineSystem V) (a : Action)
    (h : ChainInv constantImage s) :
    ChainInv constantImage (InlineSystem.step acq cfg fdk s a) := by
  cases a with
  | publish =>
    unfold InlineSystem.step
    simp only
    split_ifs
    · exact h
    · cases AcquisitionPublish acq s.i <;> exact h
    · exact h
  | consume =>
    unfold InlineSystem.step
    simp only
    split_ifs with hx
    · exact h
    · have hex : s.exited = none := by
        cases he : s.exited with
        | none => rfl
        | some c => simp [he] at hx
      obtain ⟨h1, h2⟩ := h
      obtain ⟨c1, c2⟩ := iteration_chained cfg fdk s.threadInfo s.consumer
      have h2' := h2 hex
      refine ⟨?_, ?_⟩
      · simp only [updatesChained_append, h1, h2', c1, Bool.and_self]
      · intro hnone
        simp only [lastOutput_append, h2']
        exact c2 hnone

theorem ChainInv_run [DecidableEq V] (acq : Acquisition) (cfg : Config)
    (fdk : FDKRequest → V → V) (constantImage : V) (schedule : List Action)
    (s : InlineSystem V) (h : ChainInv constantImage s) :
    ChainInv constantImage (InlineSystem.run acq cfg fdk s schedule) := by
  induction schedule generalizing s with
  | nil => exact h
  | cons a as ih =>
    exact ih _ (ChainInv_step acq cfg fdk constantImage s a h)

/-- Claim C7. Whatever the interleaving of the two threads, the reconstruction updates of
`InlineThreadCallback` form a chain: the first one takes the constant image as input 0 and every
later one takes as input 0 the output of the update just before it; while the process runs, input
0 of the filter is the output of the last update, so no intermediate result is dropped. -/
theorem InlineThreadCallback_updates_chained [DecidableEq V] (acq : Acquisition) (cfg : Config)
    (fdk : FDKRequest → V → V) (constantImage : V) (garbage : ThreadInfoStruct)
    (schedule : List Action) :
    updatesChained constantImage
        (InlineSystem.run acq cfg fdk (InlineSystem.init cfg constantImage garbage)
          schedule).trace = true
      ∧ ((InlineSystem.run acq cfg fdk (InlineSystem.init cfg constantImage garbage)
            schedule).exited = none →
          (InlineSystem.run acq cfg fdk (InlineSystem.init cfg constantImage garbage)
            schedule).consumer.input0
            = lastOutput constantImage
                (InlineSystem.run acq cfg fdk (InlineSystem.init cfg constantImage garbage)
                  schedule).trace) := by
  have h := ChainInv_run acq cfg fdk constantImage schedule _
    (ChainInv_init cfg constantImage garbage)
  exact ⟨h.1, fun hn => (h.2 hn).symm⟩

end system

/-! ## Streaming against batch reconstruction -/

section lockstep
variable {V : Type}

theorem fileNameIndex_lt (i m : Nat) (hm : 0 < m) : fileNameIndex i m < m := by
  unfold fileNameIndex vnl_math_min_uint
  split_ifs with h <;> omega

theorem AcquisitionPublish_some (acq : Acquisition) (i : Nat) (hnames : acq.names ≠ [])
    (hi : i < acq.geometry.length) :
    ∃ threadInfo, AcquisitionPublish acq i = some threadInfo
      ∧ threadInfo.nproj = i + 1
      ∧ threadInfo.stop = (i == acq.geometry.length - 1) := by
  have hm : 0 < acq.names.length := List.length_pos.mpr hnames
  have hidx := fileNameIndex_lt i acq.names.length hm
  unfold AcquisitionPublish
  rw [List.getElem?_eq_getElem hi, List.getElem?_eq_getElem hidx]
  exact ⟨_, rfl, rfl, rfl⟩

theorem batchReconstruct_eq_sum [AddCommMonoid V] (constantImage : V) (contribution : Nat → V)
    (n : Nat) :
    batchReconstruct constantImage contribution n
      = constantImage + ∑ i in Finset.range n, contribution i := by
  unfold batchReconstruct
  induction n with
  | zero => simp
  | succ n ih =>
    rw [List.range_succ, List.foldl_append, ih, Finset.sum_range_succ]
    simp [add_assoc]

theorem setup_selected (cfg : Config) (constantImage : V) (hsel : backendSelected cfg = true) :
    (InlineThreadCallbackSetup cfg constantImage : StepResult V)
      = ⟨{ geometry := [], fileNames := [], input0 := constantImage },
          [Event.Lock, Event.Unlock], none⟩ := by
  unfold InlineThreadCallbackSetup
  unfold backendSelected at hsel
  simp only
  split_ifs with h1 h2 h3 h4 h5 <;> simp_all

theorem LockstepInv_init [AddCommMonoid V] (cfg : Config) (constantImage : V)
    (contribution : Nat → V) (garbage : ThreadInfoStruct) (hsel : backendSelected cfg = true) :
    LockstepInv constantImage contribution 0 (InlineSystem.init cfg constantImage garbage) := by
  unfold LockstepInv InlineSystem.init
  simp [setup_selected cfg constantImage hsel, mainThreadInfo, writtenVolumes]

/-- One round of the lockstep schedule: a publication, then one iteration of the reconstruction
loop. -/
theorem lockstep_round (acq : Acquisition) (cfg : Config)
    (fdk : FDKRequest → V → V) (s : InlineSystem V) (hnames : acq.names ≠ [])
    (hi : s.i < acq.geometry.length) (hex : s.exited = none) (hf : s.fault = false) :
    ∃ threadInfo, threadInfo.nproj = s.i + 1
      ∧ threadInfo.stop = (s.i == acq.geometry.length - 1)
      ∧ InlineSystem.step acq cfg fdk (InlineSystem.step acq cfg fdk s Action.publish)
          Action.consume
        = { s with
            threadInfo := threadInfo
            i := s.i + 1
            consumer := (InlineThreadCallbackIteration cfg fdk threadInfo s.consumer).state
            trace := s.trace ++ (InlineThreadCallbackIteration cfg fdk threadInfo s.consumer).events
            exited := (InlineThreadCallbackIteration cfg fdk threadInfo s.consumer).exited } := by
  obtain ⟨threadInfo, hpub, hn, hs⟩ := AcquisitionPublish_some acq s.i hnames hi
  refine ⟨threadInfo, hn, hs, ?_⟩
  simp [InlineSystem.step, hex, hf, hi, hpub]

theorem LockstepInv_round [AddCommMonoid V] (acq : Acquisition) (cfg : Config)
    (fdk : FDKRequest → V → V) (constantImage : V) (contribution : Nat → V)
    (hnames : acq.names ≠ []) (hsel : backendSelected cfg = true)
    (hfdk : ∀ req v, fdk req v = v + contribution req.extractIndex)
    (k : Nat) (s : InlineSystem V) (hk : k + 1 < acq.geometry.length)
    (h : LockstepInv constantImage contribution k s) :
    LockstepInv constantImage contribution (k + 1)
      (InlineSystem.step acq cfg fdk (InlineSystem.step acq cfg fdk s Action.publish)
        Action.consume) := by
  obtain ⟨hi, hg, hn, hex, hf, hw, hv⟩ := h
  obtain ⟨threadInfo, tn, ts, hstep⟩ :=
    lockstep_round acq cfg fdk s hnames (by omega) hex hf
  rw [hstep]
  have hp : threadInfo.nproj = s.consumer.geometry.length + 1 := by omega
  have hstop : threadInfo.stop = false := by
    rw [ts]
    simp only [beq_eq_false_iff_ne, ne_eq]
    omega
  by_cases h3 : s.consumer.geometry.length + 1 < 3
  · rw [iteration_wait cfg fdk threadInfo s.consumer hp h3]
    have e : k + 1 - 2 = k - 2 := by omega
    simp only [LockstepInv, appended, AddProjection_length, writtenVolumes_append, hw, e]
    refine ⟨by omega, by omega, by omega, trivial, hf, by simp [writtenVolumes], hv⟩
  · have h3' : 3 ≤ s.consumer.geometry.length + 1 := not_lt.mp h3
    rw [iteration_ordinary cfg fdk threadInfo s.consumer hp h3' hstop hsel]
    have e : k + 1 - 2 = (k - 2) + 1 := by omega
    have e2 : s.consumer.geometry.length - 1 = (k - 2) + 1 := by omega
    simp only [LockstepInv, appended, AddProjection_length, writtenVolumes_append, hw, e]
    refine ⟨by omega, by omega, by omega, trivial, hf, by simp [writtenVolumes], ?_⟩
    rw [hfdk, hv, Finset.sum_range_succ]
    simp only [stepRequest, e2, add_assoc]

theorem LockstepInv_last [AddCommMonoid V] (acq : Acquisition) (cfg : Config)
    (fdk : FDKRequest → V → V) (constantImage : V) (contribution : Nat → V)
    (hnames : acq.names ≠ []) (hsel : backendSelected cfg = true)
    (hfdk : ∀ req v, fdk req v = v + contribution req.extractIndex)
    (k : Nat) (s : InlineSystem V) (hk : k + 1 = acq.geometry.length) (hN : 3 ≤ k + 1)
    (h : LockstepInv constantImage contribution k s) :
    writtenVolumes (InlineSystem.step acq cfg fdk (InlineSystem.step acq cfg fdk s Action.publish)
        Action.consume).trace
        = [some (batchReconstruct constantImage contribution acq.geometry.length)]
      ∧ (InlineSystem.step acq cfg fdk (InlineSystem.step acq cfg fdk s Action.publish)
          Action.consume).exited = some ExitCode.EXIT_SUCCESS := by
  obtain ⟨hi, hg, hn, hex, hf, hw, hv⟩ := h
  obtain ⟨threadInfo, tn, ts, hstep⟩ :=
    lockstep_round acq cfg fdk s hnames (by omega) hex hf
  rw [hstep]
  have hp : threadInfo.nproj = s.consumer.geometry.length + 1 := by omega
  have hstop : threadInfo.stop = true := by
    rw [ts]
    simp only [beq_iff_eq]
    omega
  have h3' : 3 ≤ s.consumer.geometry.length + 1 := by omega
  rw [iteration_last cfg fdk threadInfo s.consumer hp h3' hstop hsel]
  obtain ⟨m, rfl⟩ : ∃ m, k = m + 2 := ⟨k - 2, by omega⟩
  have e2 : s.consumer.geometry.length - 1 = m + 1 := by omega
  refine ⟨?_, rfl⟩
  simp only [writtenVolumes_append, hw, writtenVolumes, List.nil_append]
  rw [batchReconstruct_eq_sum, ← hk, hfdk, hfdk, hfdk, hv]
  simp only [stepRequest, e2, hg, Nat.add_sub_cancel]
  rw [Finset.sum_range_succ', Finset.sum_range_succ, Finset.sum_range_succ]
  have e3 : m + 2 - 1 = m + 1 := by omega
  have e4 : m + 1 + 1 = m + 2 := by omega
  rw [e3, e4]
  congr 2
  abel

theorem lockstep_run [AddCommMonoid V] (acq : Acquisition) (cfg : Config)
    (fdk : FDKRequest → V → V) (constantImage : V) (contribution : Nat → V)
    (hnames : acq.names ≠ []) (hsel : backendSelected cfg = true)
    (hfdk : ∀ req v, fdk req v = v + contribution req.extractIndex)
    (hN : 3 ≤ acq.geometry.length) (n : Nat) :
    ∀ (k : Nat) (s : InlineSystem V), k + (n + 1) = acq.geometry.length →
      LockstepInv constantImage contribution k s →
      writtenVolumes (InlineSystem.run acq cfg fdk s (lockstepSchedule (n + 1))).trace
          = [some (batchReconstruct constantImage contribution acq.geometry.length)]
        ∧ (InlineSystem.run acq cfg fdk s (lockstepSchedule (n + 1))).exited
          = some ExitCode.EXIT_SUCCESS := by
  induction n with
  | zero =>
    intro k s hk h
    simp only [lockstepSchedule, InlineSystem.run, List.foldl]
    exact LockstepInv_last acq cfg fdk constantImage contribution hnames hsel hfdk k s
      (by omega) (by omega) h
  | succ n ih =>
    intro k s hk h
    have hr := LockstepInv_round acq cfg fdk constantImage contribution hnames hsel hfdk k s
      (by omega) h
    have := ih (k + 1) _ (by omega) hr
    rw [lockstepSchedule]
    simpa only [InlineSystem.run, List.foldl] using this

/-- Claim C1. For an acquisition of `N ≥ 3` projections (with at least one projection file)
published one at a time, the reconstruction thread taking one step after each publication, and
each reconstruction update adding the contribution of its projection index to its input volume,
`InlineThreadCallback` writes exactly one volume, the batch result: the constant volume plus the
contributions of all indices `0 .. N-1`; the process then exits with `EXIT_SUCCESS`. -/
theorem InlineThreadCallback_equals_batch [AddCommMonoid V] (acq : Acquisition) (cfg : Config)
    (fdk : FDKRequest → V → V) (constantImage : V) (contribution : Nat → V)
    (garbage : ThreadInfoStruct)
    (hN : 3 ≤ acq.geometry.length) (hnames : acq.names ≠ [])
    (hsel : backendSelected cfg = true)
    (hfdk : ∀ req v, fdk req v = v + contribution req.extractIndex) :
    writtenVolumes (InlineSystem.run acq cfg fdk (InlineSystem.init cfg constantImage garbage)
        (lockstepSchedule acq.geometry.length)).trace
        = [some (batchReconstruct constantImage contribution acq.geometry.length)]
      ∧ (InlineSystem.run acq cfg fdk (InlineSystem.init cfg constantImage garbage)
          (lockstepSchedule acq.geometry.length)).exited = some ExitCode.EXIT_SUCCESS := by
  obtain ⟨n, hn⟩ : ∃ n, acq.geometry.length = n + 1 := ⟨acq.geometry.length - 1, by omega⟩
  have h := lockstep_run acq cfg fdk constantImage contribution hnames hsel hfdk hN n 0
    (InlineSystem.init cfg constantImage garbage) (by omega)
    (LockstepInv_init cfg constantImage contribution garbage hsel)
  rw [← hn] at h
  exact h

theorem InlineThreadCallback_equals_batch_witness :
    (3 ≤ exampleAcquisition.geometry.length
      ∧ exampleAcquisition.names ≠ []
      ∧ backendSelected exampleConfig = true
      ∧ ∀ req v, exampleFdk req v = v + 2 ^ req.extractIndex)
    ∧ writtenVolumes (InlineSystem.run exampleAcquisition exampleConfig exampleFdk
        (InlineSystem.init exampleConfig 0 (exampleShared 7 false))
        (lockstepSchedule exampleAcquisition.geometry.length)).trace
        = [some (batchReconstruct 0 (fun i => 2 ^ i) exampleAcquisition.geometry.length)]
    ∧ batchReconstruct 0 (fun i => 2 ^ i) exampleAcquisition.geometry.length = 15 :=
  ⟨⟨by decide, by decide, by decide, fun _ _ => rfl⟩,
    (InlineThreadCallback_equals_batch exampleAcquisition exampleConfig exampleFdk 0
      (fun i => 2 ^ i) (exampleShared 7 false) (by decide) (by decide) (by decide)
      (fun _ _ => rfl)).1,
    by decide⟩

/-! ## Acquisitions of fewer than three projections -/

theorem updateIndices_append (t1 t2 : List (Event V)) :
    updateIndices (t1 ++ t2) = updateIndices t1 ++ updateIndices t2 := by
  induction t1 with
  | nil => simp [updateIndices]
  | cons e es ih =>
    cases e <;> simp [updateIndices, ih]

theorem WaitingInv_init (acq : Acquisition) (cfg : Config) (constantImage : V)
    (garbage : ThreadInfoStruct) (hsel : backendSelected cfg = true) :
    WaitingInv acq 0 (InlineSystem.init cfg constantImage garbage) := by
  unfold WaitingInv InlineSystem.init
  simp [setup_selected cfg constantImage hsel, mainThreadInfo, writtenVolumes, updateIndices]

theorem WaitingInv_round (acq : Acquisition) (cfg : Config) (fdk : FDKRequest → V → V)
    (hnames : acq.names ≠ []) (k : Nat) (s : InlineSystem V)
    (hk : k < acq.geometry.length) (h3 : k + 1 < 3) (h : WaitingInv acq k s) :
    WaitingInv acq (k + 1)
      (InlineSystem.step acq cfg fdk (InlineSystem.step acq cfg fdk s Action.publish)
        Action.consume) := by
  obtain ⟨hi, hg, hn, hex, hf, hw, hu, _⟩ := h
  obtain ⟨threadInfo, tn, ts, hstep⟩ :=
    lockstep_round acq cfg fdk s hnames (by omega) hex hf
  rw [hstep]
  have hp : threadInfo.nproj = s.consumer.geometry.length + 1 := by omega
  rw [iteration_wait cfg fdk threadInfo s.consumer hp (by omega)]
  simp only [WaitingInv, appended, AddProjection_length, writtenVolumes_append,
    updateIndices_append, hw, hu]
  refine ⟨by omega, by omega, by omega, trivial, hf, by simp [writtenVolumes],
    by simp [updateIndices], ?_⟩
  intro hlast _
  rw [ts]
  simp only [beq_iff_eq]
  omega

theorem WaitingInv_lockstep (acq : Acquisition) (cfg : Config) (fdk : FDKRequest → V → V)
    (hnames : acq.names ≠ []) (h3 : acq.geometry.length < 3) (n : Nat) :
    ∀ (k : Nat) (s : InlineSystem V), k + n = acq.geometry.length → WaitingInv acq k s →
      WaitingInv acq acq.geometry.length
        (InlineSystem.run acq cfg fdk s (lockstepSchedule n)) := by
  induction n with
  | zero =>
    intro k s hk h
    have : k = acq.geometry.length := by omega
    subst this
    simpa only [lockstepSchedule, InlineSystem.run, List.foldl] using h
  | succ n ih =>
    intro k s hk h
    have hr := WaitingInv_round acq cfg fdk hnames k s (by omega) (by omega) h
    have := ih (k + 1) _ (by omega) hr
    rw [lockstepSchedule]
    simpa only [InlineSystem.run, List.foldl] using this

theorem WaitingInv_poll (acq : Acquisition) (cfg : Config) (fdk : FDKRequest → V → V)
    (polls : Nat) :
    ∀ (s : InlineSystem V), WaitingInv acq acq.geometry.length s →
      WaitingInv acq acq.geometry.length
        (InlineSystem.run acq cfg fdk s (List.replicate polls Action.consume)) := by
  induction polls with
  | zero =>
    intro s h
    simpa only [List.replicate, InlineSystem.run, List.foldl] using h
  | succ n ih =>
    intro s h
    have hs : WaitingInv acq acq.geometry.length
        (InlineSystem.step acq cfg fdk s Action.consume) := by
      obtain ⟨hi, hg, hn, hex, hf, hw, hu, hstop⟩ := h
      have hidle := iteration_idle cfg fdk s.threadInfo s.consumer (by omega)
      have hstep : InlineSystem.step acq cfg fdk s Action.consume
          = { s with trace := s.trace ++ [Event.Lock, Event.Unlock] } := by
        cases s
        simp_all [InlineSystem.step]
      rw [hstep]
      exact ⟨hi, hg, hn, hex, hf, by simp [writtenVolumes_append, hw, writtenVolumes],
        by simp [updateIndices_append, hu, updateIndices], hstop⟩
    have := ih _ hs
    simpa only [List.replicate, InlineSystem.run, List.foldl] using this

/-- Claim C6 (behaviour of the code on short acquisitions). For an acquisition of one or two
projections published one at a time, the reconstruction thread consumes the record flagged last
and keeps polling: however many further iterations it takes, the process has not exited, no
reconstruction update was run and no volume was written. -/
theorem InlineThreadCallback_short_acquisition_spins (acq : Acquisition) (cfg : Config)
    (fdk : FDKRequest → V → V) (constantImage : V) (garbage : ThreadInfoStruct) (polls : Nat)
    (h1 : 1 ≤ acq.geometry.length) (h3 : acq.geometry.length < 3) (hnames : acq.names ≠ [])
    (hsel : backendSelected cfg = true) :
    (InlineSystem.run acq cfg fdk (InlineSystem.init cfg constantImage garbage)
        (lockstepSchedule acq.geometry.length ++ List.replicate polls Action.consume)).exited
        = none
      ∧ writtenVolumes (InlineSystem.run acq cfg fdk (InlineSystem.init cfg constantImage garbage)
          (lockstepSchedule acq.geometry.length ++ List.replicate polls Action.consume)).trace
          = []
      ∧ updateIndices (InlineSystem.run acq cfg fdk (InlineSystem.init cfg constantImage garbage)
          (lockstepSchedule acq.geometry.length ++ List.replicate polls Action.consume)).trace
          = []
      ∧ (InlineSystem.run acq cfg fdk (InlineSystem.init cfg constantImage garbage)
          (lockstepSchedule acq.geometry.length ++ List.replicate polls Action.consume)).threadInfo.stop
          = true
      ∧ (InlineSystem.run acq cfg fdk (InlineSystem.init cfg constantImage garbage)
          (lockstepSchedule acq.geometry.length
            ++ List.replicate polls Action.consume)).consumer.geometry.length
          = acq.geometry.length := by
  have ha := WaitingInv_lockstep acq cfg fdk hnames h3 acq.geometry.length 0
    (InlineSystem.init cfg constantImage garbage) (by omega)
    (WaitingInv_init acq cfg constantImage garbage hsel)
  have hb := WaitingInv_poll acq cfg fdk polls _ ha
  have hrun : InlineSystem.run acq cfg fdk (InlineSystem.init cfg constantImage garbage)
      (lockstepSchedule acq.geometry.length ++ List.replicate polls Action.consume)
      = InlineSystem.run acq cfg fdk
          (InlineSystem.run acq cfg fdk (InlineSystem.init cfg constantImage garbage)
            (lockstepSchedule acq.geometry.length))
          (List.replicate polls Action.consume) := by
    simp only [InlineSystem.run, List.foldl_append]
  rw [hrun]
  obtain ⟨_, hg, _, hex, _, hw, hu, hstop⟩ := hb
  exact ⟨hex, hw, hu, hstop rfl (by omega), hg⟩

theorem InlineThreadCallback_short_acquisition_spins_witness :
    (1 ≤ exampleShortAcquisition.geometry.length
      ∧ exampleShortAcquisition.geometry.length < 3
      ∧ exampleShortAcquisition.names ≠ []
      ∧ backendSelected exampleConfig = true)
    ∧ (InlineSystem.run exampleShortAcquisition exampleConfig exampleFdk
        (InlineSystem.init exampleConfig 0 (exampleShared 7 false))
        (lockstepSchedule exampleShortAcquisition.geometry.length
          ++ List.replicate 5 Action.consume)).exited = none
    ∧ writtenVolumes (InlineSystem.run exampleShortAcquisition exampleConfig exampleFdk
        (InlineSystem.init exampleConfig 0 (exampleShared 7 false))
        (lockstepSchedule exampleShortAcquisition.geometry.length
          ++ List.replicate 5 Action.consume)).trace = [] :=
  ⟨⟨by decide, by decide, by decide, by decide⟩,
    (InlineThreadCallback_short_acquisition_spins exampleShortAcquisition exampleConfig exampleFdk
      0 (exampleShared 7 false) 5 (by decide) (by decide) (by decide) (by decide)).1,
    (InlineThreadCallback_short_acquisition_spins exampleShortAcquisition exampleConfig exampleFdk
      0 (exampleShared 7 false) 5 (by decide) (by decide) (by decide) (by decide)).2.1⟩

end lockstep

/-! ## Offsets handed to the displaced-detector filter -/

section offsets
variable {V : Type}

theorem updateOffsets_append (t1 t2 : List (Event V)) :
    updateOffsets (t1 ++ t2) = updateOffsets t1 ++ updateOffsets t2 := by
  induction t1 with
  | nil => simp [updateOffsets]
  | cons e es ih =>
    cases e <;> simp [updateOffsets, ih]

/-- The updates of one iteration are handed the offsets of the shared record, and an iteration
with an update has seen a publication. -/
theorem iteration_offsets (cfg : Config) (fdk : FDKRequest → V → V)
    (threadInfo : ThreadInfoStruct) (st : InlineState V) :
    (∀ p ∈ updateOffsets (InlineThreadCallbackIteration cfg fdk threadInfo st).events,
        p = (threadInfo.minimumOffsetX, threadInfo.maximumOffsetX))
      ∧ (updateOffsets (InlineThreadCallbackIteration cfg fdk threadInfo st).events ≠ [] →
          threadInfo.nproj ≠ 0) := by
  by_cases h : st.geometry.length < threadInfo.nproj
  · have hn : threadInfo.nproj ≠ 0 := by omega
    refine ⟨?_, fun _ => hn⟩
    by_cases hp : threadInfo.nproj = st.geometry.length + 1
    · by_cases h3 : st.geometry.length + 1 < 3
      · rw [iteration_wait cfg fdk threadInfo st hp h3]
        simp [updateOffsets]
      · have h3' : 3 ≤ st.geometry.length + 1 := not_lt.mp h3
        cases hs : threadInfo.stop <;> cases hsel : backendSelected cfg
        · rw [iteration_ordinary_unselected cfg fdk threadInfo st hp h3' hs hsel]
          simp [updateOffsets]
        · rw [iteration_ordinary cfg fdk threadInfo st hp h3' hs hsel]
          simp [updateOffsets, stepRequest]
        · rw [iteration_last_unselected cfg fdk threadInfo st hp h3' hs hsel]
          simp [updateOffsets]
        · rw [iteration_last cfg fdk threadInfo st hp h3' hs hsel]
          simp [updateOffsets, stepRequest]
    · rw [iteration_abort cfg fdk threadInfo st h hp]
      simp [updateOffsets]
  · rw [iteration_idle cfg fdk threadInfo st (not_lt.mp h)]
    simp [updateOffsets]

theorem AcquisitionPublish_offsets (acq : Acquisition) (i : Nat) (threadInfo : ThreadInfoStruct)
    (h : AcquisitionPublish acq i = some threadInfo) :
    (threadInfo.minimumOffsetX, threadInfo.maximumOffsetX)
      = computeOffsetsFromGeometry acq.geometry := by
  unfold AcquisitionPublish at h
  split at h
  · simp only [Option.some.injEq] at h
    rw [← h]
  · exact absurd h (by simp)

theorem OffsetsInv_init (acq : Acquisition) (cfg : Config) (constantImage : V)
    (garbage : ThreadInfoStruct) :
    OffsetsInv acq (InlineSystem.init cfg constantImage garbage) := by
  unfold OffsetsInv InlineSystem.init InlineThreadCallbackSetup
  refine ⟨Or.inl (by simp [mainThreadInfo]), ?_⟩
  simp only
  split_ifs <;> simp [updateOffsets]

theorem OffsetsInv_step (acq : Acquisition) (cfg : Config) (fdk : FDKRequest → V → V)
    (s : InlineSystem V) (a : Action) (h : OffsetsInv acq s) :
    OffsetsInv acq (InlineSystem.step acq cfg fdk s a) := by
  cases a with
  | publish =>
    unfold InlineSystem.step
    simp only
    split_ifs
    · exact h
    · cases hpub : AcquisitionPublish acq s.i with
      | none => exact h
      | some threadInfo => exact ⟨Or.inr (AcquisitionPublish_offsets acq s.i threadInfo hpub), h.2⟩
    · exact h
  | consume =>
    unfold InlineSystem.step
    simp only
    split_ifs
    · exact h
    · obtain ⟨h1, h2⟩ := h
      obtain ⟨c1, c2⟩ := iteration_offsets cfg fdk s.threadInfo s.consumer
      refine ⟨h1, ?_⟩
      intro p hp
      simp only [updateOffsets_append, List.mem_append] at hp
      rcases hp with hp | hp
      · exact h2 p hp
      · have hne : updateOffsets
            (InlineThreadCallbackIteration cfg fdk s.threadInfo s.consumer).events ≠ [] :=
          List.ne_nil_of_mem hp
        rcases h1 with h0 | hfull
        · exact absurd h0 (c2 hne)
        · rw [c1 p hp, hfull]

theorem OffsetsInv_run (acq : Acquisition) (cfg : Config) (fdk : FDKRequest → V → V)
    (schedule : List Action) (s : InlineSystem V) (h : OffsetsInv acq s) :
    OffsetsInv acq (InlineSystem.run acq cfg fdk s schedule) := by
  induction schedule generalizing s with
  | nil => exact h
  | cons a as ih => exact ih _ (OffsetsInv_step acq cfg fdk s a h)

theorem exampleDriftAcquisition_offsets :
    computeOffsetsFromGeometry exampleDriftAcquisition.geometry = (-7, 4) := by
  simp only [computeOffsetsFromGeometry, exampleDriftAcquisition, GetProjectionOffsetsX,
    exampleRecord, List.map, computeOffsetsLoop, NumericTraits_double_max,
    NumericTraits_double_min, vnl_math_min, vnl_math_max]
  norm_num

theorem exampleDriftAcquisition_updateOffsets :
    updateOffsets
        (InlineSystem.run exampleDriftAcquisition exampleConfig exampleFdk
          (InlineSystem.init exampleConfig 0 (exampleShared 7 false))
          (lockstepSchedule 3)).trace = [((-7 : ℚ), (4 : ℚ))] := by
  have hinv := (OffsetsInv_run exampleDriftAcquisition exampleConfig exampleFdk (lockstepSchedule 3)
    _ (OffsetsInv_init exampleDriftAcquisition exampleConfig (0 : Nat) (exampleShared 7 false))).2
  rw [exampleDriftAcquisition_offsets] at hinv
  have hlen : (updateOffsets
        (InlineSystem.run exampleDriftAcquisition exampleConfig exampleFdk
          (InlineSystem.init exampleConfig 0 (exampleShared 7 false))
          (lockstepSchedule 3)).trace).length = 1 := by
    decide
  match hl : updateOffsets
      (InlineSystem.run exampleDriftAcquisition exampleConfig exampleFdk
        (InlineSystem.init exampleConfig 0 (exampleShared 7 false))
        (lockstepSchedule 3)).trace, hlen, hinv with
  | [p], _, hinv => rw [hinv p (List.mem_singleton.mpr rfl)]

/-- Claim C11 as stated fails. On an acquisition with X offsets `1, 2, 3, 4, -7`, at the consumer
step that brings the local count to `3` (offsets received so far: `1, 2, 3`), the offsets handed
to the displaced-detector filter are `-7` and `4`: neither is the minimum or the maximum of the
offsets received so far, nor even one of them. -/
theorem InlineThreadCallback_offsets_received_counterexample :
    GetProjectionOffsetsX
        (InlineSystem.run exampleDriftAcquisition exampleConfig exampleFdk
          (InlineSystem.init exampleConfig 0 (exampleShared 7 false))
          (lockstepSchedule 3)).consumer.geometry = [1, 2, 3]
      ∧ updateOffsets
        (InlineSystem.run exampleDriftAcquisition exampleConfig exampleFdk
          (InlineSystem.init exampleConfig 0 (exampleShared 7 false))
          (lockstepSchedule 3)).trace = [((-7 : ℚ), (4 : ℚ))]
      ∧ (-7 : ℚ) ∉ ([1, 2, 3] : List ℚ) ∧ (4 : ℚ) ∉ ([1, 2, 3] : List ℚ) :=
  ⟨by decide, exampleDriftAcquisition_updateOffsets, by norm_num, by norm_num⟩

/-- Claim C11, amended. Whatever the interleaving of the two threads, the offsets handed to the
displaced-detector filter for every reconstruction update are the pair that
`computeOffsetsFromGeometry` computed once, in `AcquisitionCallback`, from the geometry of the
whole acquisition; they do not depend on the number of projections received so far. -/
theorem InlineThreadCallback_offsets_whole_acquisition (acq : Acquisition) (cfg : Config)
    (fdk : FDKRequest → V → V) (constantImage : V) (garbage : ThreadInfoStruct)
    (schedule : List Action) :
    ∀ p ∈ updateOffsets
        (InlineSystem.run acq cfg fdk (InlineSystem.init cfg constantImage garbage)
          schedule).trace,
      p = computeOffsetsFromGeometry acq.geometry :=
  (OffsetsInv_run acq cfg fdk schedule _ (OffsetsInv_init acq cfg constantImage garbage)).2

theorem InlineThreadCallback_offsets_whole_acquisition_witness :
    ((-7 : ℚ), (4 : ℚ)) ∈ updateOffsets
        (InlineSystem.run exampleDriftAcquisition exampleConfig exampleFdk
          (InlineSystem.init exampleConfig 0 (exampleShared 7 false))
          (lockstepSchedule 3)).trace
      ∧ ((-7 : ℚ), (4 : ℚ)) = computeOffsetsFromGeometry exampleDriftAcquisition.geometry :=
  ⟨by rw [exampleDriftAcquisition_updateOffsets]; exact List.mem_singleton.mpr rfl,
    InlineThreadCallback_offsets_whole_acquisition exampleDriftAcquisition exampleConfig
      exampleFdk 0 (exampleShared 7 false) (lockstepSchedule 3) _
      (by rw [exampleDriftAcquisition_updateOffsets]; exact List.mem_singleton.mpr rfl)⟩

end offsets

/-! ## Backend missing from the build -/

section backend
variable {V : Type}

theorem step_exited (acq : Acquisition) (cfg : Config) (fdk : FDKRequest → V → V)
    (s : InlineSystem V) (a : Action) (h : s.exited.isSome = true) :
    InlineSystem.step acq cfg fdk s a = s := by
  cases a <;> simp [InlineSystem.step, h]

theorem run_exited (acq : Acquisition) (cfg : Config) (fdk : FDKRequest → V → V)
    (schedule : List Action) (s : InlineSystem V) (h : s.exited.isSome = true) :
    InlineSystem.run acq cfg fdk s schedule = s := by
  induction schedule with
  | nil => rfl
  | cons a as ih =>
    simp only [InlineSystem.run, List.foldl] at ih ⊢
    rw [step_exited acq cfg fdk s a h]
    exact ih

theorem setup_missing (cfg : Config) (constantImage : V)
    (h : (cfg.hardware_arg = "cuda" ∧ cfg.CUDA_FOUND = false)
      ∨ (cfg.hardware_arg = "opencl" ∧ cfg.OPENCL_FOUND = false)) :
    (InlineThreadCallbackSetup cfg constantImage : StepResult V)
      = ⟨{ geometry := [], fileNames := [], input0 := constantImage },
          [Event.Lock, Event.Exit ExitCode.EXIT_FAILURE], some ExitCode.EXIT_FAILURE⟩ := by
  rcases h with ⟨h1, h2⟩ | ⟨h1, h2⟩
  · simp [InlineThreadCallbackSetup, h1, h2]
  · simp [InlineThreadCallbackSetup, h1, h2]

/-- Claim C13. When the requested backend (`cuda` or `opencl`) was not compiled in, the set-up of
`InlineThreadCallback` takes the lock and exits the process with `EXIT_FAILURE`; whatever the two
threads are scheduled to do afterwards, the local geometry stays empty (no record is consumed), no
reconstruction update is run and nothing is written. -/
theorem InlineThreadCallback_backend_missing (acq : Acquisition) (cfg : Config)
    (fdk : FDKRequest → V → V) (constantImage : V) (garbage : ThreadInfoStruct)
    (schedule : List Action)
    (h : (cfg.hardware_arg = "cuda" ∧ cfg.CUDA_FOUND = false)
      ∨ (cfg.hardware_arg = "opencl" ∧ cfg.OPENCL_FOUND = false)) :
    (InlineThreadCallbackSetup cfg constantImage : StepResult V).exited
        = some ExitCode.EXIT_FAILURE
      ∧ (InlineThreadCallbackSetup cfg constantImage : StepResult V).events
        = [Event.Lock, Event.Exit ExitCode.EXIT_FAILURE]
      ∧ (InlineSystem.run acq cfg fdk (InlineSystem.init cfg constantImage garbage)
          schedule).exited = some ExitCode.EXIT_FAILURE
      ∧ (InlineSystem.run acq cfg fdk (InlineSystem.init cfg constantImage garbage)
          schedule).consumer.geometry = []
      ∧ updateIndices (InlineSystem.run acq cfg fdk (InlineSystem.init cfg constantImage garbage)
          schedule).trace = []
      ∧ writtenVolumes (InlineSystem.run acq cfg fdk (InlineSystem.init cfg constantImage garbage)
          schedule).trace = [] := by
  have hs := setup_missing cfg constantImage h
  have hinit : (InlineSystem.init cfg constantImage garbage).exited.isSome = true := by
    simp [InlineSystem.init, hs]
  rw [run_exited acq cfg fdk schedule _ hinit]
  simp [InlineSystem.init, hs, updateIndices, writtenVolumes]

theorem InlineThreadCallback_backend_missing_witness :
    ((exampleCudaConfig.hardware_arg = "cuda" ∧ exampleCudaConfig.CUDA_FOUND = false)
      ∨ (exampleCudaConfig.hardware_arg = "opencl" ∧ exampleCudaConfig.OPENCL_FOUND = false))
    ∧ (InlineSystem.run exampleAcquisition exampleCudaConfig exampleFdk
        (InlineSystem.init exampleCudaConfig 0 (exampleShared 7 false))
        (lockstepSchedule 4)).exited = some ExitCode.EXIT_FAILURE
    ∧ (InlineSystem.run exampleAcquisition exampleCudaConfig exampleFdk
        (InlineSystem.init exampleCudaConfig 0 (exampleShared 7 false))
        (lockstepSchedule 4)).consumer.geometry = [] :=
  ⟨Or.inl ⟨by decide, by decide⟩,
    (InlineThreadCallback_backend_missing exampleAcquisition exampleCudaConfig exampleFdk 0
      (exampleShared 7 false) (lockstepSchedule 4) (Or.inl ⟨by decide, by decide⟩)).2.2.1,
    (InlineThreadCallback_backend_missing exampleAcquisition exampleCudaConfig exampleFdk 0
      (exampleShared 7 false) (lockstepSchedule 4) (Or.inl ⟨by decide, by decide⟩)).2.2.2.1⟩

end backend

/-! ## Lock held during the updates -/

section lock
variable {V : Type}

theorem updatesUnderLock_append (held : Bool) (t1 t2 : List (Event V)) :
    updatesUnderLock held (t1 ++ t2)
      = (updatesUnderLock held t1 && updatesUnderLock (lockHeldAfter held t1) t2) := by
  induction t1 generalizing held with
  | nil => simp [updatesUnderLock, lockHeldAfter]
  | cons e es ih =>
    cases e <;> simp [updatesUnderLock, lockHeldAfter, ih, Bool.and_assoc]

theorem lockHeldAfter_append (held : Bool) (t1 t2 : List (Event V)) :
    lockHeldAfter held (t1 ++ t2) = lockHeldAfter (lockHeldAfter held t1) t2 := by
  induction t1 generalizing held with
  | nil => simp [lockHeldAfter]
  | cons e es ih =>
    cases e <;> simp [lockHeldAfter, ih]

/-- One iteration takes the lock first, runs its updates under it, and releases it only as its
last action; an iteration that goes on to the next one has released it. -/
theorem iteration_lock (cfg : Config) (fdk : FDKRequest → V → V)
    (threadInfo : ThreadInfoStruct) (st : InlineState V) :
    updatesUnderLock false (InlineThreadCallbackIteration cfg fdk threadInfo st).events = true
      ∧ ((InlineThreadCallbackIteration cfg fdk threadInfo st).exited = none →
          lockHeldAfter false (InlineThreadCallbackIteration cfg fdk threadInfo st).events
            = false)
      ∧ (InlineThreadCallbackIteration cfg fdk threadInfo st).events.head? = some Event.Lock
      ∧ Event.Unlock ∉ (InlineThreadCallbackIteration cfg fdk threadInfo st).events.dropLast := by
  by_cases h : st.geometry.length < threadInfo.nproj
  · by_cases hp : threadInfo.nproj = st.geometry.length + 1
    · by_cases h3 : st.geometry.length + 1 < 3
      · rw [iteration_wait cfg fdk threadInfo st hp h3]
        simp [updatesUnderLock, lockHeldAfter]
      · have h3' : 3 ≤ st.geometry.length + 1 := not_lt.mp h3
        cases hs : threadInfo.stop <;> cases hsel : backendSelected cfg
        · rw [iteration_ordinary_unselected cfg fdk threadInfo st hp h3' hs hsel]
          simp [updatesUnderLock, lockHeldAfter]
        · rw [iteration_ordinary cfg fdk threadInfo st hp h3' hs hsel]
          simp [updatesUnderLock, lockHeldAfter]
        · rw [iteration_last_unselected cfg fdk threadInfo st hp h3' hs hsel]
          simp [updatesUnderLock, lockHeldAfter]
        · rw [iteration_last cfg fdk threadInfo st hp h3' hs hsel]
          simp [updatesUnderLock, lockHeldAfter]
    · rw [iteration_abort cfg fdk threadInfo st h hp]
      simp [updatesUnderLock, lockHeldAfter]
  · rw [iteration_idle cfg fdk threadInfo st (not_lt.mp h)]
    simp [updatesUnderLock, lockHeldAfter]

theorem LockInv_init (cfg : Config) (constantImage : V) (garbage : ThreadInfoStruct) :
    LockInv (InlineSystem.init cfg constantImage garbage) := by
  unfold LockInv InlineSystem.init InlineThreadCallbackSetup
  simp only
  split_ifs <;> simp [updatesUnderLock, lockHeldAfter]

theorem LockInv_step (acq : Acquisition) (cfg : Config) (fdk : FDKRequest → V → V)
    (s : InlineSystem V) (a : Action) (h : LockInv s) :
    LockInv (InlineSystem.step acq cfg fdk s a) := by
  cases a with
  | publish =>
    unfold InlineSystem.step
    simp only
    split_ifs
    · exact h
    · cases AcquisitionPublish acq s.i <;> exact h
    · exact h
  | consume =>
    unfold InlineSystem.step
    simp only
    split_ifs with hx
    · exact h
    · have hex : s.exited = none := by
        cases he : s.exited with
        | none => rfl
        | some c => simp [he] at hx
      obtain ⟨h1, h2⟩ := h
      obtain ⟨c1, c2, _, _⟩ := iteration_lock cfg fdk s.threadInfo s.consumer
      have h2' := h2 hex
      refine ⟨?_, ?_⟩
      · simp only [updatesUnderLock_append, h1, h2', c1, Bool.and_self]
      · intro hnone
        simp only [lockHeldAfter_append, h2']
        exact c2 hnone

theorem LockInv_run (acq : Acquisition) (cfg : Config) (fdk : FDKRequest → V → V)
    (schedule : List Action) (s : InlineSystem V) (h : LockInv s) :
    LockInv (InlineSystem.run acq cfg fdk s schedule) := by
  induction schedule generalizing s with
  | nil => exact h
  | cons a as ih => exact ih _ (LockInv_step acq cfg fdk s a h)

/-- Claim C14 as stated fails. In the iteration that brings the local count to `3` (cpu backend)
the trace is `Lock`, `Update` for index `1`, `Unlock`: the update is executed while the
reconstruction thread holds the lock. -/
theorem InlineThreadCallback_update_outside_lock_counterexample :
    updateIndices (InlineThreadCallbackIteration exampleConfig exampleFdk (exampleShared 3 false)
        (exampleState 2 0)).events = [1]
      ∧ updatesOutsideLock false (InlineThreadCallbackIteration exampleConfig exampleFdk
          (exampleShared 3 false) (exampleState 2 0)).events = false
      ∧ updatesUnderLock false (InlineThreadCallbackIteration exampleConfig exampleFdk
          (exampleShared 3 false) (exampleState 2 0)).events = true := by
  decide

/-- Claim C14, amended. Every reconstruction update of `InlineThreadCallback` is executed while
the reconstruction thread holds the shared lock, whatever the interleaving of the two threads:
each loop iteration takes the lock as its first action and releases it only as its last action,
after the updates of that iteration (an iteration that terminates the process does not release
it). -/
theorem InlineThreadCallback_updates_under_lock (acq : Acquisition) (cfg : Config)
    (fdk : FDKRequest → V → V) (constantImage : V) (garbage : ThreadInfoStruct)
    (schedule : List Action) (threadInfo : ThreadInfoStruct) (st : InlineState V) :
    updatesUnderLock false
        (InlineSystem.run acq cfg fdk (InlineSystem.init cfg constantImage garbage)
          schedule).trace = true
      ∧ (InlineThreadCallbackIteration cfg fdk threadInfo st).events.head? = some Event.Lock
      ∧ Event.Unlock ∉ (InlineThreadCallbackIteration cfg fdk threadInfo st).events.dropLast
      ∧ updatesUnderLock false (InlineThreadCallbackIteration cfg fdk threadInfo st).events
          = true := by
  obtain ⟨c1, _, c3, c4⟩ := iteration_lock cfg fdk threadInfo st
  exact ⟨(LockInv_run acq cfg fdk schedule _ (LockInv_init cfg constantImage garbage)).1,
    c3, c4, c1⟩

end lock

/-! ## `rtkfdk` with a backend missing from the build -/

/-- Claim C12 as stated fails. With `--hardware cuda`, without `--lowmem`, on a binary built
without cuda, `main` returns `EXIT_FAILURE` after `reader->Update()` has read the projection
data. -/
theorem rtkfdkMain_backend_missing_counterexample :
    (exampleRtkfdkArgs.hardware_arg = "cuda" ∧ exampleRtkfdkArgs.CUDA_FOUND = false)
      ∧ (rtkfdkMain exampleRtkfdkArgs).status = ExitCode.EXIT_FAILURE
      ∧ FdkEvent.ReadProjections ∈ (rtkfdkMain exampleRtkfdkArgs).events := by
  decide

/-- Claim C12, amended. When the requested backend (`cuda` or `opencl`) was not compiled in,
`main` of `rtkfdk` returns `EXIT_FAILURE` before any filter is configured, before the
reconstruction is run and before any output is written; by then the file names were expanded,
the projection information and the geometry file were read, and the projection data were read
too unless `--lowmem` was given. -/
theorem rtkfdkMain_backend_missing (args : RtkfdkArgs)
    (h : (args.hardware_arg = "cuda" ∧ args.CUDA_FOUND = false)
      ∨ (args.hardware_arg = "opencl" ∧ args.OPENCL_FOUND = false)) :
    (rtkfdkMain args).status = ExitCode.EXIT_FAILURE
      ∧ (rtkfdkMain args).events
          = [FdkEvent.GetFileNames, FdkEvent.ReadProjectionInformation]
              ++ (if args.lowmem_flag then [] else [FdkEvent.ReadProjections])
              ++ [FdkEvent.ReadGeometry]
      ∧ FdkEvent.WriterUpdate ∉ (rtkfdkMain args).events
      ∧ (FdkEvent.ReadProjections ∈ (rtkfdkMain args).events ↔ args.lowmem_flag = false) := by
  have hmain : rtkfdkMain args
      = { events := rtkfdkReadInputs args, pfeldkamp := none,
          status := ExitCode.EXIT_FAILURE } := by
    rcases h with ⟨h1, h2⟩ | ⟨h1, h2⟩
    · simp [rtkfdkMain, h1, h2]
    · simp [rtkfdkMain, h1, h2]
  rw [hmain]
  cases hl : args.lowmem_flag <;> simp [rtkfdkReadInputs, hl]

theorem rtkfdkMain_backend_missing_witness :
    ((exampleRtkfdkArgs.hardware_arg = "cuda" ∧ exampleRtkfdkArgs.CUDA_FOUND = false)
      ∨ (exampleRtkfdkArgs.hardware_arg = "opencl" ∧ exampleRtkfdkArgs.OPENCL_FOUND = false))
    ∧ (rtkfdkMain exampleRtkfdkArgs).status = ExitCode.EXIT_FAILURE
    ∧ FdkEvent.WriterUpdate ∉ (rtkfdkMain exampleRtkfdkArgs).events :=
  ⟨Or.inl ⟨by decide, by decide⟩,
    (rtkfdkMain_backend_missing exampleRtkfdkArgs (Or.inl ⟨by decide, by decide⟩)).1,
    (rtkfdkMain_backend_missing exampleRtkfdkArgs (Or.inl ⟨by decide, by decide⟩)).2.2.1⟩

/-! ## Lock discipline of the acquisition thread -/

theorem heldEvents_append (held : Bool) (t1 t2 : List AcqEvent) :
    heldEvents held (t1 ++ t2)
      = heldEvents held t1 ++ heldEvents (acqLockHeldAfter held t1) t2 := by
  induction t1 generalizing held with
  | nil => simp [heldEvents, acqLockHeldAfter]
  | cons e es ih =>
    cases e <;> cases held <;> simp [heldEvents, acqLockHeldAfter, ih]

theorem freeEvents_append (held : Bool) (t1 t2 : List AcqEvent) :
    freeEvents held (t1 ++ t2)
      = freeEvents held t1 ++ freeEvents (acqLockHeldAfter held t1) t2 := by
  induction t1 generalizing held with
  | nil => simp [freeEvents, acqLockHeldAfter]
  | cons e es ih =>
    cases e <;> cases held <;> simp [freeEvents, acqLockHeldAfter, ih]

theorem lockBalanced_append (held : Bool) (t1 t2 : List AcqEvent) :
    lockBalanced held (t1 ++ t2)
      = (lockBalanced held t1 && lockBalanced (acqLockHeldAfter held t1) t2) := by
  induction t1 generalizing held with
  | nil => simp [lockBalanced, acqLockHeldAfter]
  | cons e es ih =>
    cases e <;> cases held <;> simp [lockBalanced, acqLockHeldAfter, ih]

theorem acqLockHeldAfter_append (held : Bool) (t1 t2 : List AcqEvent) :
    acqLockHeldAfter held (t1 ++ t2) = acqLockHeldAfter (acqLockHeldAfter held t1) t2 := by
  induction t1 generalizing held with
  | nil => simp [acqLockHeldAfter]
  | cons e es ih =>
    cases e <;> simp [acqLockHeldAfter, ih]

/-- The actions that iteration `i` of the loop executes under the mutex. -/
theorem AcquisitionCallbackBody_held (i : Nat) :
    heldEvents false (AcquisitionCallbackBody i)
      = [AcqEvent.Write SharedField.sdd i,
          AcqEvent.Write SharedField.sid i,
          AcqEvent.Write SharedField.gantryAngle i,
          AcqEvent.Write SharedField.sourceOffsetX i,
          AcqEvent.Write SharedField.sourceOffsetY i,
          AcqEvent.Write SharedField.projOffsetX i,
          AcqEvent.Write SharedField.projOffsetY i,
          AcqEvent.Write SharedField.inPlaneAngle i,
          AcqEvent.Write SharedField.outOfPlaneAngle i,
          AcqEvent.Write SharedField.minimumOffsetX i,
          AcqEvent.Write SharedField.maximumOffsetX i,
          AcqEvent.GetFileNames,
          AcqEvent.GetFileNames,
          AcqEvent.Write SharedField.fileName i,
          AcqEvent.Write SharedField.nproj i,
          AcqEvent.Write SharedField.stop i] := by
  simp [AcquisitionCallbackBody, heldEvents]

theorem AcquisitionCallbackBody_lock (i : Nat) :
    freeEvents false (AcquisitionCallbackBody i) = [AcqEvent.Delay 200]
      ∧ lockBalanced false (AcquisitionCallbackBody i) = true
      ∧ acqLockHeldAfter false (AcquisitionCallbackBody i) = false := by
  simp [AcquisitionCallbackBody, freeEvents, lockBalanced, acqLockHeldAfter]

theorem AcquisitionCallbackLoop_lock (k : Nat) :
    ∀ i, freeEvents false (AcquisitionCallbackLoop i k) = List.replicate k (AcqEvent.Delay 200)
      ∧ lockBalanced false (AcquisitionCallbackLoop i k) = true
      ∧ acqLockHeldAfter false (AcquisitionCallbackLoop i k) = false
      ∧ (heldEvents false (AcquisitionCallbackLoop i k)).filter AcqEvent.isDelay = []
      ∧ (heldEvents false (AcquisitionCallbackLoop i k)).filter
          (fun e => !e.isWrite && !decide (e = AcqEvent.GetFileNames)) = [] := by
  induction k with
  | zero =>
    intro i
    simp [AcquisitionCallbackLoop, freeEvents, lockBalanced, acqLockHeldAfter, heldEvents]
  | succ k ih =>
    intro i
    obtain ⟨b1, b2, b3⟩ := AcquisitionCallbackBody_lock i
    obtain ⟨l1, l2, l3, l4, l5⟩ := ih (i + 1)
    simp only [AcquisitionCallbackLoop, freeEvents_append, lockBalanced_append,
      acqLockHeldAfter_append, heldEvents_append, b1, b2, b3, l1, l2, l3, l4, l5,
      List.filter_append, AcquisitionCallbackBody_held]
    refine ⟨?_, by simp, trivial, ?_, ?_⟩
    · simp [List.replicate_succ]
    · simp [AcqEvent.isDelay]
    · simp [AcqEvent.isWrite]

theorem AcquisitionCallbackSetUp_lock (verbose_flag : Bool) :
    freeEvents false (AcquisitionCallbackSetUp verbose_flag) = []
      ∧ lockBalanced false (AcquisitionCallbackSetUp verbose_flag) = true
      ∧ acqLockHeldAfter false (AcquisitionCallbackSetUp verbose_flag) = false
      ∧ heldEvents false (AcquisitionCallbackSetUp verbose_flag)
          = [AcqEvent.SetUpFileNames]
              ++ (if verbose_flag then [AcqEvent.GetFileNames] else [])
              ++ [AcqEvent.ReadGeometry, AcqEvent.ComputeOffsets] := by
  cases verbose_flag <;>
    simp [AcquisitionCallbackSetUp, freeEvents, lockBalanced, acqLockHeldAfter, heldEvents]

/-- Claim C15 as stated fails. For a geometry of one projection (not verbose), the actions that
`AcquisitionCallback` executes while it holds the lock are not all writes of shared fields: the
set-up of the file names, the reading of the geometry file and `computeOffsetsFromGeometry` are
among them. -/
theorem AcquisitionCallback_lock_only_writes_counterexample :
    (heldEvents false (AcquisitionCallbackTrace false 1)).all AcqEvent.isWrite = false
      ∧ AcqEvent.ReadGeometry ∈ heldEvents false (AcquisitionCallbackTrace false 1)
      ∧ AcqEvent.SetUpFileNames ∈ heldEvents false (AcquisitionCallbackTrace false 1)
      ∧ AcqEvent.GetFileNames ∈ heldEvents false (AcquisitionCallbackTrace false 1) := by
  decide

/-- Claim C15, amended. In `AcquisitionCallback` the lock operations alternate and the lock is
released at the end; the only actions executed with the lock released are the 200 ms delays, one
per projection, so every write of a shared field happens between a `Lock` and the matching
`Unlock` and no delay runs under the lock. The lock is held during the whole set-up (configuration
and expansion of the file names, reading of the geometry, computation of the offsets) and, in the
loop, while the shared fields are written, the two `GetFileNames()` calls of the `fileName`
assignment included. -/
theorem AcquisitionCallback_lock_discipline (verbose_flag : Bool) (nproj : Nat) :
    lockBalanced false (AcquisitionCallbackTrace verbose_flag nproj) = true
      ∧ acqLockHeldAfter false (AcquisitionCallbackTrace verbose_flag nproj) = false
      ∧ freeEvents false (AcquisitionCallbackTrace verbose_flag nproj)
          = List.replicate nproj (AcqEvent.Delay 200)
      ∧ (heldEvents false (AcquisitionCallbackTrace verbose_flag nproj)).filter
          AcqEvent.isDelay = []
      ∧ heldEvents false (AcquisitionCallbackTrace verbose_flag nproj)
          = [AcqEvent.SetUpFileNames]
              ++ (if verbose_flag then [AcqEvent.GetFileNames] else [])
              ++ [AcqEvent.ReadGeometry, AcqEvent.ComputeOffsets]
              ++ heldEvents false (AcquisitionCallbackLoop 0 nproj)
      ∧ (heldEvents false (AcquisitionCallbackLoop 0 nproj)).filter
          (fun e => !e.isWrite && !decide (e = AcqEvent.GetFileNames)) = [] := by
  obtain ⟨s1, s2, s3, s4⟩ := AcquisitionCallbackSetUp_lock verbose_flag
  obtain ⟨l1, l2, l3, l4, l5⟩ := AcquisitionCallbackLoop_lock nproj 0
  simp only [AcquisitionCallbackTrace, freeEvents_append, lockBalanced_append,
    acqLockHeldAfter_append, heldEvents_append, s1, s2, s3, s4, l1, l2, l3, l4, l5,
    List.filter_append]
  refine ⟨by simp, trivial, by simp, ?_, trivial, trivial⟩
  cases verbose_flag <;> simp [AcqEvent.isDelay]

/-! ## The published count and the last flag -/

section count
variable {V : Type}

theorem AcquisitionPublish_fields (acq : Acquisition) (i : Nat) (threadInfo : ThreadInfoStruct)
    (h : AcquisitionPublish acq i = some threadInfo) :
    i < acq.geometry.length ∧ threadInfo.nproj = i + 1
      ∧ threadInfo.stop = (i == acq.geometry.length - 1) := by
  unfold AcquisitionPublish at h
  split at h
  · rename_i r name hr hname
    simp only [Option.some.injEq] at h
    rw [← h]
    have hi : i < acq.geometry.length := by
      by_contra hcon
      rw [List.getElem?_eq_none (not_lt.mp hcon)] at hr
      exact absurd hr (by simp)
    exact ⟨hi, rfl, rfl⟩
  · exact absurd h (by simp)

theorem CountInv_init (acq : Acquisition) (cfg : Config) (constantImage : V)
    (garbage : ThreadInfoStruct) :
    CountInv acq (InlineSystem.init cfg constantImage garbage) := by
  simp [CountInv, InlineSystem.init, mainThreadInfo]

/-- One scheduling step keeps the count invariant; the published count is unchanged or, in a
publication, raised by exactly one. -/
theorem CountInv_step (acq : Acquisition) (cfg : Config) (fdk : FDKRequest → V → V)
    (s : InlineSystem V) (a : Action) (h : CountInv acq s) :
    CountInv acq (InlineSystem.step acq cfg fdk s a)
      ∧ ((InlineSystem.step acq cfg fdk s a).threadInfo.nproj = s.threadInfo.nproj
        ∨ (a = Action.publish
          ∧ (InlineSystem.step acq cfg fdk s a).threadInfo.nproj = s.threadInfo.nproj + 1)) := by
  obtain ⟨h1, h2⟩ := h
  cases a with
  | publish =>
    unfold InlineSystem.step
    simp only
    split_ifs with hx hi
    · exact ⟨⟨h1, h2⟩, Or.inl rfl⟩
    · cases hpub : AcquisitionPublish acq s.i with
      | none => exact ⟨⟨h1, h2⟩, Or.inl rfl⟩
      | some threadInfo =>
        obtain ⟨_, hn, _⟩ := AcquisitionPublish_fields acq s.i threadInfo hpub
        refine ⟨⟨hn, ?_⟩, Or.inr ⟨trivial, ?_⟩⟩
        · show s.i + 1 ≤ acq.geometry.length
          omega
        · show threadInfo.nproj = s.threadInfo.nproj + 1
          omega
    · exact ⟨⟨h1, h2⟩, Or.inl rfl⟩
  | consume =>
    unfold InlineSystem.step
    simp only
    split_ifs
    · exact ⟨⟨h1, h2⟩, Or.inl rfl⟩
    · exact ⟨⟨h1, h2⟩, Or.inl rfl⟩

theorem CountInv_run (acq : Acquisition) (cfg : Config) (fdk : FDKRequest → V → V)
    (schedule : List Action) (s : InlineSystem V) (h : CountInv acq s) :
    CountInv acq (InlineSystem.run acq cfg fdk s schedule) := by
  induction schedule generalizing s with
  | nil => exact h
  | cons a as ih => exact ih _ (CountInv_step acq cfg fdk s a h).1

/-- The acquisition thread alone: after `k` publications its loop counter and the published
count have advanced by `k`. -/
theorem publications_run (acq : Acquisition) (cfg : Config) (fdk : FDKRequest → V → V)
    (hnames : acq.names ≠ []) (k : Nat) :
    ∀ s : InlineSystem V, s.exited = none → s.fault = false → s.i + k ≤ acq.geometry.length →
      s.threadInfo.nproj = s.i →
      (InlineSystem.run acq cfg fdk s (List.replicate k Action.publish)).threadInfo.nproj
        = s.i + k := by
  induction k with
  | zero =>
    intro s _ _ _ hn
    simpa [InlineSystem.run] using hn
  | succ k ih =>
    intro s hex hf hk hn
    obtain ⟨threadInfo, hpub, tn, _⟩ := AcquisitionPublish_some acq s.i hnames (by omega)
    have hstep : InlineSystem.step acq cfg fdk s Action.publish
        = { s with threadInfo := threadInfo, i := s.i + 1 } := by
      have hi : s.i < acq.geometry.length := by omega
      simp [InlineSystem.step, hex, hf, hi, hpub]
    have := ih { s with threadInfo := threadInfo, i := s.i + 1 } hex hf
      (by show s.i + 1 + k ≤ acq.geometry.length; omega) tn
    simp only [List.replicate_succ, InlineSystem.run, List.foldl_cons, hstep] at this ⊢
    rw [this]
    omega

/-- Claim C16. The published count starts at `0`; whatever the interleaving, it equals the loop
counter of `AcquisitionCallback` and never exceeds the number of projections; a scheduling step
leaves it unchanged or, when it is a publication, raises it by exactly one, so it never
decreases; publication `i` (0-based) sets it to `i + 1`; after all the publications of an
acquisition with at least one file name it equals the number of projections of the geometry. -/
theorem AcquisitionCallback_published_count (acq : Acquisition) (cfg : Config)
    (fdk : FDKRequest → V → V) (constantImage : V) (garbage : ThreadInfoStruct)
    (schedule : List Action) (a : Action) :
    (InlineSystem.init cfg constantImage garbage).threadInfo.nproj = 0
      ∧ (InlineSystem.run acq cfg fdk (InlineSystem.init cfg constantImage garbage)
          schedule).threadInfo.nproj
        = (InlineSystem.run acq cfg fdk (InlineSystem.init cfg constantImage garbage) schedule).i
      ∧ (InlineSystem.run acq cfg fdk (InlineSystem.init cfg constantImage garbage)
          schedule).threadInfo.nproj ≤ acq.geometry.length
      ∧ ((InlineSystem.run acq cfg fdk (InlineSystem.init cfg constantImage garbage)
            (schedule ++ [a])).threadInfo.nproj
          = (InlineSystem.run acq cfg fdk (InlineSystem.init cfg constantImage garbage)
              schedule).threadInfo.nproj
        ∨ (a = Action.publish
          ∧ (InlineSystem.run acq cfg fdk (InlineSystem.init cfg constantImage garbage)
              (schedule ++ [a])).threadInfo.nproj
            = (InlineSystem.run acq cfg fdk (InlineSystem.init cfg constantImage garbage)
                schedule).threadInfo.nproj + 1))
      ∧ (∀ i threadInfo, AcquisitionPublish acq i = some threadInfo → threadInfo.nproj = i + 1)
      ∧ (acq.names ≠ [] → backendSelected cfg = true →
          (InlineSystem.run acq cfg fdk (InlineSystem.init cfg constantImage garbage)
            (List.replicate acq.geometry.length Action.publish)).threadInfo.nproj
            = acq.geometry.length) := by
  have hinv := CountInv_run acq cfg fdk schedule _ (CountInv_init acq cfg constantImage garbage)
  have hstep := (CountInv_step acq cfg fdk _ a hinv).2
  have happ : InlineSystem.run acq cfg fdk (InlineSystem.init cfg constantImage garbage)
      (schedule ++ [a])
      = InlineSystem.step acq cfg fdk
          (InlineSystem.run acq cfg fdk (InlineSystem.init cfg constantImage garbage) schedule)
          a := by
    simp [InlineSystem.run, List.foldl_append]
  refine ⟨by simp [InlineSystem.init, mainThreadInfo], hinv.1, ?_, ?_, ?_, ?_⟩
  · rw [hinv.1]
    exact hinv.2
  · rw [happ]
    exact hstep
  · intro i threadInfo h
    exact (AcquisitionPublish_fields acq i threadInfo h).2.1
  · intro hnames hsel
    have h := publications_run acq cfg fdk hnames acq.geometry.length
      (InlineSystem.init cfg constantImage garbage)
      (by simp [InlineSystem.init, setup_selected cfg constantImage hsel])
      (by simp [InlineSystem.init])
      (by simp [InlineSystem.init])
      (by simp [InlineSystem.init, mainThreadInfo])
    rw [h]
    simp [InlineSystem.init]

theorem AcquisitionCallback_published_count_witness :
    (exampleAcquisition.names ≠ [] ∧ backendSelected exampleConfig = true)
      ∧ (InlineSystem.run exampleAcquisition exampleConfig exampleFdk
          (InlineSystem.init exampleConfig 0 (exampleShared 7 false))
          (List.replicate exampleAcquisition.geometry.length Action.publish)).threadInfo.nproj
        = 4
      ∧ (InlineSystem.run exampleAcquisition exampleConfig exampleFdk
          (InlineSystem.init exampleConfig 0 (exampleShared 7 false))
          ([Action.publish, Action.consume] ++ [Action.publish])).threadInfo.nproj = 2 := by
  have h := AcquisitionCallback_published_count exampleAcquisition exampleConfig exampleFdk 0
    (exampleShared 7 false) [Action.publish, Action.consume] Action.publish
  refine ⟨⟨by decide, by decide⟩, h.2.2.2.2.2 (by decide) (by decide), ?_⟩
  rcases h.2.2.2.1 with h1 | ⟨_, h1⟩
  · exact absurd h1 (by decide)
  · rw [h1]
    decide

/-- Claim C17. For an acquisition with at least one file name and every loop counter `i` below
the number `N` of projections, `AcquisitionCallback` publishes record `i`; the stop flag it
publishes is true if and only if `i = N - 1`, so it is false for every earlier record; the flag
and the published count `i + 1` are written in the one critical section of loop iteration `i`. -/
theorem AcquisitionCallback_last_flag (acq : Acquisition) (i : Nat)
    (hi : i < acq.geometry.length) (hnames : acq.names ≠ []) :
    ∃ threadInfo, AcquisitionPublish acq i = some threadInfo
      ∧ (threadInfo.stop = true ↔ i = acq.geometry.length - 1)
      ∧ (i < acq.geometry.length - 1 → threadInfo.stop = false)
      ∧ threadInfo.nproj = i + 1
      ∧ AcqEvent.Write SharedField.nproj i ∈ heldEvents false (AcquisitionCallbackBody i)
      ∧ AcqEvent.Write SharedField.stop i ∈ heldEvents false (AcquisitionCallbackBody i)
      ∧ (AcquisitionCallbackBody i).count AcqEvent.Lock = 1
      ∧ (AcquisitionCallbackBody i).count AcqEvent.Unlock = 1 := by
  obtain ⟨threadInfo, hpub, hn, hs⟩ := AcquisitionPublish_some acq i hnames hi
  refine ⟨threadInfo, hpub, ?_, ?_, hn, ?_, ?_, ?_, ?_⟩
  · rw [hs]
    simp
  · intro hlt
    rw [hs]
    simp only [beq_eq_false_iff_ne, ne_eq]
    omega
  · rw [AcquisitionCallbackBody_held]
    simp
  · rw [AcquisitionCallbackBody_held]
    simp
  · simp [AcquisitionCallbackBody]
  · simp [AcquisitionCallbackBody]

theorem AcquisitionCallback_last_flag_witness :
    (3 < exampleAcquisition.geometry.length ∧ exampleAcquisition.names ≠ [])
      ∧ ∃ threadInfo, AcquisitionPublish exampleAcquisition 3 = some threadInfo
          ∧ threadInfo.stop = true ∧ threadInfo.nproj = 4 := by
  obtain ⟨threadInfo, hpub, hstop, _, hn, _⟩ :=
    AcquisitionCallback_last_flag exampleAcquisition 3 (by decide) (by decide)
  exact ⟨⟨by decide, by decide⟩, threadInfo, hpub, hstop.mpr (by decide), hn⟩

end count

/-! ## Rounding -/

theorem roundHalfEven_floor_le (m : ℚ) : ⌊m⌋ ≤ roundHalfEven m := by
  unfold roundHalfEven
  split_ifs <;> omega

theorem roundHalfEven_le_floor_add_one (m : ℚ) : roundHalfEven m ≤ ⌊m⌋ + 1 := by
  unfold roundHalfEven
  split_ifs <;> omega

theorem le_roundHalfEven {M : ℤ} {m : ℚ} (h : (M : ℚ) ≤ m) : M ≤ roundHalfEven m :=
  le_trans (Int.le_floor.mpr h) (roundHalfEven_floor_le m)

theorem roundHalfEven_le {M : ℤ} {m : ℚ} (h : m ≤ (M : ℚ)) : roundHalfEven m ≤ M := by
  have hf : ⌊m⌋ ≤ M := Int.floor_le_floor h |>.trans (by simp)
  rcases lt_or_eq_of_le hf with hlt | heq
  · have := roundHalfEven_le_floor_add_one m
    omega
  · have hm : m = (M : ℚ) := le_antisymm h (heq ▸ Int.floor_le m)
    subst hm
    unfold roundHalfEven
    simp

theorem roundHalfEven_intCast (N : ℤ) : roundHalfEven (N : ℚ) = N := by
  unfold roundHalfEven
  simp

theorem roundHalfEven_of_floor {m : ℚ} {f : ℤ} (hf : ⌊m⌋ = f) :
    roundHalfEven m =
      if m - f < 1 / 2 then f
      else if 1 / 2 < m - f then f + 1
      else if f % 2 = 0 then f
      else f + 1 := by
  unfold roundHalfEven
  rw [hf]

theorem roundHalfEven_le_odd_iff {n : ℤ} (hn : n % 2 = 1) (m : ℚ) :
    roundHalfEven m ≤ n ↔ m < (n : ℚ) + 1 / 2 := by
  have h1 : (⌊m⌋ : ℚ) ≤ m := Int.floor_le m
  have h2 : m < (⌊m⌋ : ℚ) + 1 := Int.lt_floor_add_one m
  constructor
  · intro h
    by_contra hc
    push_neg at hc
    have hfl : n ≤ ⌊m⌋ := Int.le_floor.mpr (by linarith)
    have hle := roundHalfEven_floor_le m
    have hfn : ⌊m⌋ = n := by omega
    rw [roundHalfEven_of_floor hfn] at h
    split_ifs at h with c1 c2 c3
    · linarith
    · omega
    · omega
    · omega
  · intro h
    have hfl : ⌊m⌋ ≤ n := by
      have : (⌊m⌋ : ℚ) < (n : ℚ) + 1 := by linarith
      have : ⌊m⌋ < n + 1 := by exact_mod_cast this
      omega
    rcases lt_or_eq_of_le hfl with hlt | heq
    · have := roundHalfEven_le_floor_add_one m
      omega
    · rw [roundHalfEven_of_floor heq]
      rw [if_pos (by linarith)]

theorem log_two_eq {x : ℚ} {k : ℤ} (hx : 0 < x) (h1 : (2 : ℚ) ^ k ≤ x)
    (h2 : x < (2 : ℚ) ^ (k + 1)) : Int.log 2 x = k := by
  have a : k ≤ Int.log 2 x := by
    rw [← Int.zpow_le_iff_le_log (by norm_num) hx]
    simpa using h1
  have b : Int.log 2 x < k + 1 := by
    rw [← Int.lt_zpow_iff_log_lt (by norm_num) hx]
    simpa using h2
  omega

theorem zpow_log_two_le {x : ℚ} (hx : 0 < x) : (2 : ℚ) ^ Int.log 2 x ≤ x := by
  simpa using @Int.zpow_log_le_self ℚ _ _ 2 x (by norm_num) hx

theorem lt_zpow_log_two_succ (x : ℚ) : x < (2 : ℚ) ^ (Int.log 2 x + 1) := by
  simpa using @Int.lt_zpow_succ_log_self ℚ _ _ 2 (by norm_num) x

/-- The absolute value of a rounded number is the rounded multiple of the unit in the last
place. -/
theorem roundNearestEven_abs (precision : ℕ) (emin : ℤ) (x : ℚ) :
    |roundNearestEven precision emin x|
      = roundHalfEven (|x| / 2 ^ (max (Int.log 2 |x|) emin - ((precision : ℤ) - 1)))
          * 2 ^ (max (Int.log 2 |x|) emin - ((precision : ℤ) - 1)) := by
  have hu : (0 : ℚ) < 2 ^ (max (Int.log 2 |x|) emin - ((precision : ℤ) - 1)) := by positivity
  have hr : (0 : ℤ) ≤
      roundHalfEven (|x| / 2 ^ (max (Int.log 2 |x|) emin - ((precision : ℤ) - 1))) := by
    apply le_roundHalfEven
    have : (0 : ℚ) ≤ |x| / 2 ^ (max (Int.log 2 |x|) emin - ((precision : ℤ) - 1)) := by
      positivity
    simpa using this
  have hr' : (0 : ℚ) ≤
      (roundHalfEven (|x| / 2 ^ (max (Int.log 2 |x|) emin - ((precision : ℤ) - 1))) : ℚ) := by
    exact_mod_cast hr
  unfold roundNearestEven
  by_cases hx : x = 0
  · subst hx
    simp [roundHalfEven]
  · rw [if_neg hx]
    rw [abs_mul, abs_mul, abs_of_pos hu, abs_of_nonneg hr']
    split_ifs <;> simp

theorem roundNearestEven_zero (precision : ℕ) (emin : ℤ) :
    roundNearestEven precision emin 0 = 0 := by
  simp [roundNearestEven]

theorem roundNearestEven_neg (precision : ℕ) (emin : ℤ) (x : ℚ) :
    roundNearestEven precision emin (-x) = -roundNearestEven precision emin x := by
  unfold roundNearestEven
  by_cases hx : x = 0
  · subst hx
    simp
  · have hx' : -x ≠ 0 := neg_ne_zero.mpr hx
    rw [if_neg hx, if_neg hx', abs_neg]
    rcases lt_or_gt_of_ne hx with h | h
    · have h1 : ¬ (-x < 0) := by linarith
      rw [if_pos h, if_neg h1]
      ring
    · have h1 : -x < 0 := by linarith
      have h2 : ¬ (x < 0) := by linarith
      rw [if_pos h1, if_neg h2]
      ring

theorem two_zpow_eq_intCast {j : ℤ} (hj : 0 ≤ j) : (2 : ℚ) ^ j = ((2 ^ j.toNat : ℤ) : ℚ) := by
  obtain ⟨n, rfl⟩ := Int.eq_ofNat_of_zero_le hj
  simp

theorem CheckGeometries.abs_round_le_iff (d : ℚ) :
    |roundNearestEven 53 (-1022) d| ≤ CheckGeometries.e
      ↔ |d| < CheckGeometries.e + 1 / 2 ^ 87 := by
  rw [roundNearestEven_abs]
  unfold CheckGeometries.e
  by_cases hd : d = 0
  · subst hd
    simp only [abs_zero, zero_div]
    rw [show roundHalfEven 0 = 0 from roundHalfEven_intCast 0]
    norm_num
  have ha : 0 < |d| := abs_pos.mpr hd
  generalize |d| = a at ha
  have hk1 := zpow_log_two_le ha
  have hk2 := lt_zpow_log_two_succ a
  generalize Int.log 2 a = k at hk1 hk2
  have hcast : ((53 : ℕ) : ℤ) - 1 = 52 := by norm_num
  rw [hcast]
  rcases lt_trichotomy k (-34) with hlt | heq | hgt
  · have ha34 : a < (2 : ℚ) ^ (-34 : ℤ) :=
      lt_of_lt_of_le hk2 (zpow_le_zpow_right₀ (by norm_num) (by omega))
    have hq : max k (-1022) - 52 ≤ -87 := by
      have : max k (-1022) ≤ -35 := max_le (by omega) (by norm_num)
      omega
    generalize max k (-1022) - 52 = q at hq
    have hu : (0 : ℚ) < 2 ^ q := by positivity
    have hj : (0 : ℤ) ≤ -34 - q := by omega
    have hsplit : (2 : ℚ) ^ (-34 : ℤ) = 2 ^ (-34 - q) * 2 ^ q := by
      rw [← zpow_add₀ (by norm_num : (2 : ℚ) ≠ 0)]
      congr 1
      ring
    have hm : a / 2 ^ q ≤ (((2 : ℤ) ^ (-34 - q).toNat : ℤ) : ℚ) := by
      rw [← two_zpow_eq_intCast hj, div_le_iff₀ hu, ← hsplit]
      exact le_of_lt ha34
    have hr := roundHalfEven_le hm
    have hr' : (roundHalfEven (a / 2 ^ q) : ℚ) ≤ (2 : ℚ) ^ (-34 - q) := by
      rw [two_zpow_eq_intCast hj]
      exact_mod_cast hr
    have hle : (roundHalfEven (a / 2 ^ q) : ℚ) * 2 ^ q ≤ (2 : ℚ) ^ (-34 : ℤ) := by
      rw [hsplit]
      exact mul_le_mul_of_nonneg_right hr' (le_of_lt hu)
    have he : (2 : ℚ) ^ (-34 : ℤ) ≤ 7737125245533627 / 2 ^ 86 := by norm_num
    have hpos : (0 : ℚ) < 1 / 2 ^ 87 := by positivity
    constructor
    · intro _
      exact lt_of_lt_of_le ha34 (le_trans he (le_of_lt (lt_add_of_pos_right _ hpos)))
    · intro _
      exact le_trans hle he
  · subst heq
    have hmax : max (-34 : ℤ) (-1022) - 52 = -86 := by norm_num
    rw [hmax]
    have hodd : (7737125245533627 : ℤ) % 2 = 1 := by norm_num
    have key := roundHalfEven_le_odd_iff hodd (a / 2 ^ (-86 : ℤ))
    have h1 : (roundHalfEven (a / 2 ^ (-86 : ℤ)) : ℚ) * 2 ^ (-86 : ℤ) ≤ 7737125245533627 / 2 ^ 86
        ↔ roundHalfEven (a / 2 ^ (-86 : ℤ)) ≤ 7737125245533627 := by
      have hz : (2 : ℚ) ^ (-86 : ℤ) = 1 / 2 ^ 86 := by norm_num
      rw [hz]
      constructor
      · intro h
        have : (roundHalfEven (a / (1 / 2 ^ 86)) : ℚ) ≤ 7737125245533627 := by
          have hp : (0 : ℚ) < 2 ^ 86 := by positivity
          have := mul_le_mul_of_nonneg_right h (le_of_lt hp)
          norm_num at this ⊢
          linarith
        exact_mod_cast this
      · intro h
        have : (roundHalfEven (a / (1 / 2 ^ 86)) : ℚ) ≤ 7737125245533627 := by exact_mod_cast h
        have hp : (0 : ℚ) ≤ 1 / 2 ^ 86 := by positivity
        have := mul_le_mul_of_nonneg_right this hp
        linarith
    rw [h1, key]
    have hz : (2 : ℚ) ^ (-86 : ℤ) = 1 / 2 ^ 86 := by norm_num
    rw [hz]
    constructor
    · intro h
      have hp : (0 : ℚ) < 1 / 2 ^ 86 := by positivity
      rw [div_lt_iff₀ hp] at h
      norm_num at h ⊢
      linarith
    · intro h
      have hp : (0 : ℚ) < 1 / 2 ^ 86 := by positivity
      rw [div_lt_iff₀ hp]
      norm_num at h ⊢
      linarith
  · have hmax : max k (-1022) = k := max_eq_left (by omega)
    rw [hmax]
    have hu : (0 : ℚ) < 2 ^ (k - 52) := by positivity
    have ha33 : (2 : ℚ) ^ (-33 : ℤ) ≤ 2 ^ k := zpow_le_zpow_right₀ (by norm_num) (by omega)
    have hsplit : (2 : ℚ) ^ k = 2 ^ (52 : ℤ) * 2 ^ (k - 52) := by
      rw [← zpow_add₀ (by norm_num : (2 : ℚ) ≠ 0)]
      congr 1
      ring
    have hm : (((2 : ℤ) ^ 52 : ℤ) : ℚ) ≤ a / 2 ^ (k - 52) := by
      rw [le_div_iff₀ hu]
      have : (((2 : ℤ) ^ 52 : ℤ) : ℚ) = (2 : ℚ) ^ (52 : ℤ) := by norm_num
      rw [this, ← hsplit]
      exact hk1
    have hr := le_roundHalfEven hm
    have hr' : (2 : ℚ) ^ (52 : ℤ) ≤ (roundHalfEven (a / 2 ^ (k - 52)) : ℚ) := by
      have : (((2 : ℤ) ^ 52 : ℤ) : ℚ) ≤ (roundHalfEven (a / 2 ^ (k - 52)) : ℚ) := by
        exact_mod_cast hr
      have h2 : (((2 : ℤ) ^ 52 : ℤ) : ℚ) = (2 : ℚ) ^ (52 : ℤ) := by norm_num
      rw [← h2]
      exact this
    have hge : (2 : ℚ) ^ k ≤ (roundHalfEven (a / 2 ^ (k - 52)) : ℚ) * 2 ^ (k - 52) := by
      rw [hsplit]
      exact mul_le_mul_of_nonneg_right hr' (le_of_lt hu)
    have he : (7737125245533627 / 2 ^ 86 + 1 / 2 ^ 87 : ℚ) < 2 ^ (-33 : ℤ) := by norm_num
    have he' : (7737125245533627 / 2 ^ 86 : ℚ) < 2 ^ (-33 : ℤ) := by norm_num
    constructor
    · intro h
      exact absurd (le_trans ha33 (le_trans hge h)) (not_le.mpr he')
    · intro h
      exact absurd (lt_of_le_of_lt (le_trans ha33 hk1) h) (lt_asymm he)

theorem CheckGeometries.e_lt_overflow : CheckGeometries.e < (2 : ℚ) ^ (binary64.emax + 1) := by
  unfold CheckGeometries.e binary64
  norm_num

theorem CheckGeometries.exceeds_eq_false_iff_round (x y : ℚ) :
    CheckGeometries.exceeds x y = false
      ↔ |roundNearestEven 53 (-1022) (x - y)| ≤ CheckGeometries.e := by
  have he := CheckGeometries.e_lt_overflow
  unfold CheckGeometries.exceeds FloatingPoint.sub BinaryFormat.round
  simp only [show binary64.precision = 53 from rfl, show binary64.emin = -1022 from rfl] at *
  split_ifs with h
  · simp only [FloatingPoint.abs, FloatingPoint.greaterThan, Bool.not_false, Bool.true_eq_false,
      false_iff, not_le]
    exact lt_of_lt_of_le he h
  · simp only [FloatingPoint.abs, FloatingPoint.greaterThan, decide_eq_false_iff_not, not_lt]

theorem CheckGeometries.exceeds_eq_false_iff (x y : ℚ) :
    CheckGeometries.exceeds x y = false ↔ |x - y| < CheckGeometries.e + 1 / 2 ^ 87 := by
  rw [CheckGeometries.exceeds_eq_false_iff_round, CheckGeometries.abs_round_le_iff]

theorem CheckGeometries.exceeds_eq_false_iff_computed (x y : ℚ) :
    CheckGeometries.exceeds x y = false
      ↔ ∃ d, FloatingPoint.sub binary64 (FloatingPoint.finite x) (FloatingPoint.finite y)
            = FloatingPoint.finite d ∧ |d| ≤ CheckGeometries.e := by
  have he := CheckGeometries.e_lt_overflow
  rw [CheckGeometries.exceeds_eq_false_iff_round]
  unfold FloatingPoint.sub BinaryFormat.round
  simp only [show binary64.precision = 53 from rfl, show binary64.emin = -1022 from rfl] at *
  constructor
  · intro h
    refine ⟨roundNearestEven 53 (-1022) (x - y), ?_, h⟩
    rw [if_neg]
    exact not_le.mpr (lt_of_le_of_lt h he)
  · rintro ⟨d, hd, hle⟩
    split_ifs at hd with h
    · injection hd with hd
      rw [hd]
      exact hle

theorem roundNearestEven_of_log (precision : ℕ) (emin : ℤ) {x : ℚ} {k : ℤ} (hx : x ≠ 0)
    (h1 : (2 : ℚ) ^ k ≤ |x|) (h2 : |x| < (2 : ℚ) ^ (k + 1)) :
    roundNearestEven precision emin x
      = (if x < 0 then -1 else 1)
          * roundHalfEven (|x| / 2 ^ (max k emin - ((precision : ℤ) - 1)))
          * 2 ^ (max k emin - ((precision : ℤ) - 1)) := by
  unfold roundNearestEven
  rw [if_neg hx, log_two_eq (abs_pos.mpr hx) h1 h2]

/-- A number `N * 2^q` with `|N| < 2^precision` and `q` not below the exponent of the least
subnormal number is a number of the format: rounding leaves it unchanged. -/
theorem roundNearestEven_eq_self (precision : ℕ) (emin : ℤ) (N q : ℤ)
    (hN : |N| < 2 ^ precision) (hq : emin - ((precision : ℤ) - 1) ≤ q) :
    roundNearestEven precision emin ((N : ℚ) * 2 ^ q) = (N : ℚ) * 2 ^ q := by
  by_cases hN0 : N = 0
  · subst hN0
    simp [roundNearestEven]
  have h2q : (0 : ℚ) < 2 ^ q := by positivity
  have hNq : (N : ℚ) ≠ 0 := by exact_mod_cast hN0
  have hx : (N : ℚ) * 2 ^ q ≠ 0 := mul_ne_zero hNq (ne_of_gt h2q)
  have habs : |(N : ℚ) * 2 ^ q| = ((|N| : ℤ) : ℚ) * 2 ^ q := by
    rw [abs_mul, abs_of_pos h2q, Int.cast_abs]
  have hlt : |(N : ℚ) * 2 ^ q| < (2 : ℚ) ^ ((precision : ℤ) + q) := by
    rw [habs, zpow_add₀ (by norm_num : (2 : ℚ) ≠ 0)]
    apply mul_lt_mul_of_pos_right _ h2q
    have : ((|N| : ℤ) : ℚ) < ((2 ^ precision : ℤ) : ℚ) := by exact_mod_cast hN
    simpa using this
  have hlog : Int.log 2 |(N : ℚ) * 2 ^ q| < (precision : ℤ) + q := by
    rw [← Int.lt_zpow_iff_log_lt (by norm_num) (abs_pos.mpr hx)]
    simpa using hlt
  unfold roundNearestEven
  rw [if_neg hx]
  have hq' : max (Int.log 2 |(N : ℚ) * 2 ^ q|) emin - ((precision : ℤ) - 1) ≤ q := by
    have : max (Int.log 2 |(N : ℚ) * 2 ^ q|) emin ≤ q + ((precision : ℤ) - 1) :=
      max_le (by omega) (by omega)
    omega
  generalize max (Int.log 2 |(N : ℚ) * 2 ^ q|) emin - ((precision : ℤ) - 1) = u at hq'
  have hj : (0 : ℤ) ≤ q - u := by omega
  have hsplit : (2 : ℚ) ^ q = 2 ^ (q - u) * 2 ^ u := by
    rw [← zpow_add₀ (by norm_num : (2 : ℚ) ≠ 0)]
    congr 1
    ring
  have hu : (0 : ℚ) < 2 ^ u := by positivity
  have hm : |(N : ℚ) * 2 ^ q| / 2 ^ u = ((|N| * 2 ^ (q - u).toNat : ℤ) : ℚ) := by
    rw [habs, hsplit, two_zpow_eq_intCast hj]
    field_simp
    ring
  rw [hm, roundHalfEven_intCast]
  have hsign : (if (N : ℚ) * 2 ^ q < 0 then (-1 : ℚ) else 1) * ((|N| : ℤ) : ℚ) = (N : ℚ) := by
    by_cases hneg : N < 0
    · have : (N : ℚ) * 2 ^ q < 0 := mul_neg_of_neg_of_pos (by exact_mod_cast hneg) h2q
      rw [if_pos this, abs_of_neg hneg]
      push_cast
      ring
    · have hnn : 0 ≤ N := not_lt.mp hneg
      have : ¬ ((N : ℚ) * 2 ^ q < 0) := by
        have : (0 : ℚ) ≤ (N : ℚ) * 2 ^ q :=
          mul_nonneg (by exact_mod_cast hnn) (le_of_lt h2q)
        exact not_lt.mpr this
      rw [if_neg this, abs_of_nonneg hnn]
      ring
  have hcast : ((|N| * 2 ^ (q - u).toNat : ℤ) : ℚ) = ((|N| : ℤ) : ℚ) * 2 ^ (q - u) := by
    rw [two_zpow_eq_intCast hj]
    push_cast
    ring
  rw [hcast]
  calc (if (N : ℚ) * 2 ^ q < 0 then (-1 : ℚ) else 1) * (((|N| : ℤ) : ℚ) * 2 ^ (q - u)) * 2 ^ u
      = ((if (N : ℚ) * 2 ^ q < 0 then (-1 : ℚ) else 1) * ((|N| : ℤ) : ℚ))
          * (2 ^ (q - u) * 2 ^ u) := by ring
    _ = (N : ℚ) * 2 ^ q := by rw [hsign, ← hsplit]

/-- A number of a format is the value the format gives to it. -/
theorem BinaryFormat.round_eq_self (f : BinaryFormat) (N q : ℤ)
    (hN : |N| < 2 ^ f.precision) (hq : f.emin - ((f.precision : ℤ) - 1) ≤ q)
    (hmax : |(N : ℚ) * 2 ^ q| < 2 ^ (f.emax + 1)) :
    f.round ((N : ℚ) * 2 ^ q) = FloatingPoint.finite ((N : ℚ) * 2 ^ q) := by
  unfold BinaryFormat.round
  rw [roundNearestEven_eq_self f.precision f.emin N q hN hq, if_neg (not_le.mpr hmax)]

theorem roundHalfEven_of_close {m : ℚ} {N : ℤ} (h : |m - (N : ℚ)| < 1 / 2) :
    roundHalfEven m = N := by
  rw [abs_lt] at h
  rcases le_or_lt (N : ℚ) m with hle | hlt
  · have hf : ⌊m⌋ = N := by
      rw [Int.floor_eq_iff]
      constructor
      · exact hle
      · linarith
    rw [roundHalfEven_of_floor hf, if_pos (by linarith)]
  · have hf : ⌊m⌋ = N - 1 := by
      rw [Int.floor_eq_iff]
      push_cast
      constructor
      · linarith
      · linarith
    rw [roundHalfEven_of_floor hf]
    push_cast
    rw [if_neg (by linarith), if_pos (by linarith)]
    ring

/-- The rounding of a positive number from its binade, the unit in the last place and the nearest
multiple of the unit. -/
theorem roundNearestEven_of_close (precision : ℕ) (emin : ℤ) {x : ℚ} {k q N : ℤ} (hx : 0 < x)
    (h1 : (2 : ℚ) ^ k ≤ x) (h2 : x < (2 : ℚ) ^ (k + 1))
    (hq : max k emin - ((precision : ℤ) - 1) = q) (hN : |x / 2 ^ q - (N : ℚ)| < 1 / 2) :
    roundNearestEven precision emin x = (N : ℚ) * 2 ^ q := by
  have habs : |x| = x := abs_of_pos hx
  rw [roundNearestEven_of_log precision emin (ne_of_gt hx) (by rwa [habs]) (by rwa [habs]),
    habs, hq, roundHalfEven_of_close hN, if_neg (not_lt.mpr (le_of_lt hx))]
  ring

/-- The rounding of a positive number that lies half-way between two numbers of the format. -/
theorem roundNearestEven_of_tie (precision : ℕ) (emin : ℤ) {x : ℚ} {k q N : ℤ} (hx : 0 < x)
    (h1 : (2 : ℚ) ^ k ≤ x) (h2 : x < (2 : ℚ) ^ (k + 1))
    (hq : max k emin - ((precision : ℤ) - 1) = q) (hN : x / 2 ^ q = (N : ℚ) - 1 / 2)
    (heven : N % 2 = 0) :
    roundNearestEven precision emin x = (N : ℚ) * 2 ^ q := by
  have habs : |x| = x := abs_of_pos hx
  have hf : ⌊x / 2 ^ q⌋ = N - 1 := by
    rw [Int.floor_eq_iff, hN]
    push_cast
    constructor <;> linarith
  have hr : roundHalfEven (x / 2 ^ q) = N := by
    rw [roundHalfEven_of_floor hf, hN]
    push_cast
    rw [if_neg (by linarith), if_neg (by linarith), if_neg (by omega)]
    ring
  rw [roundNearestEven_of_log precision emin (ne_of_gt hx) (by rwa [habs]) (by rwa [habs]),
    habs, hq, hr, if_neg (not_lt.mpr (le_of_lt hx))]
  ring

theorem BinaryFormat.round_of_eq (f : BinaryFormat) {v : ℚ} (N q : ℤ)
    (hv : v = (N : ℚ) * 2 ^ q) (hN : |N| < 2 ^ f.precision)
    (hq : f.emin - ((f.precision : ℤ) - 1) ≤ q) (hmax : |v| < 2 ^ (f.emax + 1)) :
    f.round v = FloatingPoint.finite v := by
  subst hv
  exact BinaryFormat.round_eq_self f N q hN hq hmax

/-! ## The literals of `main` in `rtkrampfiltertest.cxx` -/

theorem doubleLiteral_0_13 : doubleLiteral 0.13 = 4683743612465316 / 2 ^ 55 := by
  unfold doubleLiteral
  have h := @roundNearestEven_of_close 53 (-1022) (0.13 : ℚ) (-3) (-55) 4683743612465316
    (by norm_num) (by norm_num) (by norm_num) (by decide) (by norm_num [abs_lt])
  simp only [show binary64.precision = 53 from rfl, show binary64.emin = -1022 from rfl]
  rw [h]
  norm_num

theorem doubleLiteral_0_05 : doubleLiteral 0.05 = 7205759403792794 / 2 ^ 57 := by
  unfold doubleLiteral
  have h := @roundNearestEven_of_close 53 (-1022) (0.05 : ℚ) (-5) (-57) 7205759403792794
    (by norm_num) (by norm_num) (by norm_num) (by decide) (by norm_num [abs_lt])
  simp only [show binary64.precision = 53 from rfl, show binary64.emin = -1022 from rfl]
  rw [h]
  norm_num

/-! ## Values of the two formats -/

theorem binary64_round_intCast (N : ℤ) (hN : |N| < 2 ^ 53) :
    binary64.round (N : ℚ) = FloatingPoint.finite (N : ℚ) := by
  have h := BinaryFormat.round_eq_self binary64 N 0 hN (by simp [binary64])
    (by
      have h1 : ((|N| : ℤ) : ℚ) < ((2 ^ 53 : ℤ) : ℚ) := by exact_mod_cast hN
      have h2 : |(N : ℚ)| < 2 ^ 53 := by
        have : |(N : ℚ)| = ((|N| : ℤ) : ℚ) := by push_cast; rfl
        rw [this]
        exact_mod_cast h1
      simp only [zpow_zero, mul_one, binary64]
      exact lt_trans h2 (by norm_num))
  simpa using h

theorem binary32_round_intCast (N : ℤ) (hN : |N| < 2 ^ 24) :
    binary32.round (N : ℚ) = FloatingPoint.finite (N : ℚ) := by
  have h := BinaryFormat.round_eq_self binary32 N 0 hN (by simp [binary32])
    (by
      have h1 : ((|N| : ℤ) : ℚ) < ((2 ^ 24 : ℤ) : ℚ) := by exact_mod_cast hN
      have h2 : |(N : ℚ)| < 2 ^ 24 := by
        have : |(N : ℚ)| = ((|N| : ℤ) : ℚ) := by push_cast; rfl
        rw [this]
        exact_mod_cast h1
      simp only [zpow_zero, mul_one, binary32]
      exact lt_trans h2 (by norm_num))
  simpa using h

theorem binary64_round_zero : binary64.round 0 = FloatingPoint.finite 0 := by
  simpa using binary64_round_intCast 0 (by norm_num)

theorem binary64_round_one : binary64.round 1 = FloatingPoint.finite 1 := by
  simpa using binary64_round_intCast 1 (by norm_num)

theorem binary32_round_neg_one : binary32.round (-1) = FloatingPoint.finite (-1) := by
  simpa using binary32_round_intCast (-1) (by norm_num)

theorem FloatingPoint.sub_nan (f : BinaryFormat) (x : FloatingPoint) :
    FloatingPoint.sub f x FloatingPoint.nan = FloatingPoint.nan := by
  cases x <;> rfl

theorem FloatingPoint.mul_nan (f : BinaryFormat) (x : FloatingPoint) :
    FloatingPoint.mul f x FloatingPoint.nan = FloatingPoint.nan := by
  cases x <;> rfl

/-! ## The ramp filter test on the example pixels -/

theorem rtkrampfiltertest.sums_examplePixels :
    rtkrampfiltertest.sums 1 2 examplePixels
      = { TestError := FloatingPoint.finite 1, EnerError := FloatingPoint.finite 1, npix := 1 } := by
  have h1 : binary32.round (1 - 2) = FloatingPoint.finite (-1) := by
    rw [show (1 - 2 : ℚ) = -1 by norm_num]
    exact binary32_round_neg_one
  simp [rtkrampfiltertest.sums, rtkrampfiltertest.accumulate, examplePixels,
    FloatingPoint.sub, FloatingPoint.add, FloatingPoint.abs,
    FloatingPoint.square, h1, binary64_round_one]

/-! ## The ramp filter test on the rounded example -/

theorem binary32_round_exampleRounded :
    binary32.round (5033165 / 2 ^ 24 - 13421773 / 2 ^ 27) = FloatingPoint.finite (6710887 / 2 ^ 25) := by
  have h := @roundNearestEven_of_tie 24 (-126) (5033165 / 2 ^ 24 - 13421773 / 2 ^ 27 : ℚ)
    (-3) (-26) 13421774
    (by norm_num) (by norm_num) (by norm_num) (by decide) (by norm_num) (by decide)
  unfold BinaryFormat.round
  simp only [show binary32.precision = 24 from rfl, show binary32.emin = -126 from rfl,
    show binary32.emax = 127 from rfl]
  rw [h, if_neg (by norm_num [abs_of_pos])]
  norm_num

theorem rtkrampfiltertest.sums_exampleRoundedPixels :
    rtkrampfiltertest.sums 0 1 exampleRoundedPixels
      = { TestError := FloatingPoint.finite (6710887 / 2 ^ 25),
          EnerError := FloatingPoint.finite (45036004326769 / 2 ^ 50), npix := 1 } := by
  have h2 : binary64.round (6710887 / 2 ^ 25) = FloatingPoint.finite (6710887 / 2 ^ 25) :=
    BinaryFormat.round_of_eq binary64 6710887 (-25) (by norm_num) (by norm_num [binary64])
      (by norm_num [binary64]) (by norm_num [binary64, abs_of_pos])
  have h3 : binary64.round (45036004326769 / 2 ^ 50)
      = FloatingPoint.finite (45036004326769 / 2 ^ 50) :=
    BinaryFormat.round_of_eq binary64 45036004326769 (-50) (by norm_num)
      (by norm_num [binary64]) (by norm_num [binary64]) (by norm_num [binary64, abs_of_pos])
  have h2' : binary64.round (0 + |(6710887 / 2 ^ 25 : ℚ)|)
      = FloatingPoint.finite (6710887 / 2 ^ 25) := by
    rw [show (0 + |(6710887 / 2 ^ 25 : ℚ)| : ℚ) = 6710887 / 2 ^ 25 by norm_num [abs_of_pos]]
    exact h2
  have h3'' : binary64.round ((6710887 / 2 ^ 25 : ℚ) ^ 2)
      = FloatingPoint.finite (45036004326769 / 2 ^ 50) := by
    rw [show ((6710887 / 2 ^ 25 : ℚ) ^ 2 : ℚ) = 45036004326769 / 2 ^ 50 by norm_num]
    exact h3
  have hc : (13421773 / 2 ^ 27 : ℚ) ≠ 5033165 / 2 ^ 24
      ∧ (5033165 / 2 ^ 24 : ℚ) ≥ 0 ∧ (5033165 / 2 ^ 24 : ℚ) ≤ 1 := by
    norm_num
  unfold rtkrampfiltertest.sums exampleRoundedPixels
  simp only [List.foldl_cons, List.foldl_nil]
  unfold rtkrampfiltertest.accumulate
  rw [if_pos hc]
  simp only [FloatingPoint.sub, binary32_round_exampleRounded, FloatingPoint.abs,
    FloatingPoint.square, h3'', FloatingPoint.add]
  rw [h2']
  have h3z : binary64.round (0 + 45036004326769 / 2 ^ 50)
      = FloatingPoint.finite (45036004326769 / 2 ^ 50) := by
    rw [zero_add]
    exact h3
  rw [h3z]

/-! ## `CheckGeometries` -/

theorem CheckGeometries.unvalid_eq_false (r1 r2 : ProjectionRecord) :
    CheckGeometries.unvalid r1 r2 = false ↔ fieldsWithinTolerance r1 r2 := by
  simp only [CheckGeometries.unvalid, fieldsWithinTolerance, Bool.or_eq_false_iff,
    CheckGeometries.exceeds_eq_false_iff, and_assoc]

theorem CheckGeometries.loop_eq_none (g1 : Geometry) :
    ∀ g2 : Geometry, CheckGeometries.loop g1 g2 = none ↔
      ∀ (i : Nat) (r1 r2 : ProjectionRecord), g1[i]? = some r1 → g2[i]? = some r2 →
        fieldsWithinTolerance r1 r2 := by
  induction g1 with
  | nil =>
    intro g2
    simp [CheckGeometries.loop]
  | cons a g1 ih =>
    intro g2
    cases g2 with
    | nil => simp [CheckGeometries.loop]
    | cons b g2 =>
      simp only [CheckGeometries.loop]
      constructor
      · intro h
        by_cases hu : CheckGeometries.unvalid a b = true
        · simp [hu] at h
        · have hu' : CheckGeometries.unvalid a b = false := by simpa using hu
          simp only [hu', Bool.false_eq_true, if_false] at h
          intro i r1 r2 h1 h2
          cases i with
          | zero =>
            simp only [List.getElem?_cons_zero, Option.some.injEq] at h1 h2
            subst h1 h2
            exact (CheckGeometries.unvalid_eq_false a b).mp hu'
          | succ j =>
            simp only [List.getElem?_cons_succ] at h1 h2
            exact (ih g2).mp h j r1 r2 h1 h2
      · intro h
        have h0 := h 0 a b (by simp) (by simp)
        have hu := (CheckGeometries.unvalid_eq_false a b).mpr h0
        simp only [hu, Bool.false_eq_true, if_false]
        apply (ih g2).mpr
        intro j r1 r2 h1 h2
        exact h (j + 1) r1 r2 (by simpa using h1) (by simpa using h2)

theorem CheckGeometries_eq_none (g1 g2 : Geometry) :
    CheckGeometries g1 g2 = none ↔
      g2.length = g1.length
        ∧ ∀ (i : Nat) (r1 r2 : ProjectionRecord), g1[i]? = some r1 → g2[i]? = some r2 →
            fieldsWithinTolerance r1 r2 := by
  have hloop := CheckGeometries.loop_eq_none g1 g2
  unfold CheckGeometries
  by_cases hlen : g2.length = g1.length
  · simp only [hlen, bne_self_eq_false, Bool.false_eq_true, if_false, true_and]
    exact hloop
  · have hne : (g2.length != g1.length) = true := by simpa using hlen
    simp [hne, hlen]

theorem CheckGeometries.e_eq_doubleLiteral : doubleLiteral (1 / 10 ^ 10) = CheckGeometries.e := by
  unfold doubleLiteral CheckGeometries.e
  have h := @roundNearestEven_of_close 53 (-1022) (1 / 10 ^ 10 : ℚ) (-34) (-86)
    7737125245533627 (by norm_num) (by norm_num) (by norm_num) (by decide)
    (by norm_num [abs_lt])
  simp only [show binary64.precision = 53 from rfl, show binary64.emin = -1022 from rfl]
  rw [h]
  norm_num

/-- Claim C18 as stated fails. On the two geometries of one projection whose detector offsets X
are `1e-10` and `-2^-140`, both of them doubles, and whose other fields agree: the offsets differ
by `1e-10 + 2^-140`, which is more than `1e-10` (the double, and the decimal number too), the
double difference rounds to `1e-10`, and `CheckGeometries` accepts the pair. -/
theorem CheckGeometries_tolerance_counterexample :
    CheckGeometries exampleCloseGeometries.1 exampleCloseGeometries.2 = none
      ∧ exampleCloseGeometries
          = ([exampleRecord (7737125245533627 / 2 ^ 86)], [exampleRecord (-(1 / 2 ^ 140))])
      ∧ (1 / 10 ^ 10 : ℚ) < doubleLiteral (1 / 10 ^ 10)
      ∧ doubleLiteral (1 / 10 ^ 10)
          < |(exampleRecord (7737125245533627 / 2 ^ 86)).projOffsetX
              - (exampleRecord (-(1 / 2 ^ 140))).projOffsetX|
      ∧ binary64.round (7737125245533627 / 2 ^ 86)
          = FloatingPoint.finite (7737125245533627 / 2 ^ 86)
      ∧ binary64.round (-(1 / 2 ^ 140)) = FloatingPoint.finite (-(1 / 2 ^ 140))
      ∧ FloatingPoint.sub binary64 (FloatingPoint.finite (7737125245533627 / 2 ^ 86))
          (FloatingPoint.finite (-(1 / 2 ^ 140)))
          = FloatingPoint.finite (doubleLiteral (1 / 10 ^ 10)) := by
  refine ⟨?_, rfl, ?_, ?_, ?_, ?_, ?_⟩
  · rw [CheckGeometries_eq_none]
    refine ⟨rfl, ?_⟩
    intro i r1 r2 h1 h2
    cases i with
    | zero =>
      simp only [exampleCloseGeometries, List.getElem?_cons_zero, Option.some.injEq] at h1 h2
      subst h1 h2
      unfold fieldsWithinTolerance CheckGeometries.e exampleRecord
      simp only [sub_self, abs_zero]
      refine ⟨by norm_num, by norm_num, by norm_num, by norm_num, by norm_num, by norm_num,
        by norm_num, ?_, by norm_num⟩
      rw [abs_of_pos (by norm_num)]
      norm_num
    | succ j =>
      simp [exampleCloseGeometries] at h1
  · rw [CheckGeometries.e_eq_doubleLiteral]
    unfold CheckGeometries.e
    norm_num
  · rw [CheckGeometries.e_eq_doubleLiteral]
    unfold CheckGeometries.e exampleRecord
    simp only
    rw [abs_of_pos (by norm_num)]
    norm_num
  · exact BinaryFormat.round_of_eq binary64 7737125245533627 (-86) (by norm_num)
      (by norm_num [binary64]) (by norm_num [binary64]) (by norm_num [binary64, abs_of_pos])
  · exact BinaryFormat.round_of_eq binary64 (-1) (-140) (by norm_num)
      (by norm_num [binary64]) (by norm_num [binary64]) (by norm_num [binary64, abs_of_pos])
  · rw [CheckGeometries.e_eq_doubleLiteral]
    unfold CheckGeometries.e
    have h := @roundNearestEven_of_close 53 (-1022)
      (7737125245533627 / 2 ^ 86 - -(1 / 2 ^ 140) : ℚ) (-34) (-86) 7737125245533627
      (by norm_num) (by norm_num) (by norm_num) (by decide) (by norm_num [abs_lt])
    unfold FloatingPoint.sub BinaryFormat.round
    simp only [show binary64.precision = 53 from rfl, show binary64.emin = -1022 from rfl,
      show binary64.emax = 1023 from rfl]
    rw [h, if_neg (by norm_num [abs_of_pos])]
    norm_num

/-- Claim C18, amended. `CheckGeometries` returns (does not exit with failure) if and only if
the two geometries have the same number of projections and, at every projection index, each of
the nine per-projection fields differs by less than `1e-10 + 2^-87`, where `1e-10` is the double
`7737125245533627 / 2^86` nearest to `10^-10` and `2^-87` is half a unit in its last place. Two
numbers differ by less than that if and only if their difference computed in `double` (rounded to
nearest, ties to even) is a number of absolute value at most the double `1e-10`. -/
theorem CheckGeometries_accepts_iff (g1 g2 : Geometry) :
    (CheckGeometries g1 g2 = none ↔
      g2.length = g1.length
        ∧ ∀ (i : Nat) (r1 r2 : ProjectionRecord), g1[i]? = some r1 → g2[i]? = some r2 →
            |r1.gantryAngle - r2.gantryAngle| < 7737125245533627 / 2 ^ 86 + 1 / 2 ^ 87
              ∧ |r1.outOfPlaneAngle - r2.outOfPlaneAngle|
                  < 7737125245533627 / 2 ^ 86 + 1 / 2 ^ 87
              ∧ |r1.inPlaneAngle - r2.inPlaneAngle| < 7737125245533627 / 2 ^ 86 + 1 / 2 ^ 87
              ∧ |r1.sid - r2.sid| < 7737125245533627 / 2 ^ 86 + 1 / 2 ^ 87
              ∧ |r1.sourceOffsetX - r2.sourceOffsetX| < 7737125245533627 / 2 ^ 86 + 1 / 2 ^ 87
              ∧ |r1.sourceOffsetY - r2.sourceOffsetY| < 7737125245533627 / 2 ^ 86 + 1 / 2 ^ 87
              ∧ |r1.sdd - r2.sdd| < 7737125245533627 / 2 ^ 86 + 1 / 2 ^ 87
              ∧ |r1.projOffsetX - r2.projOffsetX| < 7737125245533627 / 2 ^ 86 + 1 / 2 ^ 87
              ∧ |r1.projOffsetY - r2.projOffsetY| < 7737125245533627 / 2 ^ 86 + 1 / 2 ^ 87)
      ∧ (∀ x y : ℚ, |x - y| < 7737125245533627 / 2 ^ 86 + 1 / 2 ^ 87 ↔
          ∃ d, FloatingPoint.sub binary64 (FloatingPoint.finite x) (FloatingPoint.finite y)
              = FloatingPoint.finite d ∧ |d| ≤ doubleLiteral (1 / 10 ^ 10))
      ∧ doubleLiteral (1 / 10 ^ 10) = 7737125245533627 / 2 ^ 86 := by
  refine ⟨?_, ?_, ?_⟩
  · have h := CheckGeometries_eq_none g1 g2
    simp only [fieldsWithinTolerance, CheckGeometries.e] at h
    exact h
  · intro x y
    have h1 := CheckGeometries.exceeds_eq_false_iff x y
    have h2 := CheckGeometries.exceeds_eq_false_iff_computed x y
    rw [CheckGeometries.e_eq_doubleLiteral]
    rw [h1] at h2
    simp only [CheckGeometries.e] at h2 ⊢
    exact h2
  · rw [CheckGeometries.e_eq_doubleLiteral]
    rfl

/-! ## `CheckImageQuality` of the ramp filter test -/

theorem rtkrampfiltertest.CheckImageQuality_cases (log10 : ℚ → ℚ) (pixels : List (ℚ × ℚ))
    (refLowerThreshold refUpperThreshold snrThreshold errorPerPixelThreshold : ℚ) :
    rtkrampfiltertest.CheckImageQuality log10 pixels refLowerThreshold refUpperThreshold
        snrThreshold errorPerPixelThreshold = some ExitCode.EXIT_FAILURE
      ∨ rtkrampfiltertest.CheckImageQuality log10 pixels refLowerThreshold refUpperThreshold
        snrThreshold errorPerPixelThreshold = none := by
  unfold rtkrampfiltertest.CheckImageQuality
  split_ifs <;> simp

theorem FloatingPoint.greaterThan_iff (x : FloatingPoint) (threshold : ℚ) :
    x.greaterThan threshold = true
      ↔ x = FloatingPoint.infinity false ∨ ∃ v, x = FloatingPoint.finite v ∧ v > threshold := by
  cases x with
  | finite a => simp [FloatingPoint.greaterThan]
  | infinity s => cases s <;> simp [FloatingPoint.greaterThan]
  | nan => simp [FloatingPoint.greaterThan]

theorem FloatingPoint.lessThan_iff (x : FloatingPoint) (threshold : ℚ) :
    x.lessThan threshold = true
      ↔ x = FloatingPoint.infinity true ∨ ∃ v, x = FloatingPoint.finite v ∧ v < threshold := by
  cases x with
  | finite a => simp [FloatingPoint.lessThan]
  | infinity s => cases s <;> simp [FloatingPoint.lessThan]
  | nan => simp [FloatingPoint.lessThan]

theorem rtkrampfiltertest.CheckImageQuality_eq_failure (log10 : ℚ → ℚ) (pixels : List (ℚ × ℚ))
    (refLowerThreshold refUpperThreshold snrThreshold errorPerPixelThreshold : ℚ) :
    rtkrampfiltertest.CheckImageQuality log10 pixels refLowerThreshold refUpperThreshold
        snrThreshold errorPerPixelThreshold = some ExitCode.EXIT_FAILURE
      ↔ (rtkrampfiltertest.ErrorPerPixel refLowerThreshold refUpperThreshold
            pixels).greaterThan errorPerPixelThreshold = true
        ∨ (rtkrampfiltertest.PSNR log10 refLowerThreshold refUpperThreshold
            pixels).lessThan snrThreshold = true := by
  unfold rtkrampfiltertest.CheckImageQuality
  split_ifs with h1 h2
  · simp [h1]
  · simp [h2]
  · simp [h1, h2]

theorem rtkrampfiltertest.main_eq_failure (log10 : ℚ → ℚ)
    (hann hannY truncation : List (ℚ × ℚ)) :
    rtkrampfiltertest.main log10 hann hannY truncation = ExitCode.EXIT_FAILURE
      ↔ rtkrampfiltertest.CheckImageQuality log10 hann
            (doubleLiteral 1.05) (doubleLiteral 1.06) 40 (doubleLiteral 0.13)
          = some ExitCode.EXIT_FAILURE
        ∨ rtkrampfiltertest.CheckImageQuality log10 hannY
            (doubleLiteral 1.05) (doubleLiteral 1.06) 40 (doubleLiteral 0.13)
          = some ExitCode.EXIT_FAILURE
        ∨ rtkrampfiltertest.CheckImageQuality log10 truncation
            (doubleLiteral 1.015) (doubleLiteral 1.025) 26 (doubleLiteral 0.05)
          = some ExitCode.EXIT_FAILURE := by
  unfold rtkrampfiltertest.main
  rcases rtkrampfiltertest.CheckImageQuality_cases log10 hann
      (doubleLiteral 1.05) (doubleLiteral 1.06) 40 (doubleLiteral 0.13) with h1 | h1 <;>
    rcases rtkrampfiltertest.CheckImageQuality_cases log10 hannY
      (doubleLiteral 1.05) (doubleLiteral 1.06) 40 (doubleLiteral 0.13) with h2 | h2 <;>
    rcases rtkrampfiltertest.CheckImageQuality_cases log10 truncation
      (doubleLiteral 1.015) (doubleLiteral 1.025) 26 (doubleLiteral 0.05) with h3 | h3 <;>
    simp [h1, h2, h3]

theorem rtkrampfiltertest.ErrorPerPixel_exampleRoundedPixels :
    rtkrampfiltertest.ErrorPerPixel 0 1 exampleRoundedPixels
      = FloatingPoint.finite (6710887 / 2 ^ 25) := by
  have h2 : binary64.round (6710887 / 2 ^ 25) = FloatingPoint.finite (6710887 / 2 ^ 25) :=
    BinaryFormat.round_of_eq binary64 6710887 (-25) (by norm_num) (by norm_num [binary64])
      (by norm_num [binary64]) (by norm_num [binary64, abs_of_pos])
  unfold rtkrampfiltertest.ErrorPerPixel
  rw [rtkrampfiltertest.sums_exampleRoundedPixels]
  simp only [FloatingPoint.divideByUnsigned]
  norm_num
  exact h2

theorem rtkrampfiltertest.ErrorPerPixel_examplePixels :
    rtkrampfiltertest.ErrorPerPixel 1 2 examplePixels = FloatingPoint.finite 1 := by
  unfold rtkrampfiltertest.ErrorPerPixel
  rw [rtkrampfiltertest.sums_examplePixels]
  simp only [FloatingPoint.divideByUnsigned]
  norm_num
  exact binary64_round_one

theorem rtkrampfiltertest.MSE_examplePixels :
    rtkrampfiltertest.MSE 1 2 examplePixels = FloatingPoint.finite 1 := by
  unfold rtkrampfiltertest.MSE
  rw [rtkrampfiltertest.sums_examplePixels]
  simp only [FloatingPoint.divideByUnsigned]
  norm_num
  exact binary64_round_one

theorem FloatingPoint.log10_finite (log10 : ℚ → ℚ) {a : ℚ} (ha : 0 < a) :
    FloatingPoint.log10 log10 (FloatingPoint.finite a) = binary64.round (log10 a) := by
  show (if a < 0 then FloatingPoint.nan
    else if a = 0 then FloatingPoint.infinity true else binary64.round (log10 a)) = _
  rw [if_neg (not_lt.mpr (le_of_lt ha)), if_neg (ne_of_gt ha)]

theorem rtkrampfiltertest.PSNR_examplePixels_zero :
    rtkrampfiltertest.PSNR (fun _ => 0) 1 2 examplePixels = FloatingPoint.finite 0 := by
  unfold rtkrampfiltertest.PSNR
  rw [rtkrampfiltertest.MSE_examplePixels,
    FloatingPoint.log10_finite _ (by norm_num : (0 : ℚ) < 2),
    FloatingPoint.log10_finite _ (by norm_num : (0 : ℚ) < 1)]
  simp only [binary64_round_zero, FloatingPoint.mul, FloatingPoint.sub, mul_zero, sub_zero]

theorem rtkrampfiltertest.PSNR_examplePixels_three :
    rtkrampfiltertest.PSNR (fun x => if x = 2 then 3 else 0) 1 2 examplePixels
      = FloatingPoint.finite 60 := by
  have h3 : binary64.round 3 = FloatingPoint.finite 3 := by
    simpa using binary64_round_intCast 3 (by norm_num)
  have h60 : binary64.round (20 * 3) = FloatingPoint.finite 60 := by
    rw [show (20 * 3 : ℚ) = 60 by norm_num]
    simpa using binary64_round_intCast 60 (by norm_num)
  have h60' : binary64.round (60 - 0) = FloatingPoint.finite 60 := by
    rw [show (60 - 0 : ℚ) = 60 by norm_num]
    simpa using binary64_round_intCast 60 (by norm_num)
  unfold rtkrampfiltertest.PSNR
  rw [rtkrampfiltertest.MSE_examplePixels,
    FloatingPoint.log10_finite _ (by norm_num : (0 : ℚ) < 2),
    FloatingPoint.log10_finite _ (by norm_num : (0 : ℚ) < 1)]
  rw [if_pos rfl, if_neg (by norm_num), h3, binary64_round_zero]
  simp only [FloatingPoint.mul, mul_zero, binary64_round_zero, h60, FloatingPoint.sub, h60']

/-- Claim C19. `CheckImageQuality` of `rtkrampfiltertest.cxx` exits with failure if and only if
the computed error per pixel is greater than `errorPerPixelThreshold` (it is `+∞` or a number
above the threshold) or the computed PSNR is less than `snrThreshold` (it is `-∞` or a number
below the threshold); otherwise it returns; the PSNR is `20*log10(2.0) - 10*log10(MSE)` computed
in `double`. `main` fails if and only if one of its three checks does: the two Hann-window checks
are called with PSNR threshold `40` and error threshold `0.13`, the truncation check with `26` and
`0.05`, the literals `0.13` and `0.05` being the doubles `4683743612465316 / 2^55` and
`7205759403792794 / 2^57`. The values compared are the computed ones: on the floats `0.1f` and
`0.3f` the error per pixel is the float `6710887 / 2^25` to which their difference rounds, so
that the check fails for an error threshold equal to the exact difference `26843547 / 2^27`; and
with error per pixel `1` under the error threshold `2` and PSNR threshold `40`, the check fails
when the PSNR is `0` and returns when it is `60`. -/
theorem rtkrampfiltertest_CheckImageQuality_fails_iff (log10 : ℚ → ℚ)
    (pixels hann hannY truncation : List (ℚ × ℚ))
    (refLowerThreshold refUpperThreshold snrThreshold errorPerPixelThreshold : ℚ) :
    (rtkrampfiltertest.CheckImageQuality log10 pixels refLowerThreshold refUpperThreshold
          snrThreshold errorPerPixelThreshold = some ExitCode.EXIT_FAILURE
        ↔ (rtkrampfiltertest.ErrorPerPixel refLowerThreshold refUpperThreshold pixels
              = FloatingPoint.infinity false
            ∨ ∃ e, rtkrampfiltertest.ErrorPerPixel refLowerThreshold refUpperThreshold pixels
                = FloatingPoint.finite e ∧ e > errorPerPixelThreshold)
          ∨ (rtkrampfiltertest.PSNR log10 refLowerThreshold refUpperThreshold pixels
              = FloatingPoint.infinity true
            ∨ ∃ p, rtkrampfiltertest.PSNR log10 refLowerThreshold refUpperThreshold pixels
                = FloatingPoint.finite p ∧ p < snrThreshold))
      ∧ (rtkrampfiltertest.CheckImageQuality log10 pixels refLowerThreshold refUpperThreshold
            snrThreshold errorPerPixelThreshold = some ExitCode.EXIT_FAILURE
          ∨ rtkrampfiltertest.CheckImageQuality log10 pixels refLowerThreshold
            refUpperThreshold snrThreshold errorPerPixelThreshold = none)
      ∧ rtkrampfiltertest.PSNR log10 refLowerThreshold refUpperThreshold pixels
          = FloatingPoint.sub binary64
              (FloatingPoint.mul binary64 (FloatingPoint.finite 20)
                (FloatingPoint.log10 log10 (FloatingPoint.finite 2)))
              (FloatingPoint.mul binary64 (FloatingPoint.finite 10)
                (FloatingPoint.log10 log10
                  (rtkrampfiltertest.MSE refLowerThreshold refUpperThreshold pixels)))
      ∧ (rtkrampfiltertest.main log10 hann hannY truncation = ExitCode.EXIT_FAILURE
          ↔ rtkrampfiltertest.CheckImageQuality log10 hann
                (doubleLiteral 1.05) (doubleLiteral 1.06) 40 (doubleLiteral 0.13)
              = some ExitCode.EXIT_FAILURE
            ∨ rtkrampfiltertest.CheckImageQuality log10 hannY
                (doubleLiteral 1.05) (doubleLiteral 1.06) 40 (doubleLiteral 0.13)
              = some ExitCode.EXIT_FAILURE
            ∨ rtkrampfiltertest.CheckImageQuality log10 truncation
                (doubleLiteral 1.015) (doubleLiteral 1.025) 26 (doubleLiteral 0.05)
              = some ExitCode.EXIT_FAILURE)
      ∧ doubleLiteral 0.13 = 4683743612465316 / 2 ^ 55
      ∧ doubleLiteral 0.05 = 7205759403792794 / 2 ^ 57
      ∧ rtkrampfiltertest.ErrorPerPixel 0 1 exampleRoundedPixels
          = FloatingPoint.finite (6710887 / 2 ^ 25)
      ∧ rtkrampfiltertest.CheckImageQuality log10 exampleRoundedPixels 0 1 snrThreshold
          (26843547 / 2 ^ 27) = some ExitCode.EXIT_FAILURE
      ∧ (5033165 / 2 ^ 24 - 13421773 / 2 ^ 27 : ℚ) = 26843547 / 2 ^ 27
      ∧ rtkrampfiltertest.CheckImageQuality (fun _ => 0) examplePixels 1 2 40 2
          = some ExitCode.EXIT_FAILURE
      ∧ rtkrampfiltertest.CheckImageQuality (fun x => if x = 2 then 3 else 0) examplePixels
          1 2 40 2 = none := by
  refine ⟨?_, rtkrampfiltertest.CheckImageQuality_cases _ _ _ _ _ _, ?_,
    rtkrampfiltertest.main_eq_failure _ _ _ _, doubleLiteral_0_13, doubleLiteral_0_05,
    rtkrampfiltertest.ErrorPerPixel_exampleRoundedPixels, ?_, ?_, ?_, ?_⟩
  · rw [rtkrampfiltertest.CheckImageQuality_eq_failure, FloatingPoint.greaterThan_iff,
      FloatingPoint.lessThan_iff]
  · rfl
  · rw [rtkrampfiltertest.CheckImageQuality_eq_failure,
      rtkrampfiltertest.ErrorPerPixel_exampleRoundedPixels]
    left
    simp only [FloatingPoint.greaterThan, decide_eq_true_eq]
    norm_num
  · norm_num
  · rw [rtkrampfiltertest.CheckImageQuality_eq_failure,
      rtkrampfiltertest.PSNR_examplePixels_zero]
    right
    simp only [FloatingPoint.lessThan, decide_eq_true_eq]
    norm_num
  · unfold rtkrampfiltertest.CheckImageQuality
    rw [rtkrampfiltertest.ErrorPerPixel_examplePixels,
      rtkrampfiltertest.PSNR_examplePixels_three]
    simp only [FloatingPoint.greaterThan, FloatingPoint.lessThan]
    norm_num

/-- Claim C20 (evaluation of the code). On two pixels with reference value `1`, one reconstructed
as `1` and one as `2`, with thresholds `[1, 2]`: `CheckImageQuality` of `rtkrampfiltertest.cxx`
counts `npix = 1` and computes error per pixel `1` and MSE `1`, whereas the mean absolute
difference and the mean squared difference over the two pixels whose reference value lies in the
interval are both `1/2`. -/
theorem rtkrampfiltertest_ErrorPerPixel_exact_match :
    (rtkrampfiltertest.sums 1 2 examplePixels).npix = 1
      ∧ rtkrampfiltertest.ErrorPerPixel 1 2 examplePixels = FloatingPoint.finite 1
      ∧ meanAbsoluteDifferenceInRange 1 2 examplePixels = some (1 / 2)
      ∧ rtkrampfiltertest.MSE 1 2 examplePixels = FloatingPoint.finite 1
      ∧ meanSquaredDifferenceInRange 1 2 examplePixels = some (1 / 2) := by
  have hr : inRangeSums 1 2 examplePixels = { TestError := 1, EnerError := 1, npix := 2 } := by
    simp [inRangeSums, examplePixels]
    norm_num
  refine ⟨?_, rtkrampfiltertest.ErrorPerPixel_examplePixels, ?_,
    rtkrampfiltertest.MSE_examplePixels, ?_⟩
  · rw [rtkrampfiltertest.sums_examplePixels]
  · simp only [meanAbsoluteDifferenceInRange, hr, divideByNpix]
    norm_num
  · simp only [meanSquaredDifferenceInRange, hr, divideByNpix]
    norm_num

/-! ## `CheckImageQuality` of the forward projection test -/

/-- Claim C21 (evaluation of the code). `CheckImageQuality` of `rtkforwardprojectiontest.cxx`
never terminates the process, whatever the images: on two pixels that are off by `2` and by `3`
the error per pixel is `5/2`, above `1.28`, the message is printed and the function returns. -/
theorem rtkforwardprojectiontest_CheckImageQuality_returns (log10 : ℚ → ℚ)
    (pixels : List (ℚ × ℚ)) :
    (rtkforwardprojectiontest.CheckImageQuality log10 pixels).exited = none
      ∧ rtkforwardprojectiontest.ErrorPerPixel exampleFarPixels = some (5 / 2)
      ∧ (5 / 2 : ℚ) > 1.28
      ∧ QualityMessage.errorPerPixelNotValid
          ∈ (rtkforwardprojectiontest.CheckImageQuality log10 exampleFarPixels).messages
      ∧ (rtkforwardprojectiontest.CheckImageQuality log10 exampleFarPixels).exited = none := by
  have hs : rtkelektatest.sums exampleFarPixels = { TestError := 5, EnerError := 13 } := by
    simp [rtkelektatest.sums, exampleFarPixels]
    norm_num
  have hl : exampleFarPixels.length = 2 := rfl
  have he : rtkforwardprojectiontest.ErrorPerPixel exampleFarPixels = some (5 / 2) := by
    simp only [rtkforwardprojectiontest.ErrorPerPixel, hs, hl, divideByNpix]
    norm_num
  refine ⟨rfl, he, by norm_num, ?_, rfl⟩
  have hg : greaterThan (some (5 / 2 : ℚ)) 1.28 = true := by
    simp only [greaterThan, decide_eq_true_eq]
    norm_num
  simp [rtkforwardprojectiontest.CheckImageQuality, he, hg]

/-! ## The file-name index of `AcquisitionCallback` -/

theorem fileNameIndex_eq_min (i m : Nat) (hm1 : 1 ≤ m) (hm : m < 2 ^ 32) :
    fileNameIndex i m = if i < m - 1 then i else m - 1 := by
  have h : (m % 2 ^ 32 + (2 ^ 32 - 1)) % 2 ^ 32 = m - 1 := by omega
  simp only [fileNameIndex, vnl_math_min_uint, h]

/-- Claim C25. For 32-bit values `i` and `m` (loop counter and number of file names): when
`m ≥ 1` the file-name index is smaller than `m`, equals `i` when `i < m` and `m - 1` otherwise,
so a projection beyond the last file is given the last file name; when `m = 0` the term `m - 1`
wraps to `2^32 - 1`, the index is `i`, which is out of the bounds of the empty list, and nothing
can be published. -/
theorem fileNameIndex_last_file (i m : Nat) (hi : i < 2 ^ 32) (hm : m < 2 ^ 32) :
    (1 ≤ m →
        fileNameIndex i m < m
          ∧ (i < m → fileNameIndex i m = i)
          ∧ (m ≤ i → fileNameIndex i m = m - 1)
          ∧ ∀ names : List String, names.length = m → m ≤ i →
              names[fileNameIndex i names.length]? = names.getLast?)
      ∧ ((0 % 2 ^ 32 + (2 ^ 32 - 1)) % 2 ^ 32 = 2 ^ 32 - 1
          ∧ fileNameIndex i 0 = i
          ∧ ¬ fileNameIndex i 0 < 0
          ∧ ∀ acq : Acquisition, acq.names = [] → AcquisitionPublish acq i = none) := by
  constructor
  · intro hm1
    have hidx := fileNameIndex_eq_min i m hm1 hm
    refine ⟨?_, ?_, ?_, ?_⟩
    · rw [hidx]
      split_ifs <;> omega
    · intro h
      rw [hidx]
      split_ifs <;> omega
    · intro h
      rw [hidx]
      split_ifs <;> omega
    · intro names hlen h
      have hidx' : fileNameIndex i names.length = names.length - 1 := by
        rw [hlen, hidx]
        split_ifs <;> omega
      rw [hidx', List.getLast?_eq_getElem?]
  · have h0 : fileNameIndex i 0 = i := by
      simp only [fileNameIndex, vnl_math_min_uint]
      split_ifs <;> omega
    refine ⟨by norm_num, h0, by omega, ?_⟩
    intro acq hnames
    unfold AcquisitionPublish
    simp [hnames]

theorem fileNameIndex_last_file_witness :
    (5 < 2 ^ 32 ∧ 3 < 2 ^ 32 ∧ 1 ≤ 3)
      ∧ fileNameIndex 5 3 < 3
      ∧ fileNameIndex 5 3 = 3 - 1
      ∧ fileNameIndex 5 0 = 5 :=
  ⟨⟨by decide, by decide, by decide⟩,
    ((fileNameIndex_last_file 5 3 (by decide) (by decide)).1 (by decide)).1,
    ((fileNameIndex_last_file 5 3 (by decide) (by decide)).1 (by decide)).2.2.1 (by decide),
    (fileNameIndex_last_file 5 0 (by decide) (by decide)).2.2.1⟩

/-! ## The image pointer of `rtkfdk` -/

/-- Claim C27. In `main` of `rtkfdk.cxx` the pointer `pfeldkamp` is non-null if and only if the
hardware string is `cpu`, or `cuda` with cuda compiled in, or `opencl` with opencl compiled in;
whenever `main` does not return at the backend selection, `pfeldkamp` is what the streaming
filter is given before `writer->Update()`; for a hardware string other than `cpu`, `cuda` and
`opencl` the selection does not fail and the streaming filter and the writer are given a null
image. -/
theorem rtkfdkMain_pfeldkamp (args : RtkfdkArgs) :
    ((rtkfdkMain args).pfeldkamp.isSome = true ↔
        args.hardware_arg = "cpu"
          ∨ (args.hardware_arg = "cuda" ∧ args.CUDA_FOUND = true)
          ∨ (args.hardware_arg = "opencl" ∧ args.OPENCL_FOUND = true))
      ∧ ((rtkfdkMain args).status = ExitCode.EXIT_SUCCESS →
          FdkEvent.StreamerSetInput (rtkfdkMain args).pfeldkamp ∈ (rtkfdkMain args).events
            ∧ (rtkfdkMain args).events.getLast? = some FdkEvent.WriterUpdate)
      ∧ (args.hardware_arg ≠ "cpu" → args.hardware_arg ≠ "cuda" →
          args.hardware_arg ≠ "opencl" →
          (rtkfdkMain args).status = ExitCode.EXIT_SUCCESS
            ∧ (rtkfdkMain args).pfeldkamp = none
            ∧ (rtkfdkMain args).events
                = rtkfdkReadInputs args
                    ++ [FdkEvent.StreamerSetInput none, FdkEvent.WriterUpdate]) := by
  by_cases hcpu : args.hardware_arg = "cpu"
  · by_cases hm : args.signal_given = true ∧ args.dvf_given = true
    · simp [rtkfdkMain, hcpu, rtkfdkWrite, hm]
    · simp [rtkfdkMain, hcpu, rtkfdkWrite, hm]
  · by_cases hcuda : args.hardware_arg = "cuda"
    · cases hf : args.CUDA_FOUND <;> simp [rtkfdkMain, hcuda, hf, rtkfdkWrite]
    · by_cases hocl : args.hardware_arg = "opencl"
      · cases hf : args.OPENCL_FOUND <;> simp [rtkfdkMain, hocl, hf, rtkfdkWrite]
      · simp [rtkfdkMain, hcpu, hcuda, hocl, rtkfdkWrite]

/-! ## `CheckGeometries` as a relation -/

theorem fieldsWithinTolerance_refl (r : ProjectionRecord) : fieldsWithinTolerance r r := by
  have he : (0 : ℚ) < CheckGeometries.e + 1 / 2 ^ 87 := by
    unfold CheckGeometries.e
    norm_num
  simp only [fieldsWithinTolerance, sub_self, abs_zero]
  exact ⟨he, he, he, he, he, he, he, he, he⟩

theorem fieldsWithinTolerance_symm (r1 r2 : ProjectionRecord)
    (h : fieldsWithinTolerance r1 r2) : fieldsWithinTolerance r2 r1 := by
  unfold fieldsWithinTolerance at h ⊢
  simp only [abs_sub_comm r2.gantryAngle, abs_sub_comm r2.outOfPlaneAngle,
    abs_sub_comm r2.inPlaneAngle, abs_sub_comm r2.sid, abs_sub_comm r2.sourceOffsetX,
    abs_sub_comm r2.sourceOffsetY, abs_sub_comm r2.sdd, abs_sub_comm r2.projOffsetX,
    abs_sub_comm r2.projOffsetY]
  exact h

/-- Claim C28. In double arithmetic the acceptance relation of `CheckGeometries` is reflexive and
symmetric: it accepts `(g, g)` for every geometry `g`, and it accepts `(g1, g2)` exactly when it
accepts `(g2, g1)`. -/
theorem CheckGeometries_reflexive_symmetric (g g1 g2 : Geometry) :
    CheckGeometries g g = none
      ∧ (CheckGeometries g1 g2 = none ↔ CheckGeometries g2 g1 = none) := by
  constructor
  · rw [CheckGeometries_eq_none]
    refine ⟨rfl, ?_⟩
    intro i r1 r2 h1 h2
    rw [h1] at h2
    injection h2 with h2
    subst h2
    exact fieldsWithinTolerance_refl r1
  · rw [CheckGeometries_eq_none, CheckGeometries_eq_none]
    constructor
    · rintro ⟨hl, h⟩
      exact ⟨hl.symm, fun i r1 r2 h1 h2 => fieldsWithinTolerance_symm _ _ (h i r2 r1 h2 h1)⟩
    · rintro ⟨hl, h⟩
      exact ⟨hl.symm, fun i r1 r2 h1 h2 => fieldsWithinTolerance_symm _ _ (h i r2 r1 h2 h1)⟩

/-! ## The two kinds of accumulation loops -/

theorem rtkrampfiltertest.foldl_npix (refLowerThreshold refUpperThreshold : ℚ)
    (pixels : List (ℚ × ℚ)) :
    ∀ acc : FloatingSums,
      (pixels.foldl (rtkrampfiltertest.accumulate refLowerThreshold refUpperThreshold) acc).npix
        = acc.npix + pixels.countP (fun p =>
            decide (p.1 ≠ p.2 ∧ (p.2 ≥ refLowerThreshold ∧ p.2 ≤ refUpperThreshold))) := by
  induction pixels with
  | nil => intro acc; simp
  | cons p ps ih =>
    intro acc
    simp only [List.foldl_cons, ih, List.countP_cons]
    by_cases h : p.1 ≠ p.2 ∧ (p.2 ≥ refLowerThreshold ∧ p.2 ≤ refUpperThreshold)
    · have hd : decide (p.1 ≠ p.2 ∧ (p.2 ≥ refLowerThreshold ∧ p.2 ≤ refUpperThreshold))
          = true := decide_eq_true h
      rw [hd]
      unfold rtkrampfiltertest.accumulate
      rw [if_pos h]
      simp only [if_true]
      omega
    · have hd : decide (p.1 ≠ p.2 ∧ (p.2 ≥ refLowerThreshold ∧ p.2 ≤ refUpperThreshold))
          = false := decide_eq_false h
      rw [hd]
      unfold rtkrampfiltertest.accumulate
      rw [if_neg h]
      simp

theorem rtkrampfiltertest.foldl_unchanged (refLowerThreshold refUpperThreshold : ℚ)
    (pixels : List (ℚ × ℚ))
    (h : ¬ ∃ p ∈ pixels, p.1 ≠ p.2 ∧ refLowerThreshold ≤ p.2 ∧ p.2 ≤ refUpperThreshold) :
    ∀ acc : FloatingSums,
      pixels.foldl (rtkrampfiltertest.accumulate refLowerThreshold refUpperThreshold) acc
        = acc := by
  induction pixels with
  | nil => intro acc; rfl
  | cons p ps ih =>
    intro acc
    have hp : ¬ (p.1 ≠ p.2 ∧ (p.2 ≥ refLowerThreshold ∧ p.2 ≤ refUpperThreshold)) := by
      intro hc
      exact h ⟨p, List.mem_cons_self _ _, hc.1, hc.2.1, hc.2.2⟩
    have hps : ¬ ∃ q ∈ ps, q.1 ≠ q.2 ∧ refLowerThreshold ≤ q.2 ∧ q.2 ≤ refUpperThreshold := by
      rintro ⟨q, hq, hc⟩
      exact h ⟨q, List.mem_cons_of_mem _ hq, hc⟩
    simp only [List.foldl_cons, rtkrampfiltertest.accumulate, hp, if_false]
    exact ih hps acc

/-- Claim C30. For an image of fewer than `2^32` pixels (so that the 32-bit counter cannot wrap),
the divisor `npix` of `CheckImageQuality` in `rtkrampfiltertest.cxx` is non-zero if and only if
some pixel has a reference value in `[refLowerThreshold, refUpperThreshold]` that differs from
the reconstructed value. When there is no such pixel, `TestError`, `EnerError` and `npix` are all
zero, both divisions are `0./0`, the error per pixel, the MSE and the PSNR are not numbers, and
the function returns without failing: nothing guards the divisions. -/
theorem rtkrampfiltertest_npix_nonzero_iff (log10 : ℚ → ℚ) (pixels : List (ℚ × ℚ))
    (refLowerThreshold refUpperThreshold snrThreshold errorPerPixelThreshold : ℚ)
    (hsize : pixels.length < 2 ^ 32) :
    ((rtkrampfiltertest.sums refLowerThreshold refUpperThreshold pixels).npix % 2 ^ 32 ≠ 0 ↔
        ∃ p ∈ pixels, p.1 ≠ p.2 ∧ refLowerThreshold ≤ p.2 ∧ p.2 ≤ refUpperThreshold)
      ∧ ((¬ ∃ p ∈ pixels, p.1 ≠ p.2 ∧ refLowerThreshold ≤ p.2 ∧ p.2 ≤ refUpperThreshold) →
          rtkrampfiltertest.sums refLowerThreshold refUpperThreshold pixels
              = { TestError := FloatingPoint.finite 0
                  EnerError := FloatingPoint.finite 0
                  npix := 0 }
            ∧ rtkrampfiltertest.ErrorPerPixel refLowerThreshold refUpperThreshold pixels
                = FloatingPoint.nan
            ∧ rtkrampfiltertest.MSE refLowerThreshold refUpperThreshold pixels
                = FloatingPoint.nan
            ∧ rtkrampfiltertest.PSNR log10 refLowerThreshold refUpperThreshold pixels
                = FloatingPoint.nan
            ∧ rtkrampfiltertest.CheckImageQuality log10 pixels refLowerThreshold
                refUpperThreshold snrThreshold errorPerPixelThreshold = none) := by
  have hn := rtkrampfiltertest.foldl_npix refLowerThreshold refUpperThreshold pixels
    ⟨FloatingPoint.finite 0, FloatingPoint.finite 0, 0⟩
  simp only [Nat.zero_add] at hn
  have hle : (rtkrampfiltertest.sums refLowerThreshold refUpperThreshold pixels).npix
      ≤ pixels.length := by
    unfold rtkrampfiltertest.sums
    rw [hn]
    exact List.countP_le_length _
  constructor
  · rw [Nat.mod_eq_of_lt (by omega)]
    unfold rtkrampfiltertest.sums
    rw [hn, Nat.pos_iff_ne_zero.symm, List.countP_pos_iff]
    constructor
    · rintro ⟨p, hp, hc⟩
      have hc' := of_decide_eq_true hc
      exact ⟨p, hp, hc'.1, hc'.2.1, hc'.2.2⟩
    · rintro ⟨p, hp, h1, h2, h3⟩
      exact ⟨p, hp, decide_eq_true ⟨h1, h2, h3⟩⟩
  · intro hnone
    have hs := rtkrampfiltertest.foldl_unchanged refLowerThreshold refUpperThreshold pixels hnone
      ⟨FloatingPoint.finite 0, FloatingPoint.finite 0, 0⟩
    have hs' : rtkrampfiltertest.sums refLowerThreshold refUpperThreshold pixels
        = ⟨FloatingPoint.finite 0, FloatingPoint.finite 0, 0⟩ := hs
    have he : rtkrampfiltertest.ErrorPerPixel refLowerThreshold refUpperThreshold pixels
        = FloatingPoint.nan := by
      simp [rtkrampfiltertest.ErrorPerPixel, hs', FloatingPoint.divideByUnsigned]
    have hm : rtkrampfiltertest.MSE refLowerThreshold refUpperThreshold pixels
        = FloatingPoint.nan := by
      simp [rtkrampfiltertest.MSE, hs', FloatingPoint.divideByUnsigned]
    have hp : rtkrampfiltertest.PSNR log10 refLowerThreshold refUpperThreshold pixels
        = FloatingPoint.nan := by
      unfold rtkrampfiltertest.PSNR
      rw [hm]
      have hl : FloatingPoint.log10 log10 FloatingPoint.nan = FloatingPoint.nan := rfl
      rw [hl, FloatingPoint.mul_nan, FloatingPoint.sub_nan]
    refine ⟨hs', he, hm, hp, ?_⟩
    simp [rtkrampfiltertest.CheckImageQuality, he, hp, FloatingPoint.greaterThan,
      FloatingPoint.lessThan]

theorem rtkrampfiltertest_npix_nonzero_iff_witness :
    examplePixels.length < 2 ^ 32
      ∧ (rtkrampfiltertest.sums 1 2 examplePixels).npix % 2 ^ 32 ≠ 0 :=
  ⟨by decide,
    ((rtkrampfiltertest_npix_nonzero_iff (fun _ => 0) examplePixels 1 2 40 0.13
      (by decide)).1).mpr
      ⟨(2, 1), by simp [examplePixels], by norm_num, by norm_num, by norm_num⟩⟩

/-! ## The order of the reconstructed indices -/

section order
variable {V : Type}

theorem IndexInv_init (cfg : Config) (constantImage : V) (garbage : ThreadInfoStruct)
    (hsel : backendSelected cfg = true) :
    IndexInv 0 (InlineSystem.init cfg constantImage garbage) := by
  unfold IndexInv InlineSystem.init
  simp [setup_selected cfg constantImage hsel, mainThreadInfo, updateIndices]

theorem IndexInv_round (acq : Acquisition) (cfg : Config) (fdk : FDKRequest → V → V)
    (hnames : acq.names ≠ []) (hsel : backendSelected cfg = true)
    (k : Nat) (s : InlineSystem V) (hk : k + 1 < acq.geometry.length) (h : IndexInv k s) :
    IndexInv (k + 1)
      (InlineSystem.step acq cfg fdk (InlineSystem.step acq cfg fdk s Action.publish)
        Action.consume) := by
  obtain ⟨hi, hg, hn, hex, hf, hu⟩ := h
  obtain ⟨threadInfo, tn, ts, hstep⟩ :=
    lockstep_round acq cfg fdk s hnames (by omega) hex hf
  rw [hstep]
  have hp : threadInfo.nproj = s.consumer.geometry.length + 1 := by omega
  have hstop : threadInfo.stop = false := by
    rw [ts]
    simp only [beq_eq_false_iff_ne, ne_eq]
    omega
  by_cases h3 : s.consumer.geometry.length + 1 < 3
  · rw [iteration_wait cfg fdk threadInfo s.consumer hp h3]
    have e : k + 1 - 2 = k - 2 := by omega
    simp only [IndexInv, appended, AddProjection_length, updateIndices_append, hu, e]
    refine ⟨by omega, by omega, by omega, trivial, hf, by simp [updateIndices]⟩
  · have h3' : 3 ≤ s.consumer.geometry.length + 1 := not_lt.mp h3
    rw [iteration_ordinary cfg fdk threadInfo s.consumer hp h3' hstop hsel]
    have e : k + 1 - 2 = (k - 2) + 1 := by omega
    have e2 : s.consumer.geometry.length - 1 = 1 + (k - 2) := by omega
    simp only [IndexInv, appended, AddProjection_length, updateIndices_append, hu, e]
    refine ⟨by omega, by omega, by omega, trivial, hf, ?_⟩
    simp [updateIndices, stepRequest, e2, List.range'_1_concat]

theorem IndexInv_last (acq : Acquisition) (cfg : Config) (fdk : FDKRequest → V → V)
    (hnames : acq.names ≠ []) (hsel : backendSelected cfg = true)
    (k : Nat) (s : InlineSystem V) (hk : k + 1 = acq.geometry.length) (hN : 3 ≤ k + 1)
    (h : IndexInv k s) :
    updateIndices (InlineSystem.step acq cfg fdk (InlineSystem.step acq cfg fdk s Action.publish)
        Action.consume).trace
        = List.range' 1 (acq.geometry.length - 2) ++ [0, acq.geometry.length - 1]
      ∧ (InlineSystem.step acq cfg fdk (InlineSystem.step acq cfg fdk s Action.publish)
          Action.consume).exited = some ExitCode.EXIT_SUCCESS := by
  obtain ⟨hi, hg, hn, hex, hf, hu⟩ := h
  obtain ⟨threadInfo, tn, ts, hstep⟩ :=
    lockstep_round acq cfg fdk s hnames (by omega) hex hf
  rw [hstep]
  have hp : threadInfo.nproj = s.consumer.geometry.length + 1 := by omega
  have hstop : threadInfo.stop = true := by
    rw [ts]
    simp only [beq_iff_eq]
    omega
  have h3' : 3 ≤ s.consumer.geometry.length + 1 := by omega
  rw [iteration_last cfg fdk threadInfo s.consumer hp h3' hstop hsel]
  refine ⟨?_, rfl⟩
  have e : acq.geometry.length - 2 = (k - 2) + 1 := by omega
  have e2 : s.consumer.geometry.length - 1 = 1 + (k - 2) := by omega
  have e3 : acq.geometry.length - 1 = s.consumer.geometry.length := by omega
  simp [updateIndices_append, hu, updateIndices, stepRequest, e, e2, e3, List.range'_1_concat]

theorem index_run (acq : Acquisition) (cfg : Config) (fdk : FDKRequest → V → V)
    (hnames : acq.names ≠ []) (hsel : backendSelected cfg = true)
    (hN : 3 ≤ acq.geometry.length) (n : Nat) :
    ∀ (k : Nat) (s : InlineSystem V), k + (n + 1) = acq.geometry.length → IndexInv k s →
      updateIndices (InlineSystem.run acq cfg fdk s (lockstepSchedule (n + 1))).trace
          = List.range' 1 (acq.geometry.length - 2) ++ [0, acq.geometry.length - 1]
        ∧ (InlineSystem.run acq cfg fdk s (lockstepSchedule (n + 1))).exited
          = some ExitCode.EXIT_SUCCESS := by
  induction n with
  | zero =>
    intro k s hk h
    simp only [lockstepSchedule, InlineSystem.run, List.foldl]
    exact IndexInv_last acq cfg fdk hnames hsel k s (by omega) (by omega) h
  | succ n ih =>
    intro k s hk h
    have hr := IndexInv_round acq cfg fdk hnames hsel k s (by omega) h
    have := ih (k + 1) _ (by omega) hr
    rw [lockstepSchedule]
    simpa only [InlineSystem.run, List.foldl] using this

theorem range_perm (n : Nat) :
    List.Perm (List.range' 1 n ++ [0, n + 1]) (List.range (n + 2)) := by
  have h : List.range (n + 2) = 0 :: (List.range' 1 n ++ [n + 1]) := by
    rw [List.range_eq_range', show n + 2 = (n + 1) + 1 by omega, List.range'_succ,
      List.range'_1_concat]
    simp [Nat.add_comm]
  rw [h]
  exact List.perm_middle

/-- Claim C22. For an acquisition of `N ≥ 3` projections (with at least one projection file and
a selected backend) consumed one at a time, the reconstruction thread taking one step after each
publication, the projection indices passed to reconstruction are, in order,
`1, 2, ..., N-2, 0, N-1`: the list has length `N` and is a permutation of `0, ..., N-1`, so every
projection is reconstructed exactly once; the run ends with `EXIT_SUCCESS`, not with an abort. -/
theorem InlineThreadCallback_index_order (acq : Acquisition) (cfg : Config)
    (fdk : FDKRequest → V → V) (constantImage : V) (garbage : ThreadInfoStruct)
    (hN : 3 ≤ acq.geometry.length) (hnames : acq.names ≠ [])
    (hsel : backendSelected cfg = true) :
    updateIndices (InlineSystem.run acq cfg fdk (InlineSystem.init cfg constantImage garbage)
        (lockstepSchedule acq.geometry.length)).trace
        = List.range' 1 (acq.geometry.length - 2) ++ [0, acq.geometry.length - 1]
      ∧ (updateIndices (InlineSystem.run acq cfg fdk
          (InlineSystem.init cfg constantImage garbage)
          (lockstepSchedule acq.geometry.length)).trace).length = acq.geometry.length
      ∧ List.Perm
          (updateIndices (InlineSystem.run acq cfg fdk
            (InlineSystem.init cfg constantImage garbage)
            (lockstepSchedule acq.geometry.length)).trace)
          (List.range acq.geometry.length)
      ∧ (InlineSystem.run acq cfg fdk (InlineSystem.init cfg constantImage garbage)
          (lockstepSchedule acq.geometry.length)).exited = some ExitCode.EXIT_SUCCESS := by
  obtain ⟨n, hn⟩ : ∃ n, acq.geometry.length = n + 1 := ⟨acq.geometry.length - 1, by omega⟩
  have h := index_run acq cfg fdk hnames hsel hN n 0
    (InlineSystem.init cfg constantImage garbage) (by omega)
    (IndexInv_init cfg constantImage garbage hsel)
  rw [← hn] at h
  obtain ⟨m, hm⟩ : ∃ m, acq.geometry.length = m + 2 := ⟨acq.geometry.length - 2, by omega⟩
  refine ⟨h.1, ?_, ?_, h.2⟩
  · rw [h.1]
    simp
    omega
  · rw [h.1, hm]
    exact range_perm m

theorem InlineThreadCallback_index_order_witness :
    (3 ≤ exampleAcquisition.geometry.length ∧ exampleAcquisition.names ≠ []
        ∧ backendSelected exampleConfig = true)
      ∧ updateIndices (InlineSystem.run exampleAcquisition exampleConfig exampleFdk
          (InlineSystem.init exampleConfig 0 (exampleShared 7 false))
          (lockstepSchedule exampleAcquisition.geometry.length)).trace
        = List.range' 1 (exampleAcquisition.geometry.length - 2)
            ++ [0, exampleAcquisition.geometry.length - 1]
      ∧ List.range' 1 (exampleAcquisition.geometry.length - 2)
            ++ [0, exampleAcquisition.geometry.length - 1] = [1, 2, 0, 3] :=
  ⟨⟨by decide, by decide, by decide⟩,
    (InlineThreadCallback_index_order exampleAcquisition exampleConfig exampleFdk 0
      (exampleShared 7 false) (by decide) (by decide) (by decide)).1,
    by decide⟩

end order

/-! ## Schedules in which the reconstruction thread keeps up -/

section keepsup
variable {V : Type}

theorem consumerKeepsUp_take (schedule : List Action) :
    ∀ (published : Bool) (n : Nat), consumerKeepsUp published schedule = true →
      consumerKeepsUp published (schedule.take n) = true := by
  induction schedule with
  | nil => intro published n h; simp [consumerKeepsUp]
  | cons a as ih =>
    intro published n h
    cases n with
    | zero => simp [consumerKeepsUp]
    | succ n =>
      cases a with
      | publish =>
        simp only [consumerKeepsUp, Bool.and_eq_true, List.take_succ_cons] at h ⊢
        exact ⟨h.1, ih true n h.2⟩
      | consume =>
        simp only [consumerKeepsUp, List.take_succ_cons] at h ⊢
        exact ih false n h

theorem KeepsUpInv_publish (acq : Acquisition) (cfg : Config) (fdk : FDKRequest → V → V)
    (s : InlineSystem V) (hc : CountInv acq s) (h : KeepsUpInv false s) :
    KeepsUpInv true (InlineSystem.step acq cfg fdk s Action.publish) := by
  obtain ⟨h1, h2⟩ := h
  have hpg : s.threadInfo.nproj = s.consumer.geometry.length := by
    rcases h2 with h2 | ⟨hb, _⟩
    · exact h2
    · exact absurd hb (by simp)
  unfold InlineSystem.step
  simp only
  split_ifs with hx hi
  · exact ⟨h1, Or.inl hpg⟩
  · cases hpub : AcquisitionPublish acq s.i with
    | none => exact ⟨h1, Or.inl hpg⟩
    | some threadInfo =>
      obtain ⟨_, hn, _⟩ := AcquisitionPublish_fields acq s.i threadInfo hpub
      have hex : s.exited = none := by
        cases he : s.exited with
        | none => rfl
        | some c => simp [he] at hx
      have hf : s.fault = false := by
        cases hfl : s.fault with
        | false => rfl
        | true => simp [hfl] at hx
      refine ⟨h1, Or.inr ⟨rfl, hex, hf, ?_⟩⟩
      show threadInfo.nproj = s.consumer.geometry.length + 1
      have := hc.1
      omega
  · exact ⟨h1, Or.inl hpg⟩

theorem KeepsUpInv_consume (acq : Acquisition) (cfg : Config) (fdk : FDKRequest → V → V)
    (published : Bool) (s : InlineSystem V) (h : KeepsUpInv published s) :
    KeepsUpInv false (InlineSystem.step acq cfg fdk s Action.consume) := by
  obtain ⟨h1, h2⟩ := h
  unfold InlineSystem.step
  simp only
  split_ifs with hx
  · refine ⟨h1, Or.inl ?_⟩
    rcases h2 with h2 | ⟨_, hex, hf, _⟩
    · exact h2
    · simp [hex, hf] at hx
  · rcases h2 with h2 | ⟨_, _, _, h2⟩
    · rw [iteration_idle cfg fdk s.threadInfo s.consumer (by omega)]
      exact ⟨by simp, Or.inl h2⟩
    · by_cases h3 : s.consumer.geometry.length + 1 < 3
      · rw [iteration_wait cfg fdk s.threadInfo s.consumer h2 h3]
        exact ⟨by simp, Or.inl (by simp [appended, AddProjection_length, h2])⟩
      · have h3' : 3 ≤ s.consumer.geometry.length + 1 := not_lt.mp h3
        cases hs : s.threadInfo.stop <;> cases hsel : backendSelected cfg
        · rw [iteration_ordinary_unselected cfg fdk s.threadInfo s.consumer h2 h3' hs hsel]
          exact ⟨by simp, Or.inl (by simp [appended, AddProjection_length, h2])⟩
        · rw [iteration_ordinary cfg fdk s.threadInfo s.consumer h2 h3' hs hsel]
          exact ⟨by simp, Or.inl (by simp [appended, AddProjection_length, h2])⟩
        · rw [iteration_last_unselected cfg fdk s.threadInfo s.consumer h2 h3' hs hsel]
          exact ⟨by simp, Or.inl (by simp [appended, AddProjection_length, h2])⟩
        · rw [iteration_last cfg fdk s.threadInfo s.consumer h2 h3' hs hsel]
          exact ⟨by simp, Or.inl (by simp [appended, AddProjection_length, h2])⟩

theorem KeepsUpInv_run (acq : Acquisition) (cfg : Config) (fdk : FDKRequest → V → V)
    (schedule : List Action) :
    ∀ (published : Bool) (s : InlineSystem V), CountInv acq s → KeepsUpInv published s →
      consumerKeepsUp published schedule = true →
      ∃ published', KeepsUpInv published' (InlineSystem.run acq cfg fdk s schedule) := by
  induction schedule with
  | nil => intro published s _ h _; exact ⟨published, h⟩
  | cons a as ih =>
    intro published s hc h hs
    cases a with
    | publish =>
      simp only [consumerKeepsUp, Bool.and_eq_true, Bool.not_eq_true'] at hs
      have hb : published = false := hs.1
      subst hb
      exact ih true _ (CountInv_step acq cfg fdk s Action.publish hc).1
        (KeepsUpInv_publish acq cfg fdk s hc h) hs.2
    | consume =>
      simp only [consumerKeepsUp] at hs
      exact ih false _ (CountInv_step acq cfg fdk s Action.consume hc).1
        (KeepsUpInv_consume acq cfg fdk published s h) hs

/-- Claim C23. When the reconstruction loop was entered and the reconstruction thread takes at
least one step between any two consecutive publications, then after every initial part of the
schedule (in particular at the start of every consumer step) the published count `p` and the
local geometry count `g` satisfy `p = g` or `p = g + 1`, and the process has not exited with
`EXIT_FAILURE`: the missed-projection abort is never reached. -/
theorem InlineThreadCallback_keeps_up (acq : Acquisition) (cfg : Config)
    (fdk : FDKRequest → V → V) (constantImage : V) (garbage : ThreadInfoStruct)
    (schedule : List Action) (n : Nat)
    (hloop : (InlineSystem.init cfg constantImage garbage : InlineSystem V).exited = none)
    (hsched : consumerKeepsUp false schedule = true) :
    ((InlineSystem.run acq cfg fdk (InlineSystem.init cfg constantImage garbage)
          (schedule.take n)).threadInfo.nproj
        = (InlineSystem.run acq cfg fdk (InlineSystem.init cfg constantImage garbage)
          (schedule.take n)).consumer.geometry.length
      ∨ (InlineSystem.run acq cfg fdk (InlineSystem.init cfg constantImage garbage)
          (schedule.take n)).threadInfo.nproj
        = (InlineSystem.run acq cfg fdk (InlineSystem.init cfg constantImage garbage)
          (schedule.take n)).consumer.geometry.length + 1)
      ∧ (InlineSystem.run acq cfg fdk (InlineSystem.init cfg constantImage garbage)
          (schedule.take n)).exited ≠ some ExitCode.EXIT_FAILURE := by
  have hinit : KeepsUpInv false (InlineSystem.init cfg constantImage garbage : InlineSystem V) := by
    refine ⟨by rw [hloop]; simp, Or.inl ?_⟩
    unfold InlineSystem.init InlineThreadCallbackSetup
    simp only [mainThreadInfo]
    split_ifs <;> rfl
  obtain ⟨published', h1, h2⟩ := KeepsUpInv_run acq cfg fdk (schedule.take n) false _
    (CountInv_init acq cfg constantImage garbage) hinit
    (consumerKeepsUp_take schedule false n hsched)
  refine ⟨?_, h1⟩
  rcases h2 with h2 | ⟨_, _, _, h2⟩
  · exact Or.inl h2
  · exact Or.inr h2

theorem InlineThreadCallback_keeps_up_witness :
    ((InlineSystem.init exampleConfig 0 exampleInitialShared : InlineSystem Nat).exited = none
        ∧ consumerKeepsUp false exampleSchedule = true)
      ∧ (InlineSystem.run exampleFilesAcquisition exampleConfig exampleFdk
          (InlineSystem.init exampleConfig 0 exampleInitialShared)
          (exampleSchedule.take 5)).exited ≠ some ExitCode.EXIT_FAILURE
      ∧ (InlineSystem.run exampleFilesAcquisition exampleConfig exampleFdk
          (InlineSystem.init exampleConfig 0 exampleInitialShared)
          (exampleSchedule.take 5)).threadInfo.nproj = 2 := by
  have h := InlineThreadCallback_keeps_up exampleFilesAcquisition exampleConfig exampleFdk 0
    exampleInitialShared exampleSchedule 5 (by decide) (by decide)
  exact ⟨⟨by decide, by decide⟩, h.2, by decide⟩

end keepsup

/-! ## Lock balance of the reconstruction loop -/

section balance
variable {V : Type}

/-- An iteration that does not terminate the process consists of one `Lock`, first, and one
`Unlock`, last; these are the iterations in which the count has not advanced, or stays below
three, or the record is processed and not flagged last. -/
theorem iteration_balance (cfg : Config) (fdk : FDKRequest → V → V)
    (threadInfo : ThreadInfoStruct) (st : InlineState V) :
    ((InlineThreadCallbackIteration cfg fdk threadInfo st).exited = none →
        (InlineThreadCallbackIteration cfg fdk threadInfo st).events.countP Event.isLock = 1
          ∧ (InlineThreadCallbackIteration cfg fdk threadInfo st).events.countP Event.isUnlock
              = 1
          ∧ (InlineThreadCallbackIteration cfg fdk threadInfo st).events.head?
              = some Event.Lock
          ∧ (InlineThreadCallbackIteration cfg fdk threadInfo st).events.getLast?
              = some Event.Unlock)
      ∧ ((InlineThreadCallbackIteration cfg fdk threadInfo st).exited = none ↔
          threadInfo.nproj ≤ st.geometry.length
            ∨ (threadInfo.nproj = st.geometry.length + 1
              ∧ (st.geometry.length + 1 < 3 ∨ threadInfo.stop = false))) := by
  by_cases h : st.geometry.length < threadInfo.nproj
  · by_cases hp : threadInfo.nproj = st.geometry.length + 1
    · by_cases h3 : st.geometry.length + 1 < 3
      · rw [iteration_wait cfg fdk threadInfo st hp h3]
        simp [Event.isLock, Event.isUnlock, hp, h3]
      · have h3' : 3 ≤ st.geometry.length + 1 := not_lt.mp h3
        cases hs : threadInfo.stop <;> cases hsel : backendSelected cfg
        · rw [iteration_ordinary_unselected cfg fdk threadInfo st hp h3' hs hsel]
          simp [Event.isLock, Event.isUnlock, hp, h3]
        · rw [iteration_ordinary cfg fdk threadInfo st hp h3' hs hsel]
          simp [Event.isLock, Event.isUnlock, hp, h3]
        · rw [iteration_last_unselected cfg fdk threadInfo st hp h3' hs hsel]
          simp [hp, h3]
        · rw [iteration_last cfg fdk threadInfo st hp h3' hs hsel]
          simp [hp, h3]
    · rw [iteration_abort cfg fdk threadInfo st h hp]
      simp [hp]
      omega
  · rw [iteration_idle cfg fdk threadInfo st (not_lt.mp h)]
    simp [Event.isLock, Event.isUnlock]
    exact Or.inl (not_lt.mp h)

/-- Claim C24. Whatever the interleaving of the two threads, the reconstruction thread does not
hold the lock at the start of a loop iteration (that is, whenever the process is running after
a whole number of iterations); an iteration that does not terminate the process performs exactly
one `Lock`, as its first action, and exactly one `Unlock`, as its last action; the iterations
that do not terminate the process are those in which the count has not advanced, or stays below
three, or the record is processed and not flagged last. -/
theorem InlineThreadCallback_lock_balance (acq : Acquisition) (cfg : Config)
    (fdk : FDKRequest → V → V) (constantImage : V) (garbage : ThreadInfoStruct)
    (schedule : List Action) (threadInfo : ThreadInfoStruct) (st : InlineState V) :
    ((InlineSystem.run acq cfg fdk (InlineSystem.init cfg constantImage garbage)
          schedule).exited = none →
        lockHeldAfter false
          (InlineSystem.run acq cfg fdk (InlineSystem.init cfg constantImage garbage)
            schedule).trace = false)
      ∧ ((InlineThreadCallbackIteration cfg fdk threadInfo st).exited = none →
          (InlineThreadCallbackIteration cfg fdk threadInfo st).events.countP Event.isLock = 1
            ∧ (InlineThreadCallbackIteration cfg fdk threadInfo st).events.countP
                Event.isUnlock = 1
            ∧ (InlineThreadCallbackIteration cfg fdk threadInfo st).events.head?
                = some Event.Lock
            ∧ (InlineThreadCallbackIteration cfg fdk threadInfo st).events.getLast?
                = some Event.Unlock)
      ∧ ((InlineThreadCallbackIteration cfg fdk threadInfo st).exited = none ↔
          threadInfo.nproj ≤ st.geometry.length
            ∨ (threadInfo.nproj = st.geometry.length + 1
              ∧ (st.geometry.length + 1 < 3 ∨ threadInfo.stop = false))) :=
  ⟨(LockInv_run acq cfg fdk schedule _ (LockInv_init cfg constantImage garbage)).2,
    (iteration_balance cfg fdk threadInfo st).1, (iteration_balance cfg fdk threadInfo st).2⟩

end balance

/-! ## The file-name list of the reconstruction thread -/

section filenames
variable {V : Type}

theorem pushFileName_eq (fileNames : List String) (fileName : String) :
    pushFileName fileNames fileName
      = if fileName ≠ "" ∧ fileNames.getLast? ≠ some fileName then fileNames ++ [fileName]
        else fileNames := by
  unfold pushFileName
  by_cases hn : fileName = ""
  · simp [hn]
  · by_cases hl : fileNames.getLast? = some fileName
    · have hne : fileNames ≠ [] := by
        intro he
        rw [he] at hl
        simp at hl
      have hlen : fileNames.length ≠ 0 := by
        intro h0
        exact hne (List.length_eq_zero.mp h0)
      simp [hn, hl, hlen]
    · simp [hn, hl]

theorem pushFileName_inv (fileNames : List String) (fileName : String)
    (h1 : "" ∉ fileNames) (h2 : List.Chain' (fun a b => a ≠ b) fileNames) :
    "" ∉ pushFileName fileNames fileName
      ∧ List.Chain' (fun a b => a ≠ b) (pushFileName fileNames fileName)
      ∧ (pushFileName fileNames fileName).length ≤ fileNames.length + 1
      ∧ (fileName = "" ∨ (pushFileName fileNames fileName).getLast? = some fileName) := by
  rw [pushFileName_eq]
  by_cases hc : fileName ≠ "" ∧ fileNames.getLast? ≠ some fileName
  · rw [if_pos hc]
    refine ⟨?_, ?_, by simp, Or.inr (List.getLast?_concat fileNames)⟩
    · simp only [List.mem_append, List.mem_singleton, not_or]
      exact ⟨h1, fun h => hc.1 h.symm⟩
    · rw [List.chain'_append]
      refine ⟨h2, List.chain'_singleton _, ?_⟩
      intro x hx y hy
      simp only [List.head?_cons, Option.mem_def, Option.some.injEq] at hy
      rw [← hy]
      intro hxy
      apply hc.2
      rw [Option.mem_def] at hx
      rw [hx, hxy]
  · rw [if_neg hc]
    refine ⟨h1, h2, by omega, ?_⟩
    by_cases hn : fileName = ""
    · exact Or.inl hn
    · right
      by_contra hl
      exact hc ⟨hn, hl⟩

/-- The local state of an iteration that consumes a record is the state with the record
appended, possibly with a new input 0. -/
theorem iteration_state (cfg : Config) (fdk : FDKRequest → V → V)
    (threadInfo : ThreadInfoStruct) (st : InlineState V) :
    (st.geometry.length < threadInfo.nproj →
        (InlineThreadCallbackIteration cfg fdk threadInfo st).state.fileNames
            = pushFileName st.fileNames threadInfo.fileName
          ∧ (InlineThreadCallbackIteration cfg fdk threadInfo st).state.geometry.length
            = st.geometry.length + 1
          ∧ ((InlineThreadCallbackIteration cfg fdk threadInfo st).exited = none →
              threadInfo.nproj = st.geometry.length + 1))
      ∧ (threadInfo.nproj ≤ st.geometry.length →
          (InlineThreadCallbackIteration cfg fdk threadInfo st).state = st
            ∧ (InlineThreadCallbackIteration cfg fdk threadInfo st).exited = none) := by
  constructor
  · intro h
    by_cases hp : threadInfo.nproj = st.geometry.length + 1
    · by_cases h3 : st.geometry.length + 1 < 3
      · rw [iteration_wait cfg fdk threadInfo st hp h3]
        simp [appended, AddProjection_length, hp]
      · have h3' : 3 ≤ st.geometry.length + 1 := not_lt.mp h3
        cases hs : threadInfo.stop <;> cases hsel : backendSelected cfg
        · rw [iteration_ordinary_unselected cfg fdk threadInfo st hp h3' hs hsel]
          simp [appended, AddProjection_length, hp]
        · rw [iteration_ordinary cfg fdk threadInfo st hp h3' hs hsel]
          simp [appended, AddProjection_length, hp]
        · rw [iteration_last_unselected cfg fdk threadInfo st hp h3' hs hsel]
          simp [appended, AddProjection_length, hp]
        · rw [iteration_last cfg fdk threadInfo st hp h3' hs hsel]
          simp [appended, AddProjection_length, hp]
    · rw [iteration_abort cfg fdk threadInfo st h hp]
      simp [appended, AddProjection_length]
  · intro h
    rw [iteration_idle cfg fdk threadInfo st h]
    simp

theorem FileNamesInv_init (cfg : Config) (constantImage : V) (garbage : ThreadInfoStruct)
    (hname : garbage.fileName = "") :
    FileNamesInv (InlineSystem.init cfg constantImage garbage) := by
  unfold FileNamesInv InlineSystem.init InlineThreadCallbackSetup
  simp only [mainThreadInfo, hname]
  split_ifs <;> simp

theorem FileNamesInv_step (acq : Acquisition) (cfg : Config) (fdk : FDKRequest → V → V)
    (s : InlineSystem V) (a : Action) (hc : CountInv acq s) (h : FileNamesInv s) :
    FileNamesInv (InlineSystem.step acq cfg fdk s a) := by
  obtain ⟨h1, h2, h3, h4⟩ := h
  cases a with
  | publish =>
    unfold InlineSystem.step
    simp only
    split_ifs with hx hi
    · exact ⟨h1, h2, h3, h4⟩
    · cases hpub : AcquisitionPublish acq s.i with
      | none => exact ⟨h1, h2, h3, h4⟩
      | some threadInfo =>
        obtain ⟨_, hn, _⟩ := AcquisitionPublish_fields acq s.i threadInfo hpub
        refine ⟨h1, h2, h3, ?_⟩
        intro hex
        have hle := (h4 hex).1
        have hci := hc.1
        show s.consumer.geometry.length ≤ threadInfo.nproj
          ∧ (s.consumer.geometry.length = threadInfo.nproj → _)
        exact ⟨by omega, fun he => by omega⟩
    · exact ⟨h1, h2, h3, h4⟩
  | consume =>
    unfold InlineSystem.step
    simp only
    split_ifs with hx
    · exact ⟨h1, h2, h3, h4⟩
    · have hex : s.exited = none := by
        cases he : s.exited with
        | none => rfl
        | some c => simp [he] at hx
      obtain ⟨hle, hlast⟩ := h4 hex
      obtain ⟨hcons, hidle⟩ := iteration_state cfg fdk s.threadInfo s.consumer
      by_cases hlt : s.consumer.geometry.length < s.threadInfo.nproj
      · obtain ⟨hf, hg, hrun⟩ := hcons hlt
        obtain ⟨p1, p2, p3, p4⟩ :=
          pushFileName_inv s.consumer.fileNames s.threadInfo.fileName h1 h2
        refine ⟨?_, ?_, ?_, ?_⟩
        · show "" ∉ (InlineThreadCallbackIteration cfg fdk s.threadInfo s.consumer).state.fileNames
          rw [hf]
          exact p1
        · show List.Chain' _
            (InlineThreadCallbackIteration cfg fdk s.threadInfo s.consumer).state.fileNames
          rw [hf]
          exact p2
        · show (InlineThreadCallbackIteration cfg fdk s.threadInfo s.consumer).state.fileNames.length
            ≤ (InlineThreadCallbackIteration cfg fdk s.threadInfo s.consumer).state.geometry.length
          rw [hf, hg]
          omega
        · intro hnone
          have hp := hrun hnone
          show (InlineThreadCallbackIteration cfg fdk s.threadInfo s.consumer).state.geometry.length
              ≤ s.threadInfo.nproj
            ∧ ((InlineThreadCallbackIteration cfg fdk s.threadInfo
                  s.consumer).state.geometry.length = s.threadInfo.nproj →
                s.threadInfo.fileName = ""
                  ∨ (InlineThreadCallbackIteration cfg fdk s.threadInfo
                      s.consumer).state.fileNames.getLast? = some s.threadInfo.fileName)
          rw [hf, hg]
          exact ⟨by omega, fun _ => p4⟩
      · obtain ⟨hst, hnone⟩ := hidle (not_lt.mp hlt)
        refine ⟨?_, ?_, ?_, ?_⟩
        · show "" ∉ (InlineThreadCallbackIteration cfg fdk s.threadInfo s.consumer).state.fileNames
          rw [hst]
          exact h1
        · show List.Chain' _
            (InlineThreadCallbackIteration cfg fdk s.threadInfo s.consumer).state.fileNames
          rw [hst]
          exact h2
        · show (InlineThreadCallbackIteration cfg fdk s.threadInfo s.consumer).state.fileNames.length
            ≤ (InlineThreadCallbackIteration cfg fdk s.threadInfo s.consumer).state.geometry.length
          rw [hst]
          exact h3
        · intro _
          show (InlineThreadCallbackIteration cfg fdk s.threadInfo s.consumer).state.geometry.length
              ≤ s.threadInfo.nproj
            ∧ ((InlineThreadCallbackIteration cfg fdk s.threadInfo
                  s.consumer).state.geometry.length = s.threadInfo.nproj →
                s.threadInfo.fileName = ""
                  ∨ (InlineThreadCallbackIteration cfg fdk s.threadInfo
                      s.consumer).state.fileNames.getLast? = some s.threadInfo.fileName)
          rw [hst]
          exact ⟨hle, hlast⟩

theorem FileNamesInv_run (acq : Acquisition) (cfg : Config) (fdk : FDKRequest → V → V)
    (schedule : List Action) :
    ∀ s : InlineSystem V, CountInv acq s → FileNamesInv s →
      FileNamesInv (InlineSystem.run acq cfg fdk s schedule) := by
  induction schedule with
  | nil => intro s _ h; exact h
  | cons a as ih =>
    intro s hc h
    exact ih _ (CountInv_step acq cfg fdk s a hc).1 (FileNamesInv_step acq cfg fdk s a hc h)

/-- Claim C26. Whatever the interleaving of the two threads (the shared file name being the empty
string before the first publication), the file-name list of the reconstruction thread contains no
empty string and no two adjacent equal entries and is not longer than the local geometry; and an
iteration of the running reconstruction loop appends the published file name exactly when that
name is not empty and differs from the last entry of the list (an empty list has no last entry),
otherwise it leaves the list unchanged. -/
theorem InlineThreadCallback_fileNames (acq : Acquisition) (cfg : Config)
    (fdk : FDKRequest → V → V) (constantImage : V) (garbage : ThreadInfoStruct)
    (schedule : List Action) (hname : garbage.fileName = "") :
    "" ∉ (InlineSystem.run acq cfg fdk (InlineSystem.init cfg constantImage garbage)
        schedule).consumer.fileNames
      ∧ List.Chain' (fun a b => a ≠ b)
          (InlineSystem.run acq cfg fdk (InlineSystem.init cfg constantImage garbage)
            schedule).consumer.fileNames
      ∧ (InlineSystem.run acq cfg fdk (InlineSystem.init cfg constantImage garbage)
          schedule).consumer.fileNames.length
        ≤ (InlineSystem.run acq cfg fdk (InlineSystem.init cfg constantImage garbage)
          schedule).consumer.geometry.length
      ∧ ((InlineSystem.run acq cfg fdk (InlineSystem.init cfg constantImage garbage)
            schedule).exited = none →
          (InlineSystem.run acq cfg fdk (InlineSystem.init cfg constantImage garbage)
            schedule).fault = false →
          (InlineSystem.run acq cfg fdk (InlineSystem.init cfg constantImage garbage)
            (schedule ++ [Action.consume])).consumer.fileNames
            = if (InlineSystem.run acq cfg fdk (InlineSystem.init cfg constantImage garbage)
                    schedule).threadInfo.fileName ≠ ""
                ∧ (InlineSystem.run acq cfg fdk (InlineSystem.init cfg constantImage garbage)
                    schedule).consumer.fileNames.getLast?
                  ≠ some (InlineSystem.run acq cfg fdk
                      (InlineSystem.init cfg constantImage garbage)
                      schedule).threadInfo.fileName
              then
                (InlineSystem.run acq cfg fdk (InlineSystem.init cfg constantImage garbage)
                  schedule).consumer.fileNames
                  ++ [(InlineSystem.run acq cfg fdk
                        (InlineSystem.init cfg constantImage garbage)
                        schedule).threadInfo.fileName]
              else
                (InlineSystem.run acq cfg fdk (InlineSystem.init cfg constantImage garbage)
                  schedule).consumer.fileNames) := by
  have hinv := FileNamesInv_run acq cfg fdk schedule _
    (CountInv_init acq cfg constantImage garbage)
    (FileNamesInv_init cfg constantImage garbage hname)
  have happ : InlineSystem.run acq cfg fdk (InlineSystem.init cfg constantImage garbage)
      (schedule ++ [Action.consume])
      = InlineSystem.step acq cfg fdk
          (InlineSystem.run acq cfg fdk (InlineSystem.init cfg constantImage garbage) schedule)
          Action.consume := by
    simp [InlineSystem.run, List.foldl_append]
  rw [happ]
  generalize InlineSystem.run acq cfg fdk (InlineSystem.init cfg constantImage garbage)
    schedule = s at hinv ⊢
  obtain ⟨h1, h2, h3, h4⟩ := hinv
  refine ⟨h1, h2, h3, ?_⟩
  intro hex hf
  obtain ⟨hle, hlast⟩ := h4 hex
  obtain ⟨hcons, hidle⟩ := iteration_state cfg fdk s.threadInfo s.consumer
  have hstep : (InlineSystem.step acq cfg fdk s Action.consume).consumer
      = (InlineThreadCallbackIteration cfg fdk s.threadInfo s.consumer).state := by
    simp [InlineSystem.step, hex, hf]
  rw [hstep]
  by_cases hlt : s.consumer.geometry.length < s.threadInfo.nproj
  · rw [(hcons hlt).1, pushFileName_eq]
  · rw [(hidle (not_lt.mp hlt)).1]
    have heq : s.consumer.geometry.length = s.threadInfo.nproj := by omega
    have hcond : ¬ (s.threadInfo.fileName ≠ ""
        ∧ s.consumer.fileNames.getLast? ≠ some s.threadInfo.fileName) := by
      rintro ⟨hn, hl⟩
      rcases hlast heq with h | h
      · exact hn h
      · exact hl h
    rw [if_neg hcond]

theorem InlineThreadCallback_fileNames_witness :
    exampleInitialShared.fileName = ""
      ∧ (InlineSystem.run exampleFilesAcquisition exampleConfig exampleFdk
          (InlineSystem.init exampleConfig 0 exampleInitialShared)
          exampleSchedule).consumer.fileNames = ["a.his", "b.his", "c.his"]
      ∧ "" ∉ (InlineSystem.run exampleFilesAcquisition exampleConfig exampleFdk
          (InlineSystem.init exampleConfig 0 exampleInitialShared)
          exampleSchedule).consumer.fileNames
      ∧ (InlineSystem.run exampleFilesAcquisition exampleConfig exampleFdk
          (InlineSystem.init exampleConfig 0 exampleInitialShared)
          exampleSchedule).consumer.fileNames.length
        ≤ (InlineSystem.run exampleFilesAcquisition exampleConfig exampleFdk
          (InlineSystem.init exampleConfig 0 exampleInitialShared)
          exampleSchedule).consumer.geometry.length :=
  ⟨by decide, by decide,
    (InlineThreadCallback_fileNames exampleFilesAcquisition exampleConfig exampleFdk 0
      exampleInitialShared exampleSchedule (by decide)).1,
    (InlineThreadCallback_fileNames exampleFilesAcquisition exampleConfig exampleFdk 0
      exampleInitialShared exampleSchedule (by decide)).2.2.1⟩

end filenames

end RTK
